import Mathlib

/-!
# TaskDash: request pipeline and frontend logic

A shallow embedding of the Express controllers of the TaskDash backend
(`backend/src/controllers/authController.js` and
`backend/src/controllers/taskController.js`) together with the parts of the
`zod` validation library they call, and of the pieces of the frontend that
carry logic (the routes of `App.jsx`, the links of `Sidebar.jsx`, the stats
of `Profile.jsx`, the task filter and form schema of `Dashboard.jsx`, the
form schema of `Register.jsx`), followed by theorems about them.

Handlers are functions from a store and a request to a store and a response.
Every `await` of the source is a plain function call here: a request is
handled from start to end against one store value.
-/

set_option autoImplicit false

namespace TaskDash

/-! ## JSON values and responses -/

/-- A JSON value, as delivered by the body parser and as sent by `res.json`.
Numbers are carried as integers: the schemas of the controllers only look at
the type of a number, never at its value. An object is an association list in
which the first binding of a key is the one that counts. -/
inductive Json where
  | null
  | bool (b : Bool)
  | num (n : Int)
  | str (s : String)
  | arr (xs : List Json)
  | obj (kvs : List (String × Json))

/-- Property access `data[key]` on a request body: `none` is `undefined`. -/
def Json.field (key : String) : Json → Option Json
  | .obj kvs => kvs.lookup key
  | _ => none

/-- The keys of a JSON object, in order. -/
def Json.keys : Json → List String
  | .obj kvs => kvs.map Prod.fst
  | _ => []

/-- The error body `{ message }` every handler sends on failure. -/
def message (m : String) : Json := .obj [("message", .str m)]

/-- The response of a handler: `res.status(status).json(body)`. -/
structure Response where
  status : Nat
  body : Json

/-- The JavaScript `length` of a string: the number of UTF-16 code units. -/
def jsLength (s : String) : Nat :=
  (s.data.map fun c => if c.toNat < 65536 then 1 else 2).sum

/-! ## The zod schemas used by the controllers (zod 3) -/

/-- The type tags of zod's `getParsedType` that a JSON value can have. -/
inductive ZodParsedType where
  | string | number | boolean | null | undefined | array | object
  deriving DecidableEq

/-- The name of a type tag, as it appears in messages. -/
def ZodParsedType.name : ZodParsedType → String
  | .string => "string"
  | .number => "number"
  | .boolean => "boolean"
  | .null => "null"
  | .undefined => "undefined"
  | .array => "array"
  | .object => "object"

/-- The zod function `getParsedType`, on a value that may be `undefined`. -/
def getParsedType : Option Json → ZodParsedType
  | none => .undefined
  | some .null => .null
  | some (.bool _) => .boolean
  | some (.num _) => .number
  | some (.str _) => .string
  | some (.arr _) => .array
  | some (.obj _) => .object

/-- An issue of a failed parse: the path of the offending value and the
message shown for it. -/
structure ZodIssue where
  path : List String
  message : String

/-- A thrown `ZodError`. It always carries at least one issue, so
`error.errors[0]` is `first`. -/
structure ZodError where
  first : ZodIssue
  rest : List ZodIssue

/-- The issues of a `ZodError`, in order. -/
def ZodError.errors (e : ZodError) : List ZodIssue := e.first :: e.rest

/-- The message of the default error map for an `invalid_type` issue. -/
def invalidTypeMessage (expected : String) (received : ZodParsedType) : String :=
  if received = .undefined then "Required"
  else "Expected " ++ expected ++ ", received " ++ received.name

/-- A check attached to `z.string()`, with its optional custom message. -/
inductive StringCheck where
  | min (value : Nat) (msg : Option String)
  | email (msg : Option String)

/-- The issue message a string check adds for `data`, if it fails.
`isEmail` stands for zod's e-mail regular expression. -/
def StringCheck.run (isEmail : String → Bool) (data : String) : StringCheck → Option String
  | .min value msg =>
    if jsLength data < value then
      some (msg.getD ("String must contain at least " ++ Nat.repr value ++ " character(s)"))
    else none
  | .email msg =>
    if isEmail data then none else some (msg.getD "Invalid email")

/-- The zod function `util.joinValues` on string values. -/
def joinValues (values : List String) : String :=
  " | ".intercalate (values.map fun v => "'" ++ v ++ "'")

/-- The field schemas the controllers build. -/
inductive ZodType where
  | string (checks : List StringCheck)
  | enum (values : List String)
  | optional (inner : ZodType)

/-- The outcome of parsing one value: the issue messages added, and the
parsed value (`none` is `undefined`; every schema here yields a string or
`undefined`). The parse is valid when no issue was added. -/
structure ParseReturn where
  issues : List String
  value : Option String

/-- The method `_parse` of a field schema. `z.string()` stops at a type
mismatch and otherwise runs every check; `z.enum` reports a non-string as a
type mismatch and an unlisted string as an invalid enum value; `.optional()`
accepts `undefined` and otherwise defers to the inner schema. -/
def ZodType.parse (isEmail : String → Bool) : ZodType → Option Json → ParseReturn
  | .string checks, input =>
    match input with
    | some (.str data) => ⟨checks.filterMap (StringCheck.run isEmail data), some data⟩
    | _ => ⟨[invalidTypeMessage "string" (getParsedType input)], none⟩
  | .enum values, input =>
    match input with
    | some (.str data) =>
      if data ∈ values then ⟨[], some data⟩
      else ⟨["Invalid enum value. Expected " ++ joinValues values ++ ", received '"
              ++ data ++ "'"], none⟩
    | _ => ⟨[invalidTypeMessage (joinValues values) (getParsedType input)], none⟩
  | .optional inner, input =>
    match input with
    | none => ⟨[], none⟩
    | some _ => inner.parse isEmail input

/-- The issues of one key of an object schema, with their path. -/
def keyIssues (isEmail : String → Bool) (data : Json) (kv : String × ZodType) : List ZodIssue :=
  ((kv.2.parse isEmail (data.field kv.1)).issues).map fun m => ⟨[kv.1], m⟩

/-- The parsed object of a successful `schema.parse`: the shape's keys with
their parsed values; unknown keys of the input are stripped. -/
abbrev Parsed := List (String × Option String)

/-- Destructuring `const { key } = parsed` of a key that may be `undefined`. -/
def Parsed.opt (p : Parsed) (key : String) : Option String :=
  (p.lookup key).join

/-- Destructuring `const { key } = parsed` of a key whose schema is a plain
`z.string()`: such a key always holds a string after a successful parse, so
the default is never taken. -/
def Parsed.str (p : Parsed) (key : String) : String :=
  (p.opt key).getD ""

/-- The call `z.object(shape).parse(body)`: a body that is not an object is
one `invalid_type` issue; otherwise the keys of the shape are parsed in
order, their issues are collected in that order, and the parse throws when
there is any issue. -/
def zObjectParse (isEmail : String → Bool) (shape : List (String × ZodType))
    (body : Option Json) : Except ZodError Parsed :=
  match body with
  | some (.obj kvs) =>
    match shape.flatMap (keyIssues isEmail (.obj kvs)) with
    | [] => .ok (shape.map fun kv => (kv.1, (kv.2.parse isEmail ((Json.obj kvs).field kv.1)).value))
    | i :: is => .error ⟨i, is⟩
  | _ => .error ⟨⟨[], invalidTypeMessage "object" (getParsedType body)⟩, []⟩

/-! ## Collaborators outside the controllers -/

/-- The primitives of the libraries the backend calls, taken as parameters:
zod's e-mail regular expression, the identifier generator of the database,
the salted password hash and its comparison (bcrypt), and the token signer
of `utils/generateToken` (a signed token for an identifier, issued at a
given time). -/
structure Env where
  isEmail : String → Bool
  objectId : Nat → String
  hash : Nat → String → String
  compare : String → String → Bool
  generateToken : String → Nat → String

/-- A stored user document. `password` holds the hash. -/
structure User where
  id : String
  name : String
  email : String
  password : String
  createdAt : Nat

/-- A stored task document. `user` is the identifier of the owner. -/
structure Task where
  id : String
  title : String
  description : String
  status : String
  user : String
  createdAt : Nat
  updatedAt : Nat

/-- The document store: the user and task collections, in insertion order,
and the number of identifiers handed out so far. -/
structure Store where
  users : List User
  tasks : List Task
  seq : Nat

/-- The identity the authentication middleware attaches as `req.user`. -/
structure ReqUser where
  id : String
  name : String
  email : String

/-- The parts of an Express request the handlers read: the parsed body
(`none` is `undefined`), `req.params.id`, the query string, `req.user`
(`none` when the middleware attached nothing) and the time of handling. -/
structure Request where
  body : Option Json := none
  id : String := ""
  query : List (String × String) := []
  user : Option ReqUser := none
  now : Nat := 0

/-- Modelled from the spec: the model `models/User.js` is not among the
sources. `findByEmail(email) -> User|absent`; the first stored user with
that e-mail. -/
def User.findOne (s : Store) (email : String) : Option User :=
  s.users.find? fun u => u.email == email

/-- Modelled from the spec: the model `models/User.js` is not among the
sources. `findById(id) -> User|absent`. -/
def User.findById (s : Store) (id : String) : Option User :=
  s.users.find? fun u => u.id == id

/-- Modelled from the spec: the model `models/User.js` is not among the
sources. `create(name, email, passwordHash) -> User`, failing with
`DuplicateEmail` if the e-mail exists; the password is hashed with a fresh
salt on the way in and the identifier is assigned by the server. -/
def User.create (env : Env) (s : Store) (now : Nat) (name email password : String) :
    Except String (Store × User) :=
  if (User.findOne s email).isSome then .error "DuplicateEmail"
  else
    let user : User :=
      { id := env.objectId s.seq, name := name, email := email,
        password := env.hash s.seq password, createdAt := now }
    .ok ({ s with users := s.users ++ [user], seq := s.seq + 1 }, user)

/-- Modelled from the spec: the model `models/User.js` is not among the
sources. `user.matchPassword(entered)`: the one-way comparison of the entered
password with the stored hash. -/
def User.matchPassword (env : Env) (user : User) (entered : String) : Bool :=
  env.compare entered user.password

/-- Modelled from the spec: the model `models/User.js` is not among the
sources. `update(id, fields) -> User`, failing with `NotFound` if the id is
unknown: `user.save()` of a loaded and modified document. The e-mail is
unique and uniqueness is enforced at write time, so a save that would give
the user an e-mail another stored user holds fails with `DuplicateEmail`, as
`create` does. -/
def User.save (s : Store) (user : User) : Except String (Store × User) :=
  if (User.findById s user.id).isSome then
    if s.users.any (fun u => u.id != user.id && u.email == user.email) then
      .error "DuplicateEmail"
    else
      .ok ({ s with users := s.users.map fun u => if u.id == user.id then user else u }, user)
  else .error "NotFound"

/-- Modelled from the spec: the model `models/Task.js` is not among the
sources. `findById(id) -> Task|absent`. -/
def Task.findById (s : Store) (id : String) : Option Task :=
  s.tasks.find? fun t => t.id == id

/-- Modelled from the spec: the model `models/Task.js` is not among the
sources. `create(fields, ownerId) -> Task`; the status defaults to `pending`
when omitted, and both timestamps are the time of creation. -/
def Task.create (env : Env) (s : Store) (now : Nat) (title description : String)
    (status : Option String) (user : String) : Store × Task :=
  let task : Task :=
    { id := env.objectId s.seq, title := title, description := description,
      status := status.getD "pending", user := user, createdAt := now, updatedAt := now }
  ({ s with tasks := s.tasks ++ [task], seq := s.seq + 1 }, task)

/-- The fields `{ title, description, status }` applied to a task; a field
that is `undefined` leaves the stored value as it is. -/
def Task.patch (now : Nat) (title description status : Option String) (t : Task) : Task :=
  { t with title := title.getD t.title, description := description.getD t.description,
           status := status.getD t.status, updatedAt := now }

/-- Replace the first element that satisfies `p` by its image under `f`. -/
def replaceFirst {α : Type} (p : α → Bool) (f : α → α) : List α → List α
  | [] => []
  | x :: xs => if p x then f x :: xs else x :: replaceFirst p f xs

/-- Modelled from the spec: the model `models/Task.js` is not among the
sources. `update(id, fields) -> Task` with `{ new: true }`: the document
after the update, or `null` when the id is unknown. -/
def Task.findByIdAndUpdate (s : Store) (now : Nat) (id : String)
    (title description status : Option String) : Store × Option Task :=
  ({ s with tasks := replaceFirst (fun t => t.id == id) (Task.patch now title description status)
                       s.tasks },
   (Task.findById s id).map (Task.patch now title description status))

/-- Modelled from the spec: the model `models/Task.js` is not among the
sources. `delete(id) -> void`: `task.deleteOne()` removes the document with
the identifier of `task`. -/
def Task.deleteOne (s : Store) (task : Task) : Store :=
  { s with tasks := s.tasks.eraseP fun t => t.id == task.id }

/-- The JSON form of a task document, as `res.json(task)` sends it. -/
def Task.toJson (t : Task) : Json :=
  .obj [("_id", .str t.id), ("title", .str t.title), ("description", .str t.description),
        ("status", .str t.status), ("user", .str t.user),
        ("createdAt", .num t.createdAt), ("updatedAt", .num t.updatedAt)]

/-- The body `{ _id, name, email, token }` of the auth handlers. -/
def authBody (env : Env) (now : Nat) (user : User) : Json :=
  .obj [("_id", .str user.id), ("name", .str user.name), ("email", .str user.email),
        ("token", .str (env.generateToken user.id now))]

/-! ## authController.js -/

/-- The schema of `registerUser`. -/
def registerSchema : List (String × ZodType) :=
  [("name", .string [.min 2 none]),
   ("email", .string [.email none]),
   ("password", .string [.min 6 none])]

/-- The handler `registerUser` (`POST /api/auth/register`). The branch
`else res.status(400).json({ message: 'Invalid user data' })` is not
reachable: `User.create` returns a document, and a document is truthy. -/
def registerUser (env : Env) (s : Store) (req : Request) : Store × Response :=
  match zObjectParse env.isEmail registerSchema req.body with
  | .error e => (s, ⟨400, message e.first.message⟩)
  | .ok p =>
    let name := p.str "name"
    let email := p.str "email"
    let password := p.str "password"
    match User.findOne s email with
    | some _ => (s, ⟨400, message "User already exists"⟩)
    | none =>
      match User.create env s req.now name email password with
      | .error m => (s, ⟨500, message m⟩)
      | .ok (s', user) => (s', ⟨201, authBody env req.now user⟩)

/-- The schema of `loginUser`. -/
def loginSchema : List (String × ZodType) :=
  [("email", .string [.email none]),
   ("password", .string [])]

/-- The handler `loginUser` (`POST /api/auth/login`). `res.json` without
`res.status` answers 200. -/
def loginUser (env : Env) (s : Store) (req : Request) : Store × Response :=
  match zObjectParse env.isEmail loginSchema req.body with
  | .error e => (s, ⟨400, message e.first.message⟩)
  | .ok p =>
    let email := p.str "email"
    let password := p.str "password"
    match User.findOne s email with
    | some user =>
      if User.matchPassword env user password then (s, ⟨200, authBody env req.now user⟩)
      else (s, ⟨401, message "Invalid credentials"⟩)
    | none => (s, ⟨401, message "Invalid credentials"⟩)

/-! ## taskController.js -/

/-- The schema of `createTask`. -/
def createTaskSchema : List (String × ZodType) :=
  [("title", .string [.min 1 (some "Title is required")]),
   ("description", .string [.min 1 (some "Description is required")]),
   ("status", .optional (.enum ["pending", "in_progress", "completed"]))]

/-- The handler `createTask` (`POST /api/tasks`). Reading `req.user.id`
when `req.user` is `undefined` throws a `TypeError`, which the handler
catches and answers with 500. -/
def createTask (env : Env) (s : Store) (req : Request) : Store × Response :=
  match zObjectParse env.isEmail createTaskSchema req.body with
  | .error e => (s, ⟨400, message e.first.message⟩)
  | .ok p =>
    let title := p.str "title"
    let description := p.str "description"
    let status := p.opt "status"
    match req.user with
    | none => (s, ⟨500, message "Cannot read properties of undefined (reading 'id')"⟩)
    | some u =>
      let (s', task) := Task.create env s req.now title description status u.id
      (s', ⟨201, task.toJson⟩)

/-- The schema of `updateTask`. -/
def updateTaskSchema : List (String × ZodType) :=
  [("title", .optional (.string [.min 1 none])),
   ("description", .optional (.string [.min 1 none])),
   ("status", .optional (.enum ["pending", "in_progress", "completed"]))]

/-- The handler `updateTask` (`PUT /api/tasks/:id`). -/
def updateTask (env : Env) (s : Store) (req : Request) : Store × Response :=
  match Task.findById s req.id with
  | none => (s, ⟨404, message "Task not found"⟩)
  | some task =>
    match req.user with
    | none => (s, ⟨401, message "User not found"⟩)
    | some u =>
      if task.user ≠ u.id then (s, ⟨401, message "User not authorized"⟩)
      else
        match zObjectParse env.isEmail updateTaskSchema req.body with
        | .error e => (s, ⟨400, message e.first.message⟩)
        | .ok p =>
          let title := p.opt "title"
          let description := p.opt "description"
          let status := p.opt "status"
          let (s', updatedTask) := Task.findByIdAndUpdate s req.now req.id title description status
          (s', ⟨200, match updatedTask with | some t => t.toJson | none => .null⟩)

/-- The handler `deleteTask` (`DELETE /api/tasks/:id`). -/
def deleteTask (s : Store) (req : Request) : Store × Response :=
  match Task.findById s req.id with
  | none => (s, ⟨404, message "Task not found"⟩)
  | some task =>
    match req.user with
    | none => (s, ⟨401, message "User not found"⟩)
    | some u =>
      if task.user ≠ u.id then (s, ⟨401, message "User not authorized"⟩)
      else (Task.deleteOne s task, ⟨200, .obj [("id", .str req.id)]⟩)

/-! ## authController.js: profile -/

/-- The schema of `updateProfile`. -/
def profileSchema : List (String × ZodType) :=
  [("name", .optional (.string [.min 2 none])),
   ("email", .optional (.string [.email none]))]

/-- JavaScript truthiness of a value that is a string or `undefined`, as in
`if (name)`: `undefined` and the empty string are falsy. -/
def truthy : Option String → Bool
  | some v => v ≠ ""
  | none => false

/-- The handler `updateProfile` (`PUT /api/auth/profile`). Reading
`req.user.id` when `req.user` is `undefined` throws a `TypeError`, which the
handler catches and answers with 500, as it does when `user.save()` fails. -/
def updateProfile (env : Env) (s : Store) (req : Request) : Store × Response :=
  match zObjectParse env.isEmail profileSchema req.body with
  | .error e => (s, ⟨400, message e.first.message⟩)
  | .ok p =>
    let name := p.opt "name"
    let email := p.opt "email"
    match req.user with
    | none => (s, ⟨500, message "Cannot read properties of undefined (reading 'id')"⟩)
    | some caller =>
      match User.findById s caller.id with
      | none => (s, ⟨404, message "User not found"⟩)
      | some user =>
        let user := if truthy name then { user with name := name.getD user.name } else user
        let user := if truthy email then { user with email := email.getD user.email } else user
        match User.save s user with
        | .error m => (s, ⟨500, message m⟩)
        | .ok (s', updatedUser) => (s', ⟨200, authBody env req.now updatedUser⟩)

/-! ## taskController.js: listing -/

/-- The white space `parseInt` skips at the start of its argument. -/
def isStrWhiteSpace (c : Char) : Bool :=
  c.toNat ∈ [9, 10, 11, 12, 13, 32, 160, 5760, 8232, 8233, 8239, 8287, 12288, 65279] ||
    (8192 ≤ c.toNat && c.toNat ≤ 8202)

/-- The value of a character as a digit, letters counting from ten. -/
def digitValue (c : Char) : Option Nat :=
  if 48 ≤ c.toNat ∧ c.toNat ≤ 57 then some (c.toNat - 48)
  else if 97 ≤ c.toNat ∧ c.toNat ≤ 122 then some (c.toNat - 87)
  else if 65 ≤ c.toNat ∧ c.toNat ≤ 90 then some (c.toNat - 55)
  else none

/-- The longest prefix of digits of the radix, as digit values. -/
def radixDigits (radix : Nat) : List Char → List Nat
  | [] => []
  | c :: cs =>
    match digitValue c with
    | some d => if d < radix then d :: radixDigits radix cs else []
    | none => []

/-- The sign `parseInt` reads, and the rest of the input. -/
def splitSign : List Char → Bool × List Char
  | '-' :: cs => (true, cs)
  | '+' :: cs => (false, cs)
  | cs => (false, cs)

/-- The radix `parseInt` picks without a radix argument, and the rest of the
input: 16 after `0x` or `0X`, else 10. -/
def splitRadix : List Char → Nat × List Char
  | '0' :: 'x' :: cs => (16, cs)
  | '0' :: 'X' :: cs => (16, cs)
  | cs => (10, cs)

/-- A JavaScript number as `getTasks` meets it: `NaN`, an infinity, or a
finite number whose value is an integer. Every number of the handler is of
this kind except the quotient `total / limit`, of which only the ceiling is
used. The sign of zero is not kept: nothing in the handler depends on it. -/
inductive JsNumber where
  | nan
  | infinity (negative : Bool)
  | int (value : Int)
  deriving DecidableEq

/-- A numeral as a JavaScript number. -/
instance JsNumber.instOfNat (n : Nat) : OfNat JsNumber n := ⟨.int n⟩

/-- The number of binary digits of `m`; the first argument bounds the
recursion. -/
def bitLength : Nat → Nat → Nat
  | 0, _ => 0
  | fuel + 1, m => if m = 0 then 0 else bitLength fuel (m / 2) + 1

/-- A natural number rounded to 53 significant binary digits, ties to even:
the precision of a JavaScript number. -/
def roundTo53 (m : Nat) : Nat :=
  let unit := 2 ^ (bitLength m m - 53)
  let q := m / unit
  let r := m % unit
  if 2 * r < unit then q * unit
  else if 2 * r = unit ∧ q % 2 = 0 then q * unit
  else (q + 1) * unit

/-- The JavaScript number nearest to an integer: the integer itself when it
has at most 53 significant binary digits, else its rounding, and an infinity
when the rounding has more than 1024 binary digits, that is from `2 ^ 1024`
on. -/
def JsNumber.ofInt (n : Int) : JsNumber :=
  if 1024 < bitLength (roundTo53 n.natAbs) (roundTo53 n.natAbs) then .infinity (decide (n < 0))
  else .int (if n < 0 then -(roundTo53 n.natAbs : Int) else roundTo53 n.natAbs)

/-- The operator `-` on these numbers. -/
def JsNumber.sub : JsNumber → JsNumber → JsNumber
  | .int a, .int b => JsNumber.ofInt (a - b)
  | .int _, .infinity negative => .infinity (!negative)
  | .infinity negative, .int _ => .infinity negative
  | .infinity n₁, .infinity n₂ => if n₁ = n₂ then .nan else .infinity n₁
  | .nan, _ => .nan
  | _, .nan => .nan

/-- The operator `*` on these numbers. -/
def JsNumber.mul : JsNumber → JsNumber → JsNumber
  | .int a, .int b => JsNumber.ofInt (a * b)
  | .int a, .infinity negative =>
    if a = 0 then .nan else .infinity (negative != decide (a < 0))
  | .infinity negative, .int b =>
    if b = 0 then .nan else .infinity (negative != decide (b < 0))
  | .infinity n₁, .infinity n₂ => .infinity (n₁ != n₂)
  | .nan, _ => .nan
  | _, .nan => .nan

/-- Whether a number is falsy, as the left operand of `||`: `NaN` and zero. -/
def JsNumber.falsy : JsNumber → Bool
  | .nan => true
  | .int value => value = 0
  | .infinity _ => false

/-- The JSON form of a number: `JSON.stringify` writes `NaN` and the
infinities as `null`. -/
def JsNumber.toJson : JsNumber → Json
  | .int value => .num value
  | _ => .null

/-- The JavaScript function `parseInt` on a string. Leading white space is
skipped, a sign is read, and the longest run of digits is the value, as a
JavaScript number; what follows the digits is ignored, and without a digit
the result is `NaN`. -/
def parseInt (input : String) : JsNumber :=
  let signed := splitSign (input.data.dropWhile isStrWhiteSpace)
  let based := splitRadix signed.2
  match radixDigits based.1 based.2 with
  | [] => .nan
  | d :: ds =>
    let value : Nat := (d :: ds).foldl (fun acc x => acc * based.1 + x) 0
    JsNumber.ofInt (if signed.1 then -(value : Int) else value)

/-- The expression `parseInt(param) || dflt` on a query parameter that may be
absent: `NaN` (also the result for an absent parameter) and zero are falsy
and give the default, every other number is kept. -/
def parseIntOr (param : Option String) (dflt : JsNumber) : JsNumber :=
  let parsed := match param with
    | some v => parseInt v
    | none => .nan
  if parsed.falsy then dflt else parsed

/-- The constant `page` of `getTasks`: `parseInt(req.query.page) || 1`. -/
def pageOf (req : Request) : JsNumber := parseIntOr (req.query.lookup "page") (.int 1)

/-- The constant `limit` of `getTasks`: `parseInt(req.query.limit) || 10`. -/
def limitOf (req : Request) : JsNumber := parseIntOr (req.query.lookup "limit") (.int 10)

/-- The constant `skip` of `getTasks`: `(page - 1) * limit`. -/
def skipOf (req : Request) : JsNumber := ((pageOf req).sub (.int 1)).mul (limitOf req)

/-- The ceiling of the quotient of two integers, the second other than
zero. -/
def ceilDiv (a b : Int) : Int := -(Int.fdiv (-a) b)

/-- The expression `Math.ceil(total / limit)`. For integers below `2 ^ 53`
in size the rounding of the quotient does not move it across an integer, so
its ceiling is the ceiling of the exact quotient; a finite number divided by
an infinity is zero. -/
def ceilQuotient : JsNumber → JsNumber → JsNumber
  | .int a, .int b =>
    if b = 0 then (if a = 0 then .nan else .infinity (decide (a < 0)))
    else .int (ceilDiv a b)
  | .int _, .infinity _ => .int 0
  | .infinity n₁, .int b => .infinity (n₁ != decide (b < 0))
  | .infinity _, .infinity _ => .nan
  | .nan, _ => .nan
  | _, .nan => .nan

/-- The order of `sort({ createdAt: -1 })`: the more recent task first. -/
def newerFirst (a b : Task) : Prop := b.createdAt ≤ a.createdAt

instance newerFirstDecidable : DecidableRel newerFirst :=
  fun a b => inferInstanceAs (Decidable (b.createdAt ≤ a.createdAt))

instance newerFirstTotal : IsTotal Task newerFirst :=
  ⟨fun a b => Nat.le_total b.createdAt a.createdAt⟩

instance newerFirstTrans : IsTrans Task newerFirst :=
  ⟨fun _ _ _ hab hbc => Nat.le_trans hbc hab⟩

/-- A query on the task collection, as the chain
`Task.find({ user }).skip(n).limit(m).sort({ createdAt: -1 })` builds it:
each call of the chain sets one option, and nothing runs before the query is
awaited. -/
structure TaskQuery where
  user : String
  skip : JsNumber := .int 0
  limit : JsNumber := .int 0
  sortNewerFirst : Bool := false

/-- The call `Task.find({ user })`. -/
def Task.find (user : String) : TaskQuery := { user := user }

/-- The call `.skip(n)` of the chain. -/
def TaskQuery.setSkip (q : TaskQuery) (n : JsNumber) : TaskQuery := { q with skip := n }

/-- The call `.limit(n)` of the chain. -/
def TaskQuery.setLimit (q : TaskQuery) (n : JsNumber) : TaskQuery := { q with limit := n }

/-- The call `.sort({ createdAt: -1 })` of the chain. -/
def TaskQuery.sortCreatedAtDesc (q : TaskQuery) : TaskQuery := { q with sortNewerFirst := true }

/-- The tasks of an owner, in insertion order. -/
def ownedBy (s : Store) (user : String) : List Task :=
  s.tasks.filter fun t => t.user == user

/-- The 64-bit integer the database reads a number as: `NaN` is zero, and a
number beyond the range of 64-bit integers is the nearest end of the
range. -/
def JsNumber.toInt64 : JsNumber → Int
  | .nan => 0
  | .infinity negative => if negative then -(2 ^ 63) else 2 ^ 63 - 1
  | .int value => max (-(2 ^ 63)) (min value (2 ^ 63 - 1))

/-- Modelled from the spec: the model `models/Task.js` is not among the
sources. `listByOwner(ownerId, pageOffset, pageSize) -> items`, ordered by
creation time descending: the database filters by owner, sorts, then skips,
then limits, in that order whatever the order of the calls of the chain. The
spec covers a non-negative offset and a positive size; outside that the
database is followed: it reads skip and limit as 64-bit integers, a negative
skip is refused, a limit of zero is no limit, and a negative limit counts as
its absolute value. -/
def TaskQuery.exec (s : Store) (q : TaskQuery) : Except String (List Task) :=
  if q.skip.toInt64 < 0 then .error "Skip value must be non-negative"
  else
    let found := ownedBy s q.user
    let sorted := if q.sortNewerFirst then found.insertionSort newerFirst else found
    let skipped := sorted.drop q.skip.toInt64.toNat
    .ok (if q.limit.toInt64 = 0 then skipped else skipped.take q.limit.toInt64.natAbs)

/-- Modelled from the spec: the model `models/Task.js` is not among the
sources. The `totalCount` of `listByOwner`: `Task.countDocuments({ user })`. -/
def Task.countDocuments (s : Store) (user : String) : Nat :=
  (ownedBy s user).length

/-- The body `{ tasks, page, limit, totalPages: Math.ceil(total / limit),
totalTasks: total }` of `getTasks`; the count `total` is a JavaScript number
as well. -/
def tasksBody (tasks : List Task) (page limit : JsNumber) (total : Nat) : Json :=
  .obj [("tasks", .arr (tasks.map Task.toJson)), ("page", page.toJson),
        ("limit", limit.toJson),
        ("totalPages", (ceilQuotient (JsNumber.ofInt total) limit).toJson),
        ("totalTasks", (JsNumber.ofInt total).toJson)]

/-- The handler `getTasks` (`GET /api/tasks`). It writes nothing, so it
returns only the response. Reading `req.user.id` when `req.user` is
`undefined`, or a query the database refuses, is answered with 500. -/
def getTasks (s : Store) (req : Request) : Response :=
  let page := pageOf req
  let limit := limitOf req
  let skip := (page.sub (.int 1)).mul limit
  match req.user with
  | none => ⟨500, message "Cannot read properties of undefined (reading 'id')"⟩
  | some caller =>
    let total := Task.countDocuments s caller.id
    match (((Task.find caller.id).setSkip skip).setLimit limit).sortCreatedAtDesc.exec s with
    | .error m => ⟨500, message m⟩
    | .ok tasks => ⟨200, tasksBody tasks page limit total⟩

/-! ## Frontend: App.jsx and Sidebar.jsx -/

/-- An entry of `navItems` of the Sidebar: its label and the path it links
to. -/
structure NavItem where
  label : String
  path : String

/-- The constant `navItems` of `Sidebar.jsx`; the commented-out entries are
not part of it. -/
def Sidebar.navItems : List NavItem :=
  [{ label := "Dashboard", path := "/dashboard" },
   { label := "My Tasks", path := "/tasks" },
   { label := "Profile", path := "/profile" }]

/-- A `Route` with a path that `App` declares: the path, the page it renders
and whether it sits under `ProtectedRoute`. -/
structure Route where
  path : String
  element : String
  guarded : Bool

/-- The routes of `App.jsx`, in order. -/
def App.routes : List Route :=
  [{ path := "/login", element := "Login", guarded := false },
   { path := "/register", element := "Register", guarded := false },
   { path := "/dashboard", element := "Dashboard", guarded := true },
   { path := "/tasks", element := "MyTasks", guarded := true },
   { path := "/", element := "Navigate to /dashboard", guarded := false }]

/-- Whether `App` declares a route for a location. None of the routes has a
parameter or a wildcard, so a location matches a route when it is its path. -/
def App.hasRoute (location : String) : Bool :=
  App.routes.any fun r => r.path == location

/-! ## Frontend: Profile.jsx -/

/-- The request of `api.get("/tasks?limit=1000")`, sent with the token of
the user the middleware resolves. -/
def Profile.request (user : Option ReqUser) : Request :=
  { user := user, query := [("limit", "1000")] }

/-- The state `tasks` of `Profile` after `fetchTasks`: the `tasks` of the
response when the request succeeds and carries them, else the initial empty
list (a failed request is only logged). -/
def Profile.fetchTasks (s : Store) (user : Option ReqUser) : List Json :=
  let response := getTasks s (Profile.request user)
  if 200 ≤ response.status ∧ response.status < 300 then
    match response.body.field "tasks" with
    | some (.arr tasks) => tasks
    | _ => []
  else []

/-- The test `t.status === status` on a task of the response. -/
def Profile.statusIs (status : String) (t : Json) : Bool :=
  match t.field "status" with
  | some (.str v) => v == status
  | _ => false

/-- The three values of the stats cards of `Profile`. -/
structure ProfileStats where
  totalTasks : Nat
  completedTasks : Nat
  pendingTasks : Nat

/-- The constants `totalTasks`, `completedTasks` and `pendingTasks` of
`Profile`, computed from the state `tasks`. -/
def Profile.stats (tasks : List Json) : ProfileStats :=
  { totalTasks := tasks.length,
    completedTasks := (tasks.filter (Profile.statusIs "completed")).length,
    pendingTasks :=
      (tasks.filter fun t =>
        Profile.statusIs "pending" t || Profile.statusIs "in_progress" t).length }

/-! ## Frontend: Dashboard.jsx -/

/-- The method `includes` of a string: the search occurs in it as a
contiguous run. -/
def includes (text search : String) : Bool :=
  decide (search.data <:+: text.data)

/-- The constant `filteredTasks` of `Dashboard`: the status filter, then
the search filter. `toLowerCase` stands for the method of that name. -/
def Dashboard.filteredTasks (toLowerCase : String → String) (tasks : List Task)
    (filter search : String) : List Task :=
  (tasks.filter fun task => if filter = "all" then true else task.status == filter).filter
    fun task =>
      includes (toLowerCase task.title) (toLowerCase search) ||
        includes (toLowerCase task.description) (toLowerCase search)

/-- The schema `taskSchema` of `Dashboard.jsx`. -/
def Dashboard.taskSchema : List (String × ZodType) :=
  [("title", .string [.min 1 (some "Title is required")]),
   ("description", .string [.min 1 (some "Description is required")]),
   ("status", .enum ["pending", "in_progress", "completed"])]

/-- The JSON object of the given fields; a field that is `undefined` is left
out, as `JSON.stringify` does. -/
def jsonOfFields (fields : List (String × Option String)) : Json :=
  .obj (fields.filterMap fun kv => kv.2.map fun v => (kv.1, Json.str v))

/-- The body of `api.post("/tasks", data)`: the parsed form value. -/
def Dashboard.body (data : Parsed) : Json := jsonOfFields data

/-! ## Frontend: Register.jsx -/

/-- The string fields of `registerSchema` of `Register.jsx`, in order. -/
def Register.stringShape : List (String × ZodType) :=
  [("name", .string [.min 2 (some "Name must be at least 2 characters")]),
   ("email", .string [.email (some "Invalid email address")]),
   ("password", .string [.min 6 (some "Password must be at least 6 characters")]),
   ("confirmPassword", .string [])]

/-- The issues of the key `terms`, a `z.literal(true)` with its own message. -/
def Register.termsIssues (data : Json) : List ZodIssue :=
  match data.field "terms" with
  | some (.bool true) => []
  | _ => [⟨["terms"], "You must accept the terms and conditions"⟩]

/-- Whether the object part of the parse is aborted, so that the refinement
does not run: a string field that is not a string, or `terms` other than
`true`. -/
def Register.aborted (isEmail : String → Bool) (data : Json) : Bool :=
  (Register.stringShape.any fun kv => (kv.2.parse isEmail (data.field kv.1)).value.isNone) ||
    !(Register.termsIssues data).isEmpty

/-- The parse of a form value by `registerSchema` of `Register.jsx`, as the
resolver of the form runs it: the object with its five keys, then the
refinement `password === confirmPassword`. The parsed `terms` is not kept,
nothing reads it. -/
def Register.registerSchemaParse (isEmail : String → Bool) (form : Option Json) :
    Except ZodError Parsed :=
  match form with
  | some (.obj kvs) =>
    let data := Json.obj kvs
    let issues := Register.stringShape.flatMap (keyIssues isEmail data) ++
      Register.termsIssues data
    let parsed : Parsed :=
      Register.stringShape.map fun kv => (kv.1, (kv.2.parse isEmail (data.field kv.1)).value)
    let refined : List ZodIssue :=
      if Register.aborted isEmail data then []
      else if parsed.opt "password" = parsed.opt "confirmPassword" then []
      else [⟨["confirmPassword"], "Passwords do not match"⟩]
    match issues ++ refined with
    | [] => .ok parsed
    | i :: is => .error ⟨i, is⟩
  | _ => .error ⟨⟨[], invalidTypeMessage "object" (getParsedType form)⟩, []⟩

/-- Modelled from the spec: `context/AuthContext` is not among the sources.
`register(data.name, data.email, data.password)` posts the body
`{ name, email, password }` to `/api/auth/register`. -/
def Register.body (data : Parsed) : Json :=
  jsonOfFields [("name", data.opt "name"), ("email", data.opt "email"),
                ("password", data.opt "password")]

/-! ## Vocabulary of the specification -/

/-- The value of a key of a request body; `undefined` when the body is not
an object. -/
def bodyField (body : Option Json) (key : String) : Option Json :=
  body.bind (Json.field key)

/-- The value is a string. -/
def IsString (v : Option Json) : Prop := ∃ data, v = some (.str data)

/-- The value is a string of length at least `n`. -/
def IsStringMin (n : Nat) (v : Option Json) : Prop :=
  ∃ data, v = some (.str data) ∧ n ≤ jsLength data

/-- The value is a string of valid e-mail syntax. -/
def IsEmailString (isEmail : String → Bool) (v : Option Json) : Prop :=
  ∃ data, v = some (.str data) ∧ isEmail data = true

/-- A registration body is valid: the name is a string of length at least 2,
the e-mail is syntactically valid, the password is a string of length at
least 6. -/
def RegisterValid (isEmail : String → Bool) (body : Option Json) : Prop :=
  IsStringMin 2 (bodyField body "name") ∧ IsEmailString isEmail (bodyField body "email") ∧
    IsStringMin 6 (bodyField body "password")

/-- A login body passes validation: the e-mail is syntactically valid and
the password is a string. -/
def LoginValid (isEmail : String → Bool) (body : Option Json) : Prop :=
  IsEmailString isEmail (bodyField body "email") ∧ IsString (bodyField body "password")

/-- The message of the first violated field of an object, the fields taken
in the order of the shape; `none` when no field is violated. -/
def firstViolation (isEmail : String → Bool) (shape : List (String × ZodType)) (data : Json) :
    Option String :=
  shape.findSome? fun kv => (kv.2.parse isEmail (data.field kv.1)).issues.head?

/-- The validation message of a body: the message of its first violated
field, or, for a body that is not an object at all, the message that says
so; `none` for a body the shape accepts. -/
def validationMessage (isEmail : String → Bool) (shape : List (String × ZodType))
    (body : Option Json) : Option String :=
  match body with
  | some (.obj kvs) => firstViolation isEmail shape (.obj kvs)
  | _ => some (invalidTypeMessage "object" (getParsedType body))

/-- The user document `registerUser` creates from valid fields. -/
def newUser (env : Env) (s : Store) (now : Nat) (name email password : String) : User :=
  { id := env.objectId s.seq, name := name, email := email,
    password := env.hash s.seq password, createdAt := now }

/-- The store after a sequence of registration requests, handled in order. -/
def registerAll (env : Env) (s : Store) (reqs : List Request) : Store :=
  reqs.foldl (fun st r => (registerUser env st r).1) s

/-- The number of stored users with a given e-mail. -/
def emailCount (s : Store) (email : String) : Nat :=
  s.users.countP fun u => u.email == email

/-- The body is a JSON object. -/
def IsObject (body : Option Json) : Prop := ∃ kvs, body = some (.obj kvs)

/-- The three values of the status of a task. -/
def statuses : List String := ["pending", "in_progress", "completed"]

/-- The value is absent, or is one of the three status strings. -/
def IsStatusOrAbsent (v : Option Json) : Prop :=
  v = none ∨ ∃ data, v = some (.str data) ∧ data ∈ statuses

/-- A task body is valid for creation: title and description are non-empty
strings, and the status is absent or one of the three values. -/
def CreateValid (body : Option Json) : Prop :=
  IsStringMin 1 (bodyField body "title") ∧ IsStringMin 1 (bodyField body "description") ∧
    IsStatusOrAbsent (bodyField body "status")

/-- A profile body is accepted: it is an object, the name is absent or a
string of length at least 2, and the e-mail is absent or syntactically valid. -/
def ProfileValid (isEmail : String → Bool) (body : Option Json) : Prop :=
  IsObject body ∧
    (bodyField body "name" = none ∨ IsStringMin 2 (bodyField body "name")) ∧
    (bodyField body "email" = none ∨ IsEmailString isEmail (bodyField body "email"))

/-- The string a body supplies for a key, if it supplies one. -/
def supplied (body : Option Json) (key : String) : Option String :=
  match bodyField body key with
  | some (.str data) => some data
  | _ => none

/-- The task document `createTask` persists from valid fields. -/
def newTask (env : Env) (s : Store) (now : Nat) (title description : String)
    (status : Option String) (user : String) : Task :=
  { id := env.objectId s.seq, title := title, description := description,
    status := status.getD "pending", user := user, createdAt := now, updatedAt := now }

/-- The caller's tasks, most recent first: the listing the pages are cut
from. -/
def listing (s : Store) (user : String) : List Task :=
  (ownedBy s user).insertionSort newerFirst

/-- The handler reads the requested integer `n` as the number `x`: as `n`
itself below `2 ^ 53`, and from there on as a number of at least `2 ^ 53`,
possibly infinite. -/
def ReadsAs (x : JsNumber) (n : Int) : Prop :=
  (n < 2 ^ 53 ∧ x = .int n) ∨
    (2 ^ 53 ≤ n ∧ (x = .infinity false ∨ ∃ r : Int, 2 ^ 53 ≤ r ∧ x = .int r))

/-- A task body is accepted for an update: it is an object, and title,
description and status are each absent or valid as for creation. -/
def UpdateValid (body : Option Json) : Prop :=
  IsObject body ∧
    (bodyField body "title" = none ∨ IsStringMin 1 (bodyField body "title")) ∧
    (bodyField body "description" = none ∨ IsStringMin 1 (bodyField body "description")) ∧
    IsStatusOrAbsent (bodyField body "status")

/-- The body contains a field the update schema rejects: a title or a
description that is not a non-empty string, or a status that is not one of
the three values. -/
def HasInvalidUpdateField (body : Option Json) : Prop :=
  (bodyField body "title" ≠ none ∧ ¬ IsStringMin 1 (bodyField body "title")) ∨
  (bodyField body "description" ≠ none ∧ ¬ IsStringMin 1 (bodyField body "description")) ∨
  ¬ IsStatusOrAbsent (bodyField body "status")

/-- The identifiers of the stored tasks are pairwise distinct, as the
database guarantees for `_id`. -/
def TaskIdsUnique (s : Store) : Prop := (s.tasks.map Task.id).Nodup

/-! ## A concrete environment, store and requests -/

/-- A small instance of the library primitives, for evaluating the
handlers on concrete requests. -/
def demoEnv : Env :=
  { isEmail := fun s => s.data.contains '@'
    objectId := fun n => "id" ++ Nat.repr n
    hash := fun _ p => "h:" ++ p
    compare := fun p h => h == "h:" ++ p
    generateToken := fun id _ => "tok:" ++ id }

/-- Ann, a registered user. -/
def ann : User :=
  { id := "id0", name := "Ann", email := "ann@x.com", password := "h:secret1", createdAt := 1 }

/-- Ann as attached to a request. -/
def annReq : ReqUser := { id := "id0", name := "Ann", email := "ann@x.com" }

/-- Bob as attached to a request. -/
def bobReq : ReqUser := { id := "id1", name := "Bob", email := "bob@x.com" }

/-- Bob, a registered user. -/
def bob : User :=
  { id := "id1", name := "Bob", email := "bob@x.com", password := "h:hunter22", createdAt := 2 }

/-- A store with Ann and Bob. -/
def twoUserStore : Store := { users := [ann, bob], tasks := [], seq := 2 }

/-- A task of Ann. -/
def annTask : Task :=
  { id := "id2", title := "T", description := "D", status := "pending", user := "id0",
    createdAt := 2, updatedAt := 2 }

/-- The empty store. -/
def emptyStore : Store := { users := [], tasks := [], seq := 0 }

/-- A store with Ann and her task. -/
def demoStore : Store := { users := [ann], tasks := [annTask], seq := 3 }

/-- A store with three tasks of Ann, created at times 2, 5 and 9, and one
task of Bob. -/
def listStore : Store :=
  { users := [ann],
    tasks :=
      [annTask,
       { annTask with id := "id3", title := "U", createdAt := 5, updatedAt := 5 },
       { annTask with id := "id4", title := "B", user := "id1", createdAt := 6, updatedAt := 6 },
       { annTask with id := "id5", title := "V", createdAt := 9, updatedAt := 9 }],
    seq := 6 }

/-- The task number `i` of Ann in the large store. -/
def manyTask (i : Nat) : Task :=
  { annTask with id := "t" ++ Nat.repr i, createdAt := i, updatedAt := i }

/-- The 1001 tasks of Ann in the large store, all pending. -/
def manyTasks : List Task := (List.range 1001).map manyTask

/-- A store in which Ann owns 1001 tasks. -/
def manyTasksStore : Store :=
  { users := [ann], tasks := manyTasks, seq := 1010 }

/-- A number of 400 digits, beyond the largest finite JavaScript number. -/
def hugeNumber : String := String.mk (List.replicate 400 '9')

/-- Lower-casing of the letters A to Z, for evaluating the search on
concrete strings. -/
def asciiLower (text : String) : String :=
  String.mk (text.data.map Char.toLower)

/-- The registration body of Ann. -/
def annRegisterBody : Json :=
  .obj [("name", .str "Ann"), ("email", .str "ann@x.com"), ("password", .str "secret1")]

/-! ## Lemmas on the schemas -/

theorem head_flatMap_keyIssues (isEmail : String → Bool) (data : Json)
    (shape : List (String × ZodType)) :
    ((shape.flatMap (keyIssues isEmail data)).head?).map ZodIssue.message
      = firstViolation isEmail shape data := by
  induction shape with
  | nil => rfl
  | cons kv rest ih =>
    simp only [List.flatMap_cons, firstViolation, List.findSome?_cons]
    cases h : (kv.2.parse isEmail (data.field kv.1)).issues with
    | nil => simpa [keyIssues, h] using ih
    | cons m ms => simp [keyIssues, h]

theorem zObjectParse_error (isEmail : String → Bool) (shape : List (String × ZodType))
    (body : Option Json) (e : ZodError) (h : zObjectParse isEmail shape body = .error e) :
    validationMessage isEmail shape body = some e.first.message := by
  unfold zObjectParse at h
  split at h
  · rename_i kvs
    have hh := head_flatMap_keyIssues isEmail (.obj kvs) shape
    split at h
    · cases h
    · rename_i i is hi
      cases h
      simp only [validationMessage]
      rw [← hh, hi]; rfl
  · rename_i hb
    cases h
    cases body with
    | none => rfl
    | some j => cases j <;> first | rfl | exact absurd rfl (hb _)

theorem zObjectParse_ok (isEmail : String → Bool) (shape : List (String × ZodType))
    (body : Option Json) (p : Parsed) (h : zObjectParse isEmail shape body = .ok p) :
    validationMessage isEmail shape body = none := by
  unfold zObjectParse at h
  split at h
  · rename_i kvs
    have hh := head_flatMap_keyIssues isEmail (.obj kvs) shape
    split at h
    · rename_i hi
      simp only [validationMessage]
      rw [← hh, hi]; rfl
    · cases h
  · cases h


theorem parse_min_issues (isEmail : String → Bool) (n : Nat) (msg : Option String)
    (v : Option Json) :
    (ZodType.parse isEmail (.string [.min n msg]) v).issues = [] ↔ IsStringMin n v := by
  unfold IsStringMin
  rcases v with _ | j
  · simp [ZodType.parse]
  · cases j <;> simp [ZodType.parse, StringCheck.run]

theorem parse_email_issues (isEmail : String → Bool) (msg : Option String) (v : Option Json) :
    (ZodType.parse isEmail (.string [.email msg]) v).issues = [] ↔ IsEmailString isEmail v := by
  unfold IsEmailString
  rcases v with _ | j
  · simp [ZodType.parse]
  · cases j <;> simp [ZodType.parse, StringCheck.run]

theorem parse_string_issues (isEmail : String → Bool) (v : Option Json) :
    (ZodType.parse isEmail (.string []) v).issues = [] ↔ IsString v := by
  unfold IsString
  rcases v with _ | j
  · simp [ZodType.parse]
  · cases j <;> simp [ZodType.parse]

theorem parse_string_value (isEmail : String → Bool) (checks : List StringCheck) (data : String) :
    (ZodType.parse isEmail (.string checks) (some (.str data))).value = some data := by
  simp [ZodType.parse]

theorem bodyField_obj (kvs : List (String × Json)) (key : String) :
    bodyField (some (.obj kvs)) key = (Json.obj kvs).field key := rfl

theorem bodyField_some (body : Option Json) (key : String) (v : Json)
    (h : bodyField body key = some v) : ∃ kvs, body = some (.obj kvs) := by
  rcases body with _ | j
  · simp [bodyField] at h
  · cases j <;> first | exact ⟨_, rfl⟩ | simp [bodyField, Json.field] at h

theorem firstViolation_none_iff (isEmail : String → Bool) (shape : List (String × ZodType))
    (data : Json) :
    firstViolation isEmail shape data = none ↔
      ∀ kv ∈ shape, (kv.2.parse isEmail (data.field kv.1)).issues = [] := by
  induction shape with
  | nil => simp [firstViolation]
  | cons kv rest ih =>
    simp only [firstViolation, List.findSome?_cons] at ih ⊢
    cases h : (kv.2.parse isEmail (data.field kv.1)).issues with
    | nil => simp [h, ih]
    | cons m ms => simp [h]

theorem register_message_none_iff (isEmail : String → Bool) (body : Option Json) :
    validationMessage isEmail registerSchema body = none ↔ RegisterValid isEmail body := by
  unfold validationMessage
  split
  · rename_i kvs
    rw [firstViolation_none_iff]
    simp [registerSchema, RegisterValid, parse_min_issues, parse_email_issues, bodyField_obj]
  · rename_i hb
    simp only [reduceCtorEq, false_iff]
    rintro ⟨⟨d, hd, -⟩, -⟩
    obtain ⟨kvs, rfl⟩ := bodyField_some _ _ _ hd
    exact hb kvs rfl

theorem login_message_none_iff (isEmail : String → Bool) (body : Option Json) :
    validationMessage isEmail loginSchema body = none ↔ LoginValid isEmail body := by
  unfold validationMessage
  split
  · rename_i kvs
    rw [firstViolation_none_iff]
    simp [loginSchema, LoginValid, parse_string_issues, parse_email_issues, bodyField_obj]
  · rename_i hb
    simp only [reduceCtorEq, false_iff]
    rintro ⟨⟨d, hd, -⟩, -⟩
    obtain ⟨kvs, rfl⟩ := bodyField_some _ _ _ hd
    exact hb kvs rfl

/-- A body that violates the schema makes `parse` throw, with the validation message first. -/
theorem zObjectParse_of_message (isEmail : String → Bool) (shape : List (String × ZodType))
    (body : Option Json) (m : String) (h : validationMessage isEmail shape body = some m) :
    ∃ e, zObjectParse isEmail shape body = .error e ∧ e.first.message = m := by
  cases hp : zObjectParse isEmail shape body with
  | error e =>
    have := zObjectParse_error isEmail shape body e hp
    rw [h] at this
    exact ⟨e, rfl, (Option.some.inj this).symm⟩
  | ok p =>
    have := zObjectParse_ok isEmail shape body p hp
    rw [h] at this; cases this

theorem register_parse_ok (isEmail : String → Bool) (body : Option Json)
    (name email password : String)
    (hn : bodyField body "name" = some (.str name)) (hn2 : 2 ≤ jsLength name)
    (he : bodyField body "email" = some (.str email)) (he2 : isEmail email = true)
    (hp : bodyField body "password" = some (.str password)) (hp2 : 6 ≤ jsLength password) :
    zObjectParse isEmail registerSchema body
      = .ok [("name", some name), ("email", some email), ("password", some password)] := by
  obtain ⟨kvs, rfl⟩ := bodyField_some _ _ _ hn
  rw [bodyField_obj] at hn he hp
  simp [zObjectParse, registerSchema, keyIssues, hn, he, hp, ZodType.parse, StringCheck.run,
    he2, Nat.not_lt.mpr hn2, Nat.not_lt.mpr hp2]

theorem login_parse_ok (isEmail : String → Bool) (body : Option Json)
    (email password : String)
    (he : bodyField body "email" = some (.str email)) (he2 : isEmail email = true)
    (hp : bodyField body "password" = some (.str password)) :
    zObjectParse isEmail loginSchema body
      = .ok [("email", some email), ("password", some password)] := by
  obtain ⟨kvs, rfl⟩ := bodyField_some _ _ _ he
  rw [bodyField_obj] at he hp
  simp [zObjectParse, loginSchema, keyIssues, he, hp, ZodType.parse, StringCheck.run, he2]


/-! ## Ownership of tasks -/

theorem replaceFirst_map_eq {α β : Type} (p : α → Bool) (f : α → α) (g : α → β)
    (hg : ∀ a, g (f a) = g a) (l : List α) :
    (replaceFirst p f l).map g = l.map g := by
  induction l with
  | nil => rfl
  | cons x xs ih =>
    unfold replaceFirst
    split
    · simp [hg]
    · simp [ih]

/-- C1: when the addressed task exists and the authenticated caller's id
differs from the task's owner, `updateTask` and `deleteTask` both answer 401
with `message` "User not authorized", whatever the body is: the ownership
check comes before the validation of the body. -/
theorem nonOwner_unauthorized (env : Env) (s : Store) (req : Request) (task : Task)
    (caller : ReqUser) (hfind : Task.findById s req.id = some task)
    (huser : req.user = some caller) (hne : caller.id ≠ task.user) :
    (updateTask env s req).2 = ⟨401, message "User not authorized"⟩ ∧
      (deleteTask s req).2 = ⟨401, message "User not authorized"⟩ := by
  have hne2 : task.user ≠ caller.id := fun h => hne h.symm
  constructor
  · simp [updateTask, hfind, huser, hne2]
  · simp [deleteTask, hfind, huser, hne2]

/-- Bob sends an invalid body for Ann's task and is answered 401, not 400. -/
theorem nonOwner_unauthorized_witness :
    (updateTask demoEnv demoStore
        { id := "id2", user := some bobReq, body := some (.obj [("title", .num 5)]) }).2
      = ⟨401, message "User not authorized"⟩ ∧
    (deleteTask demoStore
        { id := "id2", user := some bobReq, body := some (.obj [("title", .num 5)]) }).2
      = ⟨401, message "User not authorized"⟩ :=
  nonOwner_unauthorized demoEnv demoStore
    { id := "id2", user := some bobReq, body := some (.obj [("title", .num 5)]) }
    annTask bobReq (by rfl) (by rfl) (by decide)

/-- C2: when the lookup of the addressed id finds no task, `updateTask` and
`deleteTask` both answer 404 with `message` "Task not found", for every
caller (also when no user is resolved) and every body. -/
theorem missing_task_notFound (env : Env) (s : Store) (req : Request)
    (hfind : Task.findById s req.id = none) :
    (updateTask env s req).2 = ⟨404, message "Task not found"⟩ ∧
      (deleteTask s req).2 = ⟨404, message "Task not found"⟩ := by
  constructor
  · simp [updateTask, hfind]
  · simp [deleteTask, hfind]

/-- An unknown id from a request without a resolved user is answered 404. -/
theorem missing_task_notFound_witness :
    (updateTask demoEnv demoStore { id := "id9" }).2 = ⟨404, message "Task not found"⟩ ∧
      (deleteTask demoStore { id := "id9" }).2 = ⟨404, message "Task not found"⟩ :=
  missing_task_notFound demoEnv demoStore { id := "id9" } (by rfl)

/-- C3: unless the addressed task exists, a user is resolved and that user
is the owner of the task, the store after `updateTask` and after `deleteTask`
is the store before the call. -/
theorem nonOwner_store_unchanged (env : Env) (s : Store) (req : Request)
    (h : ∀ task caller, Task.findById s req.id = some task → req.user = some caller →
      task.user ≠ caller.id) :
    (updateTask env s req).1 = s ∧ (deleteTask s req).1 = s := by
  cases hfind : Task.findById s req.id with
  | none => simp [updateTask, deleteTask, hfind]
  | some task =>
    cases huser : req.user with
    | none => simp [updateTask, deleteTask, hfind, huser]
    | some caller =>
      have hne := h task caller hfind huser
      simp [updateTask, deleteTask, hfind, huser, hne]

/-- Bob's update and delete of Ann's task leave the store as it was. -/
theorem nonOwner_store_unchanged_witness :
    (updateTask demoEnv demoStore
        { id := "id2", user := some bobReq, body := some (.obj [("title", .str "X")]) }).1
      = demoStore ∧
    (deleteTask demoStore
        { id := "id2", user := some bobReq, body := some (.obj [("title", .str "X")]) }).1
      = demoStore :=
  nonOwner_store_unchanged demoEnv demoStore
    { id := "id2", user := some bobReq, body := some (.obj [("title", .str "X")]) }
    (by
      intro task caller hf hu
      have h1 : task = annTask := (Option.some.inj hf).symm
      have h2 : caller = bobReq := (Option.some.inj hu).symm
      subst h1; subst h2; decide)

theorem find_owner_of_map_eq (i : String) (l₁ l₂ : List Task)
    (h : l₁.map (fun t => (t.id, t.user)) = l₂.map (fun t => (t.id, t.user))) :
    (l₁.find? fun t => t.id == i).map Task.user = (l₂.find? fun t => t.id == i).map Task.user := by
  induction l₁ generalizing l₂ with
  | nil =>
    cases l₂ with
    | nil => rfl
    | cons y ys => simp at h
  | cons x xs ih =>
    cases l₂ with
    | nil => simp at h
    | cons y ys =>
      simp only [List.map_cons, List.cons.injEq, Prod.mk.injEq] at h
      obtain ⟨⟨hid, hu⟩, hrest⟩ := h
      simp only [List.find?_cons, hid]
      cases hy : (y.id == i) with
      | true => simp [hu]
      | false => simpa using ih ys hrest

theorem updateTask_owners (env : Env) (s : Store) (req : Request) :
    (updateTask env s req).1.tasks.map (fun t => (t.id, t.user))
      = s.tasks.map (fun t => (t.id, t.user)) := by
  unfold updateTask
  split
  · rfl
  · split
    · rfl
    · split
      · rfl
      · split
        · rfl
        · simp only [Task.findByIdAndUpdate]
          exact replaceFirst_map_eq _ (Task.patch _ _ _ _) (fun t => (t.id, t.user))
            (fun a => rfl) _

/-- C4: the owner of a task is the authenticated caller at creation and is
never changed afterwards. For every body, a task that `createTask` adds has
`user` equal to the caller's id; a body the schema accepts is persisted as
one new task with that owner, whatever other keys the body carries. For
every request, `updateTask` leaves the identifier and the owner of every
stored task as they were, so a lookup by id finds the same owner before and
after. -/
theorem owner_fixed_at_creation (env : Env) (s : Store) (req : Request) (caller : ReqUser)
    (huser : req.user = some caller) :
    (∀ t ∈ (createTask env s req).1.tasks, t ∈ s.tasks ∨ t.user = caller.id) ∧
    (∀ p, zObjectParse env.isEmail createTaskSchema req.body = .ok p →
      ∃ t, (createTask env s req).1.tasks = s.tasks ++ [t] ∧ t.user = caller.id ∧
        (createTask env s req).2 = ⟨201, t.toJson⟩) ∧
    (∀ ureq : Request,
      (updateTask env s ureq).1.tasks.map (fun t => (t.id, t.user))
        = s.tasks.map (fun t => (t.id, t.user))) ∧
    (∀ (ureq : Request) (i : String),
      (Task.findById (updateTask env s ureq).1 i).map Task.user
        = (Task.findById s i).map Task.user) := by
  refine ⟨?_, ?_, fun ureq => updateTask_owners env s ureq, fun ureq i => ?_⟩
  · intro t ht
    cases hp : zObjectParse env.isEmail createTaskSchema req.body with
    | error e =>
      simp only [createTask, hp] at ht
      exact Or.inl ht
    | ok p =>
      simp only [createTask, hp, huser, Task.create, List.mem_append, List.mem_singleton] at ht
      rcases ht with ht | ht
      · exact Or.inl ht
      · exact Or.inr (by rw [ht])
  · intro p hp
    simp only [createTask, hp, huser, Task.create]
    exact ⟨_, rfl, rfl, rfl⟩
  · exact find_owner_of_map_eq i _ _ (updateTask_owners env s ureq)

/-- Ann creates a task with a body that names another owner: the stored
task belongs to Ann. -/
theorem owner_fixed_at_creation_witness :
    ∃ t, (createTask demoEnv emptyStore
            { user := some annReq,
              body := some (.obj [("title", .str "T"), ("description", .str "D"),
                                  ("user", .str "id1")]) }).1.tasks = emptyStore.tasks ++ [t] ∧
      t.user = annReq.id ∧
      (createTask demoEnv emptyStore
          { user := some annReq,
            body := some (.obj [("title", .str "T"), ("description", .str "D"),
                                ("user", .str "id1")]) }).2 = ⟨201, t.toJson⟩ :=
  (owner_fixed_at_creation demoEnv emptyStore
    { user := some annReq,
      body := some (.obj [("title", .str "T"), ("description", .str "D"),
                          ("user", .str "id1")]) } annReq rfl).2.1 _ rfl

/-! ## Login -/

theorem findOne_some (s : Store) (email : String) (u : User)
    (h : User.findOne s email = some u) : u ∈ s.users ∧ u.email = email := by
  unfold User.findOne at h
  exact ⟨List.mem_of_find?_eq_some h, by simpa using List.find?_some h⟩

theorem findOne_none_iff (s : Store) (email : String) :
    User.findOne s email = none ↔ ∀ u ∈ s.users, u.email ≠ email := by
  simp [User.findOne, List.find?_eq_none]

theorem findOne_isSome_iff (s : Store) (email : String) :
    (User.findOne s email).isSome = true ↔ ∃ u ∈ s.users, u.email = email := by
  simp [User.findOne, List.find?_isSome]

/-- The handler `loginUser` on a body that passes validation. -/
theorem loginUser_of_valid (env : Env) (s : Store) (req : Request) (email password : String)
    (he : bodyField req.body "email" = some (.str email)) (he2 : env.isEmail email = true)
    (hp : bodyField req.body "password" = some (.str password)) :
    loginUser env s req =
      match User.findOne s email with
      | some user =>
        if User.matchPassword env user password then (s, ⟨200, authBody env req.now user⟩)
        else (s, ⟨401, message "Invalid credentials"⟩)
      | none => (s, ⟨401, message "Invalid credentials"⟩) := by
  have h := login_parse_ok env.isEmail req.body email password he he2 hp
  unfold loginUser
  rw [h]
  rfl

/-- C5: for a login body that passes validation (the e-mail is a string of
valid syntax, the password is a string), `loginUser` answers 200 if and only
if the lookup by that e-mail finds a user and `matchPassword` of the password
is true for that user; the body is then `_id`, `name`, `email` and `token` of
that user, who is a stored user with that e-mail. In every other case the
answer is 401. A lookup finds a user exactly when some stored user has the
e-mail. -/
theorem loginUser_success_iff (env : Env) (s : Store) (req : Request) (email password : String)
    (he : bodyField req.body "email" = some (.str email)) (he2 : env.isEmail email = true)
    (hp : bodyField req.body "password" = some (.str password)) :
    ((loginUser env s req).2.status = 200 ↔
      ∃ u, User.findOne s email = some u ∧ User.matchPassword env u password = true) ∧
    (∀ u, User.findOne s email = some u → User.matchPassword env u password = true →
      u ∈ s.users ∧ u.email = email ∧
      (loginUser env s req).2 =
        ⟨200, .obj [("_id", .str u.id), ("name", .str u.name), ("email", .str u.email),
                    ("token", .str (env.generateToken u.id req.now))]⟩) ∧
    ((¬ ∃ u, User.findOne s email = some u ∧ User.matchPassword env u password = true) →
      (loginUser env s req).2 = ⟨401, message "Invalid credentials"⟩) ∧
    ((User.findOne s email).isSome = true ↔ ∃ u ∈ s.users, u.email = email) := by
  have hl := loginUser_of_valid env s req email password he he2 hp
  refine ⟨?_, ?_, ?_, findOne_isSome_iff s email⟩
  · rw [hl]
    cases hf : User.findOne s email with
    | none => simp
    | some u =>
      cases hm : User.matchPassword env u password <;> simp [hm]
  · intro u hf hm
    refine ⟨(findOne_some s email u hf).1, (findOne_some s email u hf).2, ?_⟩
    rw [hl, hf]
    simp [hm, authBody]
  · intro hno
    rw [hl]
    cases hf : User.findOne s email with
    | none => rfl
    | some u =>
      cases hm : User.matchPassword env u password with
      | false => simp [hm]
      | true => exact absurd ⟨u, hf, hm⟩ hno

/-- Ann logs in with her password and is answered 200 with her identity. -/
theorem loginUser_success_iff_witness :
    (loginUser demoEnv demoStore
        { body := some (.obj [("email", .str "ann@x.com"), ("password", .str "secret1")]),
          now := 7 }).2.status = 200 ∧
    (loginUser demoEnv demoStore
        { body := some (.obj [("email", .str "ann@x.com"), ("password", .str "wrong")]),
          now := 7 }).2 = ⟨401, message "Invalid credentials"⟩ :=
  ⟨(loginUser_success_iff demoEnv demoStore
      { body := some (.obj [("email", .str "ann@x.com"), ("password", .str "secret1")]),
        now := 7 } "ann@x.com" "secret1" rfl (by decide) rfl).1.mpr ⟨ann, by rfl, by decide⟩,
   (loginUser_success_iff demoEnv demoStore
      { body := some (.obj [("email", .str "ann@x.com"), ("password", .str "wrong")]),
        now := 7 } "ann@x.com" "wrong" rfl (by decide) rfl).2.2.1
      (by
        rintro ⟨u, hu, hm⟩
        have h1 : u = ann := (Option.some.inj hu).symm
        subst h1
        revert hm
        decide)⟩

/-- C6: two login requests that pass validation, one naming an e-mail no
stored user has, the other naming the e-mail of a stored user with a password
that does not match, get exactly the same response: 401 with `message`
"Invalid credentials". -/
theorem login_failures_indistinguishable (env : Env) (s₁ s₂ : Store) (r₁ r₂ : Request)
    (e₁ p₁ e₂ p₂ : String)
    (he₁ : bodyField r₁.body "email" = some (.str e₁)) (hv₁ : env.isEmail e₁ = true)
    (hp₁ : bodyField r₁.body "password" = some (.str p₁))
    (he₂ : bodyField r₂.body "email" = some (.str e₂)) (hv₂ : env.isEmail e₂ = true)
    (hp₂ : bodyField r₂.body "password" = some (.str p₂))
    (habsent : ∀ u ∈ s₁.users, u.email ≠ e₁)
    (_hexists : ∃ u ∈ s₂.users, u.email = e₂)
    (hwrong : ∀ u ∈ s₂.users, u.email = e₂ → User.matchPassword env u p₂ = false) :
    (loginUser env s₁ r₁).2 = (loginUser env s₂ r₂).2 ∧
      (loginUser env s₁ r₁).2 = ⟨401, message "Invalid credentials"⟩ := by
  have h₁ : (loginUser env s₁ r₁).2 = ⟨401, message "Invalid credentials"⟩ := by
    rw [loginUser_of_valid env s₁ r₁ e₁ p₁ he₁ hv₁ hp₁, (findOne_none_iff s₁ e₁).mpr habsent]
  have h₂ : (loginUser env s₂ r₂).2 = ⟨401, message "Invalid credentials"⟩ := by
    rw [loginUser_of_valid env s₂ r₂ e₂ p₂ he₂ hv₂ hp₂]
    cases hf : User.findOne s₂ e₂ with
    | none => rfl
    | some u =>
      have hu := findOne_some s₂ e₂ u hf
      simp [hwrong u hu.1 hu.2]
  exact ⟨h₁.trans h₂.symm, h₁⟩

/-- An unknown e-mail and Ann's e-mail with a wrong password get the same
response. -/
theorem login_failures_indistinguishable_witness :
    (loginUser demoEnv demoStore
        { body := some (.obj [("email", .str "zed@x.com"), ("password", .str "secret1")]) }).2
      = (loginUser demoEnv demoStore
        { body := some (.obj [("email", .str "ann@x.com"), ("password", .str "wrong")]) }).2 ∧
    (loginUser demoEnv demoStore
        { body := some (.obj [("email", .str "zed@x.com"), ("password", .str "secret1")]) }).2
      = ⟨401, message "Invalid credentials"⟩ :=
  login_failures_indistinguishable demoEnv demoStore demoStore
    { body := some (.obj [("email", .str "zed@x.com"), ("password", .str "secret1")]) }
    { body := some (.obj [("email", .str "ann@x.com"), ("password", .str "wrong")]) }
    "zed@x.com" "secret1" "ann@x.com" "wrong" rfl (by decide) rfl rfl (by decide) rfl
    (by decide) (by decide) (by decide)

/-! ## Registration and validation -/

/-- The handler `registerUser` on a valid body. -/
theorem registerUser_of_valid (env : Env) (s : Store) (req : Request)
    (name email password : String)
    (hn : bodyField req.body "name" = some (.str name)) (hn2 : 2 ≤ jsLength name)
    (he : bodyField req.body "email" = some (.str email)) (he2 : env.isEmail email = true)
    (hp : bodyField req.body "password" = some (.str password)) (hp2 : 6 ≤ jsLength password) :
    registerUser env s req =
      match User.findOne s email with
      | some _ => (s, ⟨400, message "User already exists"⟩)
      | none =>
        ({ s with users := s.users ++ [newUser env s req.now name email password],
                  seq := s.seq + 1 },
         ⟨201, authBody env req.now (newUser env s req.now name email password)⟩) := by
  have h := register_parse_ok env.isEmail req.body name email password hn hn2 he he2 hp hp2
  unfold registerUser
  rw [h]
  have e1 : Parsed.str [("name", some name), ("email", some email), ("password", some password)]
      "email" = email := rfl
  have e2 : Parsed.str [("name", some name), ("email", some email), ("password", some password)]
      "name" = name := rfl
  have e3 : Parsed.str [("name", some name), ("email", some email), ("password", some password)]
      "password" = password := rfl
  simp only [e1, e2, e3]
  cases hf : User.findOne s email with
  | some u => rfl
  | none => simp [User.create, hf, newUser]

/-- The handler `registerUser` on a body that violates the schema. -/
theorem registerUser_of_invalid (env : Env) (s : Store) (req : Request)
    (h : ¬ RegisterValid env.isEmail req.body) :
    ∃ m, validationMessage env.isEmail registerSchema req.body = some m ∧
      registerUser env s req = (s, ⟨400, message m⟩) := by
  cases hm : validationMessage env.isEmail registerSchema req.body with
  | none => exact absurd ((register_message_none_iff _ _).mp hm) h
  | some m =>
    obtain ⟨e, hpe, hem⟩ := zObjectParse_of_message _ _ _ _ hm
    refine ⟨m, rfl, ?_⟩
    simp [registerUser, hpe, hem]

/-- The handler `loginUser` on a body that violates the schema. -/
theorem loginUser_of_invalid (env : Env) (s : Store) (req : Request)
    (h : ¬ LoginValid env.isEmail req.body) :
    ∃ m, validationMessage env.isEmail loginSchema req.body = some m ∧
      loginUser env s req = (s, ⟨400, message m⟩) := by
  cases hm : validationMessage env.isEmail loginSchema req.body with
  | none => exact absurd ((login_message_none_iff _ _).mp hm) h
  | some m =>
    obtain ⟨e, hpe, hem⟩ := zObjectParse_of_message _ _ _ _ hm
    refine ⟨m, rfl, ?_⟩
    simp [loginUser, hpe, hem]

/-- C7, as stated, fails: a login body with a valid e-mail and the empty
string as password is not a validation error. It passes the schema and is
answered by the credentials check, here 401 "Invalid credentials". -/
theorem login_empty_password_passes_validation :
    bodyField (some (.obj [("email", .str "ann@x.com"), ("password", .str "")])) "password"
      = some (.str "") ∧
    (loginUser demoEnv demoStore
        { body := some (.obj [("email", .str "ann@x.com"), ("password", .str "")]) }).2
      = ⟨401, message "Invalid credentials"⟩ ∧
    (loginUser demoEnv demoStore
        { body := some (.obj [("email", .str "ann@x.com"), ("password", .str "")]) }).2.status
      ≠ 400 := by
  refine ⟨rfl, rfl, ?_⟩
  decide

/-- C7, amended: `loginUser` validates that the e-mail is a string of valid
syntax and that the password is a string. It answers 400 exactly when the
body fails that; the answer then carries the validation message and the store
is unchanged, whatever it contains. A password that is a string, the empty
string included, passes. -/
theorem loginUser_validation (env : Env) (s : Store) (req : Request) :
    ((loginUser env s req).2.status = 400 ↔ ¬ LoginValid env.isEmail req.body) ∧
    (¬ LoginValid env.isEmail req.body →
      ∃ m, validationMessage env.isEmail loginSchema req.body = some m ∧
        loginUser env s req = (s, ⟨400, message m⟩)) ∧
    (∀ email password, bodyField req.body "email" = some (.str email) →
      env.isEmail email = true → bodyField req.body "password" = some (.str password) →
      LoginValid env.isEmail req.body) := by
  refine ⟨⟨?_, ?_⟩, loginUser_of_invalid env s req, ?_⟩
  · intro h400 hv
    obtain ⟨⟨email, he, he2⟩, ⟨password, hp⟩⟩ := hv
    rw [loginUser_of_valid env s req email password he he2 hp] at h400
    cases hf : User.findOne s email with
    | none => simp [hf] at h400
    | some u =>
      cases hm : User.matchPassword env u password <;> simp [hf, hm] at h400
  · intro hv
    obtain ⟨m, -, hr⟩ := loginUser_of_invalid env s req hv
    rw [hr]
  · intro email password he he2 hp
    exact ⟨⟨email, he, he2⟩, ⟨password, hp⟩⟩

/-- C8: `registerUser` answers 400 with the validation message of the body,
which is the message of the first violated field in the order name, e-mail,
password, exactly when the name is not a string of length at least 2, or the
e-mail is not a string of valid syntax, or the password is not a string of
length at least 6; the store is then unchanged. A valid body is answered 201
or 400 "User already exists". -/
theorem registerUser_validation (env : Env) (s : Store) (req : Request) :
    ((∃ m, validationMessage env.isEmail registerSchema req.body = some m ∧
        registerUser env s req = (s, ⟨400, message m⟩)) ↔
      ¬ RegisterValid env.isEmail req.body) ∧
    (∀ kvs, req.body = some (.obj kvs) →
      validationMessage env.isEmail registerSchema req.body
        = firstViolation env.isEmail registerSchema (.obj kvs)) ∧
    (∀ name, bodyField req.body "name" = some (.str name) → jsLength name < 2 →
      registerUser env s req
        = (s, ⟨400, message "String must contain at least 2 character(s)"⟩)) ∧
    (∀ email, IsStringMin 2 (bodyField req.body "name") →
      bodyField req.body "email" = some (.str email) → env.isEmail email = false →
      registerUser env s req = (s, ⟨400, message "Invalid email"⟩)) ∧
    (∀ password, IsStringMin 2 (bodyField req.body "name") →
      IsEmailString env.isEmail (bodyField req.body "email") →
      bodyField req.body "password" = some (.str password) → jsLength password < 6 →
      registerUser env s req
        = (s, ⟨400, message "String must contain at least 6 character(s)"⟩)) ∧
    (RegisterValid env.isEmail req.body →
      (registerUser env s req).2.status = 201 ∨
        registerUser env s req = (s, ⟨400, message "User already exists"⟩)) := by
  refine ⟨⟨?_, registerUser_of_invalid env s req⟩, ?_, ?_, ?_, ?_, ?_⟩
  · rintro ⟨m, hm, -⟩ hv
    rw [(register_message_none_iff _ _).mpr hv] at hm
    cases hm
  · intro kvs hb
    rw [hb]
    rfl
  · intro name hn hlt
    have hinv : ¬ RegisterValid env.isEmail req.body := by
      rintro ⟨⟨d, hd, hd2⟩, -⟩
      rw [hn] at hd
      cases hd
      omega
    obtain ⟨m, hm, hr⟩ := registerUser_of_invalid env s req hinv
    obtain ⟨kvs, hb⟩ := bodyField_some _ _ _ hn
    rw [hb, bodyField_obj] at hn
    rw [hb] at hm
    simp only [validationMessage, firstViolation, registerSchema, List.findSome?_cons,
      ZodType.parse, hn, List.filterMap_cons, StringCheck.run, hlt, if_true, Option.getD_none,
      List.filterMap_nil, List.head?_cons] at hm
    rw [hr, ← Option.some.inj hm]
    rfl
  · intro email hname he he2
    have hinv : ¬ RegisterValid env.isEmail req.body := by
      rintro ⟨-, ⟨d, hd, hd2⟩, -⟩
      rw [he] at hd
      cases hd
      rw [he2] at hd2
      cases hd2
    obtain ⟨m, hm, hr⟩ := registerUser_of_invalid env s req hinv
    obtain ⟨kvs, hb⟩ := bodyField_some _ _ _ he
    obtain ⟨name, hn, hn2⟩ := hname
    rw [hb, bodyField_obj] at he hn
    rw [hb] at hm
    simp only [validationMessage, firstViolation, registerSchema, List.findSome?_cons,
      ZodType.parse, hn, he, List.filterMap_cons, StringCheck.run, Nat.not_lt.mpr hn2, if_false,
      he2, Option.getD_none, List.filterMap_nil, List.head?_cons, List.head?_nil,
      Bool.false_eq_true] at hm
    rw [hr, ← Option.some.inj hm]
  · intro password hname hemail hp hp2
    have hinv : ¬ RegisterValid env.isEmail req.body := by
      rintro ⟨-, -, ⟨d, hd, hd2⟩⟩
      rw [hp] at hd
      cases hd
      omega
    obtain ⟨m, hm, hr⟩ := registerUser_of_invalid env s req hinv
    obtain ⟨kvs, hb⟩ := bodyField_some _ _ _ hp
    obtain ⟨name, hn, hn2⟩ := hname
    obtain ⟨email, he, he2⟩ := hemail
    rw [hb, bodyField_obj] at he hn hp
    rw [hb] at hm
    simp only [validationMessage, firstViolation, registerSchema, List.findSome?_cons,
      ZodType.parse, hn, he, hp, List.filterMap_cons, StringCheck.run, Nat.not_lt.mpr hn2,
      if_false, he2, if_true, hp2, Option.getD_none, List.filterMap_nil, List.head?_cons,
      List.head?_nil] at hm
    rw [hr, ← Option.some.inj hm]
    rfl
  · rintro ⟨⟨name, hn, hn2⟩, ⟨email, he, he2⟩, ⟨password, hp, hp2⟩⟩
    rw [registerUser_of_valid env s req name email password hn hn2 he he2 hp hp2]
    cases hf : User.findOne s email with
    | some u => exact Or.inr rfl
    | none => exact Or.inl rfl

theorem findOne_none_iff_count (s : Store) (email : String) :
    User.findOne s email = none ↔ emailCount s email = 0 := by
  simp [User.findOne, emailCount, List.find?_eq_none, List.countP_eq_zero]

theorem emailCount_append (s : Store) (u : User) (n : Nat) (email : String) :
    emailCount { s with users := s.users ++ [u], seq := n } email
      = emailCount s email + if u.email = email then 1 else 0 := by
  simp only [emailCount, List.countP_append, List.countP_cons, List.countP_nil, beq_iff_eq]
  omega

/-- The store after `registerUser`: as before, or with one user added whose
e-mail no stored user had. -/
theorem registerUser_store_cases (env : Env) (s : Store) (req : Request) :
    (registerUser env s req).1 = s ∨
      ∃ u, User.findOne s u.email = none ∧
        (registerUser env s req).1 = { s with users := s.users ++ [u], seq := s.seq + 1 } := by
  by_cases hv : RegisterValid env.isEmail req.body
  · obtain ⟨⟨name, hn, hn2⟩, ⟨email, he, he2⟩, ⟨password, hp, hp2⟩⟩ := hv
    rw [registerUser_of_valid env s req name email password hn hn2 he he2 hp hp2]
    cases hf : User.findOne s email with
    | some u => exact Or.inl rfl
    | none => exact Or.inr ⟨newUser env s req.now name email password, hf, rfl⟩
  · obtain ⟨m, -, hr⟩ := registerUser_of_invalid env s req hv
    rw [hr]
    exact Or.inl rfl

theorem emailCount_registerUser (env : Env) (s : Store) (req : Request) (email : String)
    (h : emailCount s email = 1) : emailCount (registerUser env s req).1 email = 1 := by
  rcases registerUser_store_cases env s req with hs | ⟨u, hf, hs⟩
  · rw [hs]; exact h
  · rw [hs, emailCount_append]
    by_cases hu : u.email = email
    · rw [hu, findOne_none_iff_count] at hf
      omega
    · simp [hu, h]

theorem emailCount_registerAll (env : Env) (reqs : List Request) (s : Store) (email : String)
    (h : emailCount s email = 1) : emailCount (registerAll env s reqs) email = 1 := by
  induction reqs generalizing s with
  | nil => exact h
  | cons r rs ih =>
    simp only [registerAll, List.foldl_cons]
    exact ih _ (emailCount_registerUser env s r email h)

/-- A registration answered 201 had a valid body. -/
theorem registerValid_of_created (env : Env) (s : Store) (req : Request)
    (h : (registerUser env s req).2.status = 201) : RegisterValid env.isEmail req.body := by
  by_contra hv
  obtain ⟨m, -, hr⟩ := registerUser_of_invalid env s req hv
  rw [hr] at h
  cases h

/-- C9: once `registerUser` has succeeded for an e-mail, then after any
further registrations every `registerUser` call with a valid body and that
e-mail is answered 400 "User already exists" and leaves the store unchanged,
and the number of stored users with that e-mail is exactly one throughout. -/
theorem register_email_unique (env : Env) (s : Store) (req : Request) (email : String)
    (later : List Request) (again : Request)
    (he : bodyField req.body "email" = some (.str email))
    (hok : (registerUser env s req).2.status = 201)
    (hv : RegisterValid env.isEmail again.body)
    (he' : bodyField again.body "email" = some (.str email)) :
    registerUser env (registerAll env (registerUser env s req).1 later) again
      = (registerAll env (registerUser env s req).1 later,
          ⟨400, message "User already exists"⟩) ∧
    emailCount (registerUser env s req).1 email = 1 ∧
    emailCount (registerAll env (registerUser env s req).1 later) email = 1 ∧
    emailCount (registerUser env (registerAll env (registerUser env s req).1 later) again).1
      email = 1 := by
  have h1 : emailCount (registerUser env s req).1 email = 1 := by
    obtain ⟨⟨name, hn, hn2⟩, ⟨email0, he0, he2⟩, ⟨password, hp, hp2⟩⟩ :=
      registerValid_of_created env s req hok
    have hee : email0 = email := by
      rw [he] at he0
      cases he0
      rfl
    subst hee
    have hr := registerUser_of_valid env s req name email0 password hn hn2 he0 he2 hp hp2
    rw [hr] at hok ⊢
    cases hf : User.findOne s email0 with
    | some u =>
      rw [hf] at hok
      cases hok
    | none =>
      simp only
      rw [emailCount_append, (findOne_none_iff_count s email0).mp hf]
      simp [newUser]
  have h2 := emailCount_registerAll env later _ email h1
  have h3 : registerUser env (registerAll env (registerUser env s req).1 later) again
      = (registerAll env (registerUser env s req).1 later,
          ⟨400, message "User already exists"⟩) := by
    obtain ⟨⟨name, hn, hn2⟩, ⟨email0, he0, he2⟩, ⟨password, hp, hp2⟩⟩ := hv
    have hee : email0 = email := by
      rw [he'] at he0
      cases he0
      rfl
    subst hee
    rw [registerUser_of_valid env _ again name email0 password hn hn2 he0 he2 hp hp2]
    cases hf : User.findOne (registerAll env (registerUser env s req).1 later) email0 with
    | some u => rfl
    | none =>
      rw [findOne_none_iff_count] at hf
      omega
  refine ⟨h3, h1, h2, ?_⟩
  rw [h3]
  exact h2

/-- Ann registers, Bob registers, and a second registration with Ann's
e-mail is refused. -/
theorem register_email_unique_witness :
    registerUser demoEnv
        (registerAll demoEnv (registerUser demoEnv emptyStore { body := some annRegisterBody }).1
          [{ body := some (.obj [("name", .str "Bob"), ("email", .str "bob@x.com"),
                                 ("password", .str "hunter22")]) }])
        { body := some (.obj [("name", .str "Anna"), ("email", .str "ann@x.com"),
                              ("password", .str "another")]) }
      = (registerAll demoEnv (registerUser demoEnv emptyStore { body := some annRegisterBody }).1
          [{ body := some (.obj [("name", .str "Bob"), ("email", .str "bob@x.com"),
                                 ("password", .str "hunter22")]) }],
          ⟨400, message "User already exists"⟩) ∧
    emailCount (registerAll demoEnv
        (registerUser demoEnv emptyStore { body := some annRegisterBody }).1
          [{ body := some (.obj [("name", .str "Bob"), ("email", .str "bob@x.com"),
                                 ("password", .str "hunter22")]) }]) "ann@x.com" = 1 :=
  have h := register_email_unique demoEnv emptyStore { body := some annRegisterBody } "ann@x.com"
    [{ body := some (.obj [("name", .str "Bob"), ("email", .str "bob@x.com"),
                           ("password", .str "hunter22")]) }]
    { body := some (.obj [("name", .str "Anna"), ("email", .str "ann@x.com"),
                          ("password", .str "another")]) }
    rfl (by decide)
    ⟨⟨"Anna", rfl, by decide⟩, ⟨"ann@x.com", rfl, by decide⟩, ⟨"another", rfl, by decide⟩⟩ rfl
  ⟨h.1, h.2.2.1⟩

/-- C10: a valid registration body whose e-mail no stored user has is
answered 201 with a body of exactly the fields `_id`, `name`, `email` and
`token`: the name and e-mail are those submitted and stored for the created
user, the token is the one issued for the created user's `_id`, and the
password, stored only as a hash, is not in the body. -/
theorem registerUser_created (env : Env) (s : Store) (req : Request)
    (name email password : String)
    (hn : bodyField req.body "name" = some (.str name)) (hn2 : 2 ≤ jsLength name)
    (he : bodyField req.body "email" = some (.str email)) (he2 : env.isEmail email = true)
    (hp : bodyField req.body "password" = some (.str password)) (hp2 : 6 ≤ jsLength password)
    (hfresh : ∀ u ∈ s.users, u.email ≠ email) :
    ∃ u : User, u.name = name ∧ u.email = email ∧ u.password = env.hash s.seq password ∧
      (registerUser env s req).1.users = s.users ++ [u] ∧
      (registerUser env s req).2 =
        ⟨201, .obj [("_id", .str u.id), ("name", .str name), ("email", .str email),
                    ("token", .str (env.generateToken u.id req.now))]⟩ ∧
      (registerUser env s req).2.body.keys = ["_id", "name", "email", "token"] ∧
      "password" ∉ (registerUser env s req).2.body.keys := by
  have hr := registerUser_of_valid env s req name email password hn hn2 he he2 hp hp2
  rw [(findOne_none_iff s email).mpr hfresh] at hr
  refine ⟨newUser env s req.now name email password, rfl, rfl, rfl, ?_, ?_, ?_, ?_⟩
  · rw [hr]
  · rw [hr]; rfl
  · rw [hr]; rfl
  · rw [hr]
    simp [authBody, Json.keys]

/-- Ann registers on the empty store. -/
theorem registerUser_created_witness :
    ∃ u : User, u.name = "Ann" ∧ u.email = "ann@x.com" ∧
      u.password = demoEnv.hash emptyStore.seq "secret1" ∧
      (registerUser demoEnv emptyStore { body := some annRegisterBody, now := 5 }).1.users
        = emptyStore.users ++ [u] ∧
      (registerUser demoEnv emptyStore { body := some annRegisterBody, now := 5 }).2 =
        ⟨201, .obj [("_id", .str u.id), ("name", .str "Ann"), ("email", .str "ann@x.com"),
                    ("token", .str (demoEnv.generateToken u.id 5))]⟩ ∧
      (registerUser demoEnv emptyStore { body := some annRegisterBody, now := 5 }).2.body.keys
        = ["_id", "name", "email", "token"] ∧
      "password" ∉
        (registerUser demoEnv emptyStore { body := some annRegisterBody, now := 5 }).2.body.keys :=
  registerUser_created demoEnv emptyStore { body := some annRegisterBody, now := 5 }
    "Ann" "ann@x.com" "secret1" rfl (by decide) rfl (by decide) rfl (by decide) (by decide)

/-! ## Creating and updating tasks -/

theorem parse_optional_none (isEmail : String → Bool) (inner : ZodType) :
    ZodType.parse isEmail (.optional inner) none = ⟨[], none⟩ := by
  simp [ZodType.parse]

theorem parse_optional_some (isEmail : String → Bool) (inner : ZodType) (j : Json) :
    ZodType.parse isEmail (.optional inner) (some j) = ZodType.parse isEmail inner (some j) := by
  simp [ZodType.parse]

theorem parse_status_issues (isEmail : String → Bool) (v : Option Json) :
    (ZodType.parse isEmail (.optional (.enum statuses)) v).issues = [] ↔ IsStatusOrAbsent v := by
  unfold IsStatusOrAbsent
  rcases v with _ | j
  · simp [ZodType.parse]
  · rw [parse_optional_some]
    cases j with
    | str data =>
      by_cases h : data ∈ statuses <;> simp [ZodType.parse, h]
    | _ => simp [ZodType.parse]

theorem statuses_eq : ["pending", "in_progress", "completed"] = statuses := rfl

theorem create_message_none_iff (isEmail : String → Bool) (body : Option Json) :
    validationMessage isEmail createTaskSchema body = none ↔ CreateValid body := by
  unfold validationMessage
  split
  · rename_i kvs
    rw [firstViolation_none_iff]
    simp [createTaskSchema, CreateValid, parse_min_issues, statuses_eq, parse_status_issues,
      bodyField_obj]
  · rename_i hb
    simp only [reduceCtorEq, false_iff]
    rintro ⟨⟨d, hd, -⟩, -⟩
    obtain ⟨kvs, rfl⟩ := bodyField_some _ _ _ hd
    exact hb kvs rfl

/-- The handler `createTask` on a body that violates the schema. -/
theorem createTask_of_invalid (env : Env) (s : Store) (req : Request)
    (h : ¬ CreateValid req.body) :
    ∃ m, validationMessage env.isEmail createTaskSchema req.body = some m ∧
      createTask env s req = (s, ⟨400, message m⟩) := by
  cases hm : validationMessage env.isEmail createTaskSchema req.body with
  | none => exact absurd ((create_message_none_iff _ _).mp hm) h
  | some m =>
    obtain ⟨e, hpe, hem⟩ := zObjectParse_of_message _ _ _ _ hm
    refine ⟨m, rfl, ?_⟩
    simp [createTask, hpe, hem]

theorem create_parse_ok (isEmail : String → Bool) (body : Option Json)
    (title description : String) (status : Option String)
    (ht : bodyField body "title" = some (.str title)) (ht2 : 1 ≤ jsLength title)
    (hd : bodyField body "description" = some (.str description))
    (hd2 : 1 ≤ jsLength description)
    (hs : bodyField body "status" = status.map Json.str)
    (hs2 : ∀ v, status = some v → v ∈ statuses) :
    zObjectParse isEmail createTaskSchema body
      = .ok [("title", some title), ("description", some description), ("status", status)] := by
  obtain ⟨kvs, rfl⟩ := bodyField_some _ _ _ ht
  rw [bodyField_obj] at ht hd hs
  cases status with
  | none =>
    simp only [Option.map_none'] at hs
    simp [zObjectParse, createTaskSchema, keyIssues, ht, hd, hs, ZodType.parse, StringCheck.run,
      Nat.not_lt.mpr ht2, Nat.not_lt.mpr hd2]
  | some v =>
    simp only [Option.map_some'] at hs
    have hv : v ∈ ["pending", "in_progress", "completed"] := hs2 v rfl
    simp [zObjectParse, createTaskSchema, keyIssues, ht, hd, hs, ZodType.parse, StringCheck.run,
      Nat.not_lt.mpr ht2, Nat.not_lt.mpr hd2, hv]

/-- The handler `createTask` on a valid body. -/
theorem createTask_of_valid (env : Env) (s : Store) (req : Request)
    (title description : String) (status : Option String)
    (ht : bodyField req.body "title" = some (.str title)) (ht2 : 1 ≤ jsLength title)
    (hd : bodyField req.body "description" = some (.str description))
    (hd2 : 1 ≤ jsLength description)
    (hs : bodyField req.body "status" = status.map Json.str)
    (hs2 : ∀ v, status = some v → v ∈ statuses) :
    createTask env s req =
      match req.user with
      | none => (s, ⟨500, message "Cannot read properties of undefined (reading 'id')"⟩)
      | some caller =>
        ({ s with tasks := s.tasks ++
                    [newTask env s req.now title description status caller.id],
                  seq := s.seq + 1 },
         ⟨201, (newTask env s req.now title description status caller.id).toJson⟩) := by
  have h := create_parse_ok env.isEmail req.body title description status ht ht2 hd hd2 hs hs2
  unfold createTask
  rw [h]
  have e1 : Parsed.str [("title", some title), ("description", some description),
      ("status", status)] "title" = title := rfl
  have e2 : Parsed.str [("title", some title), ("description", some description),
      ("status", status)] "description" = description := rfl
  have e3 : Parsed.opt [("title", some title), ("description", some description),
      ("status", status)] "status" = status := by
    cases status <;> rfl
  simp only [e1, e2, e3, Task.create, newTask]

/-- A valid creation body, taken apart. -/
theorem createValid_fields (body : Option Json) (h : CreateValid body) :
    ∃ (title description : String) (status : Option String),
      bodyField body "title" = some (.str title) ∧ 1 ≤ jsLength title ∧
      bodyField body "description" = some (.str description) ∧ 1 ≤ jsLength description ∧
      bodyField body "status" = status.map Json.str ∧ ∀ v, status = some v → v ∈ statuses := by
  obtain ⟨⟨title, ht, ht2⟩, ⟨description, hd, hd2⟩, hs⟩ := h
  rcases hs with hs | ⟨v, hs, hv⟩
  · exact ⟨title, description, none, ht, ht2, hd, hd2, hs, fun v h => by cases h⟩
  · refine ⟨title, description, some v, ht, ht2, hd, hd2, hs, fun w h => ?_⟩
    cases h
    exact hv

theorem jsLength_pos_iff (data : String) : 1 ≤ jsLength data ↔ data ≠ "" := by
  rcases data with ⟨cs⟩
  cases cs with
  | nil => simp [jsLength]
  | cons c cs =>
    have hne : (String.mk (c :: cs)) ≠ "" := by
      intro h
      have := congrArg String.data h
      simp at this
    simp only [jsLength, List.map_cons, List.sum_cons, ne_eq, hne, not_false_eq_true, iff_true]
    split <;> omega

/-- C18: `createTask` answers 400 with the validation message of the body,
which is the message of the first violated field in the order title,
description, status, exactly when the title is not a non-empty string, or
the description is not a non-empty string, or the status is present and not
one of `pending`, `in_progress`, `completed`; no task is persisted then. An
empty title gives "Title is required", and with a valid title an empty
description gives "Description is required". -/
theorem createTask_validation (env : Env) (s : Store) (req : Request) :
    ((∃ m, validationMessage env.isEmail createTaskSchema req.body = some m ∧
        createTask env s req = (s, ⟨400, message m⟩)) ↔ ¬ CreateValid req.body) ∧
    ((createTask env s req).2.status = 400 ↔ ¬ CreateValid req.body) ∧
    (∀ kvs, req.body = some (.obj kvs) →
      validationMessage env.isEmail createTaskSchema req.body
        = firstViolation env.isEmail createTaskSchema (.obj kvs)) ∧
    (bodyField req.body "title" = some (.str "") →
      createTask env s req = (s, ⟨400, message "Title is required"⟩)) ∧
    (IsStringMin 1 (bodyField req.body "title") →
      bodyField req.body "description" = some (.str "") →
      createTask env s req = (s, ⟨400, message "Description is required"⟩)) := by
  refine ⟨⟨?_, createTask_of_invalid env s req⟩, ⟨?_, ?_⟩, ?_, ?_, ?_⟩
  · rintro ⟨m, hm, -⟩ hv
    rw [(create_message_none_iff _ _).mpr hv] at hm
    cases hm
  · intro h400 hv
    obtain ⟨title, description, status, ht, ht2, hd, hd2, hs, hs2⟩ := createValid_fields _ hv
    rw [createTask_of_valid env s req title description status ht ht2 hd hd2 hs hs2] at h400
    cases hu : req.user <;> simp [hu] at h400
  · intro hv
    obtain ⟨m, -, hr⟩ := createTask_of_invalid env s req hv
    rw [hr]
  · intro kvs hb
    rw [hb]
    rfl
  · intro ht
    have hinv : ¬ CreateValid req.body := by
      rintro ⟨⟨d, hd, hd2⟩, -⟩
      rw [ht] at hd
      cases hd
      revert hd2
      decide
    obtain ⟨m, hm, hr⟩ := createTask_of_invalid env s req hinv
    obtain ⟨kvs, hb⟩ := bodyField_some _ _ _ ht
    rw [hb, bodyField_obj] at ht
    rw [hb] at hm
    have h0 : jsLength "" < 1 := by decide
    simp only [validationMessage, firstViolation, createTaskSchema, List.findSome?_cons,
      ZodType.parse, ht, List.filterMap_cons, StringCheck.run, h0, if_true, Option.getD_some,
      List.filterMap_nil, List.head?_cons] at hm
    rw [hr, ← Option.some.inj hm]
  · intro htitle hd
    have hinv : ¬ CreateValid req.body := by
      rintro ⟨-, ⟨d, hd', hd2⟩, -⟩
      rw [hd] at hd'
      cases hd'
      revert hd2
      decide
    obtain ⟨m, hm, hr⟩ := createTask_of_invalid env s req hinv
    obtain ⟨kvs, hb⟩ := bodyField_some _ _ _ hd
    obtain ⟨title, ht, ht2⟩ := htitle
    rw [hb, bodyField_obj] at ht hd
    rw [hb] at hm
    have h0 : jsLength "" < 1 := by decide
    simp only [validationMessage, firstViolation, createTaskSchema, List.findSome?_cons,
      ZodType.parse, ht, hd, List.filterMap_cons, StringCheck.run, Nat.not_lt.mpr ht2, if_false,
      h0, if_true, Option.getD_some, List.filterMap_nil, List.head?_cons, List.head?_nil] at hm
    rw [hr, ← Option.some.inj hm]

/-- C19: a body with a non-empty title and description and no status field,
from a resolved caller, is answered 201 with a task whose status is
`pending` and whose title and description are the submitted ones: the body
of the response carries the identifier of the stored task, the submitted
title and description, the status `pending` and the caller as owner; the
store gains exactly that task. -/
theorem createTask_default_status (env : Env) (s : Store) (req : Request) (caller : ReqUser)
    (title description : String) (huser : req.user = some caller)
    (ht : bodyField req.body "title" = some (.str title)) (ht2 : title ≠ "")
    (hd : bodyField req.body "description" = some (.str description))
    (hd2 : description ≠ "") (hs : bodyField req.body "status" = none) :
    ∃ t : Task, t.status = "pending" ∧ t.title = title ∧ t.description = description ∧
      t.user = caller.id ∧
      (createTask env s req).2.status = 201 ∧
      (createTask env s req).2.body.field "_id" = some (.str t.id) ∧
      (createTask env s req).2.body.field "title" = some (.str title) ∧
      (createTask env s req).2.body.field "description" = some (.str description) ∧
      (createTask env s req).2.body.field "status" = some (.str "pending") ∧
      (createTask env s req).2.body.field "user" = some (.str caller.id) ∧
      (createTask env s req).1.tasks = s.tasks ++ [t] ∧
      (createTask env s req).1.users = s.users := by
  have h := createTask_of_valid env s req title description none ht
    ((jsLength_pos_iff title).mpr ht2) hd ((jsLength_pos_iff description).mpr hd2) hs
    (fun v hv => by cases hv)
  rw [huser] at h
  refine ⟨newTask env s req.now title description none caller.id, rfl, rfl, rfl, rfl,
    ?_, ?_, ?_, ?_, ?_, ?_, ?_, ?_⟩
  all_goals rw [h]
  all_goals rfl

/-- Ann creates a task with title "T" and description "D" and no status. -/
theorem createTask_default_status_witness :
    ∃ t : Task, t.status = "pending" ∧ t.title = "T" ∧ t.description = "D" ∧
      t.user = annReq.id ∧
      (createTask demoEnv demoStore
          { user := some annReq,
            body := some (.obj [("title", .str "T"), ("description", .str "D")]) }).2.status
        = 201 ∧
      (createTask demoEnv demoStore
          { user := some annReq,
            body := some (.obj [("title", .str "T"), ("description", .str "D")]) }).2.body.field
          "_id" = some (.str t.id) ∧
      (createTask demoEnv demoStore
          { user := some annReq,
            body := some (.obj [("title", .str "T"), ("description", .str "D")]) }).2.body.field
          "title" = some (.str "T") ∧
      (createTask demoEnv demoStore
          { user := some annReq,
            body := some (.obj [("title", .str "T"), ("description", .str "D")]) }).2.body.field
          "description" = some (.str "D") ∧
      (createTask demoEnv demoStore
          { user := some annReq,
            body := some (.obj [("title", .str "T"), ("description", .str "D")]) }).2.body.field
          "status" = some (.str "pending") ∧
      (createTask demoEnv demoStore
          { user := some annReq,
            body := some (.obj [("title", .str "T"), ("description", .str "D")]) }).2.body.field
          "user" = some (.str annReq.id) ∧
      (createTask demoEnv demoStore
          { user := some annReq,
            body := some (.obj [("title", .str "T"), ("description", .str "D")]) }).1.tasks
        = demoStore.tasks ++ [t] ∧
      (createTask demoEnv demoStore
          { user := some annReq,
            body := some (.obj [("title", .str "T"), ("description", .str "D")]) }).1.users
        = demoStore.users :=
  createTask_default_status demoEnv demoStore
    { user := some annReq, body := some (.obj [("title", .str "T"), ("description", .str "D")]) }
    annReq "T" "D" rfl rfl (by decide) rfl (by decide) rfl

theorem update_parse_ok (isEmail : String → Bool) (body : Option Json)
    (title description status : Option String) (hobj : IsObject body)
    (ht : bodyField body "title" = title.map Json.str) (ht2 : ∀ v, title = some v → v ≠ "")
    (hd : bodyField body "description" = description.map Json.str)
    (hd2 : ∀ v, description = some v → v ≠ "")
    (hs : bodyField body "status" = status.map Json.str)
    (hs2 : ∀ v, status = some v → v ∈ statuses) :
    zObjectParse isEmail updateTaskSchema body
      = .ok [("title", title), ("description", description), ("status", status)] := by
  obtain ⟨kvs, rfl⟩ := hobj
  rw [bodyField_obj] at ht hd hs
  have a1 : ZodType.parse isEmail (.optional (.string [.min 1 none])) ((Json.obj kvs).field "title")
      = ⟨[], title⟩ := by
    rw [ht]
    cases title with
    | none => simp [ZodType.parse]
    | some v =>
      have := Nat.not_lt.mpr ((jsLength_pos_iff v).mpr (ht2 v rfl))
      simp [ZodType.parse, StringCheck.run, this]
  have a2 : ZodType.parse isEmail (.optional (.string [.min 1 none]))
      ((Json.obj kvs).field "description") = ⟨[], description⟩ := by
    rw [hd]
    cases description with
    | none => simp [ZodType.parse]
    | some v =>
      have := Nat.not_lt.mpr ((jsLength_pos_iff v).mpr (hd2 v rfl))
      simp [ZodType.parse, StringCheck.run, this]
  have a3 : ZodType.parse isEmail (.optional (.enum ["pending", "in_progress", "completed"]))
      ((Json.obj kvs).field "status") = ⟨[], status⟩ := by
    rw [hs]
    cases status with
    | none => simp [ZodType.parse]
    | some v =>
      have hv : v ∈ ["pending", "in_progress", "completed"] := hs2 v rfl
      simp [ZodType.parse, hv]
  simp [zObjectParse, updateTaskSchema, keyIssues, a1, a2, a3]

theorem find_replaceFirst (i : String) (f : Task → Task) (hf : ∀ t, (f t).id = t.id)
    (l : List Task) :
    (replaceFirst (fun t => t.id == i) f l).find? (fun t => t.id == i)
      = (l.find? fun t => t.id == i).map f := by
  induction l with
  | nil => rfl
  | cons x xs ih =>
    unfold replaceFirst
    cases hx : (x.id == i) with
    | true => simp [List.find?_cons, hf, hx]
    | false => simp [List.find?_cons, hx, ih]

/-- The handler `updateTask` by the owner with an accepted body. -/
theorem updateTask_of_valid (env : Env) (s : Store) (req : Request) (task : Task)
    (caller : ReqUser) (title description status : Option String)
    (hfind : Task.findById s req.id = some task) (huser : req.user = some caller)
    (hown : task.user = caller.id) (hobj : IsObject req.body)
    (ht : bodyField req.body "title" = title.map Json.str)
    (ht2 : ∀ v, title = some v → v ≠ "")
    (hd : bodyField req.body "description" = description.map Json.str)
    (hd2 : ∀ v, description = some v → v ≠ "")
    (hs : bodyField req.body "status" = status.map Json.str)
    (hs2 : ∀ v, status = some v → v ∈ statuses) :
    updateTask env s req =
      ({ s with tasks := replaceFirst (fun t => t.id == req.id)
                  (Task.patch req.now title description status) s.tasks },
       ⟨200, (Task.patch req.now title description status task).toJson⟩) := by
  have h := update_parse_ok env.isEmail req.body title description status hobj ht ht2 hd hd2 hs hs2
  unfold updateTask
  rw [hfind, huser]
  have e1 : Parsed.opt [("title", title), ("description", description), ("status", status)]
      "title" = title := by cases title <;> rfl
  have e2 : Parsed.opt [("title", title), ("description", description), ("status", status)]
      "description" = description := by cases description <;> rfl
  have e3 : Parsed.opt [("title", title), ("description", description), ("status", status)]
      "status" = status := by cases status <;> rfl
  simp only [hown, ne_eq, not_true_eq_false, if_false, h, e1, e2, e3, Task.findByIdAndUpdate,
    hfind, Option.map_some']

/-- C20: a partial update keeps the fields the body omits. For an existing
task and its owner, and a body that is an object whose title, description and
status are each absent or valid, `updateTask` answers 200 and the body of the
response carries, for title, description and status, the supplied value
where one is supplied and the value stored before the call where the field is
absent, with the identifier and the owner of the task; a lookup of the id
afterwards finds the task with these values, and identifier, owner and
creation time unchanged. A body with only a valid status is the case where
title and description are absent. -/
theorem updateTask_partial (env : Env) (s : Store) (req : Request) (task : Task)
    (caller : ReqUser) (title description status : Option String)
    (hfind : Task.findById s req.id = some task) (huser : req.user = some caller)
    (hown : task.user = caller.id) (hobj : IsObject req.body)
    (ht : bodyField req.body "title" = title.map Json.str)
    (ht2 : ∀ v, title = some v → v ≠ "")
    (hd : bodyField req.body "description" = description.map Json.str)
    (hd2 : ∀ v, description = some v → v ≠ "")
    (hs : bodyField req.body "status" = status.map Json.str)
    (hs2 : ∀ v, status = some v → v ∈ statuses) :
    (updateTask env s req).2.status = 200 ∧
    (updateTask env s req).2.body.field "_id" = some (.str task.id) ∧
    (updateTask env s req).2.body.field "title" = some (.str (title.getD task.title)) ∧
    (updateTask env s req).2.body.field "description"
      = some (.str (description.getD task.description)) ∧
    (updateTask env s req).2.body.field "status" = some (.str (status.getD task.status)) ∧
    (updateTask env s req).2.body.field "user" = some (.str task.user) ∧
    ∃ t : Task, Task.findById (updateTask env s req).1 req.id = some t ∧
      t.title = title.getD task.title ∧ t.description = description.getD task.description ∧
      t.status = status.getD task.status ∧
      t.id = task.id ∧ t.user = task.user ∧ t.createdAt = task.createdAt := by
  have h := updateTask_of_valid env s req task caller title description status hfind huser hown
    hobj ht ht2 hd hd2 hs hs2
  refine ⟨by rw [h], by rw [h]; rfl, by rw [h]; rfl, by rw [h]; rfl, by rw [h]; rfl,
    by rw [h]; rfl,
    Task.patch req.now title description status task, ?_, rfl, rfl, rfl, rfl, rfl, rfl⟩
  rw [h]
  simp only [Task.findById]
  rw [find_replaceFirst req.id (Task.patch req.now title description status) (fun t => rfl)]
  unfold Task.findById at hfind
  rw [hfind]
  rfl

/-- Ann sets only the status of her task: title and description stay. -/
theorem updateTask_partial_witness :
    (updateTask demoEnv demoStore
        { id := "id2", user := some annReq, now := 9,
          body := some (.obj [("status", .str "completed")]) }).2.status = 200 ∧
    (updateTask demoEnv demoStore
        { id := "id2", user := some annReq, now := 9,
          body := some (.obj [("status", .str "completed")]) }).2.body.field "_id"
      = some (.str "id2") ∧
    (updateTask demoEnv demoStore
        { id := "id2", user := some annReq, now := 9,
          body := some (.obj [("status", .str "completed")]) }).2.body.field "title"
      = some (.str "T") ∧
    (updateTask demoEnv demoStore
        { id := "id2", user := some annReq, now := 9,
          body := some (.obj [("status", .str "completed")]) }).2.body.field "description"
      = some (.str "D") ∧
    (updateTask demoEnv demoStore
        { id := "id2", user := some annReq, now := 9,
          body := some (.obj [("status", .str "completed")]) }).2.body.field "status"
      = some (.str "completed") ∧
    (updateTask demoEnv demoStore
        { id := "id2", user := some annReq, now := 9,
          body := some (.obj [("status", .str "completed")]) }).2.body.field "user"
      = some (.str "id0") ∧
    ∃ t : Task,
      Task.findById (updateTask demoEnv demoStore
          { id := "id2", user := some annReq, now := 9,
            body := some (.obj [("status", .str "completed")]) }).1 "id2" = some t ∧
      t.title = "T" ∧ t.description = "D" ∧ t.status = "completed" ∧
      t.id = annTask.id ∧ t.user = annTask.user ∧ t.createdAt = annTask.createdAt :=
  updateTask_partial demoEnv demoStore
    { id := "id2", user := some annReq, now := 9,
      body := some (.obj [("status", .str "completed")]) }
    annTask annReq none none (some "completed") rfl rfl rfl ⟨_, rfl⟩ rfl (by simp) rfl (by simp)
    rfl (by simp [statuses])

/-! ## Profile update -/

theorem profile_parse_ok (isEmail : String → Bool) (body : Option Json)
    (name email : Option String) (hobj : IsObject body)
    (hn : bodyField body "name" = name.map Json.str)
    (hn2 : ∀ v, name = some v → 2 ≤ jsLength v)
    (he : bodyField body "email" = email.map Json.str)
    (he2 : ∀ v, email = some v → isEmail v = true) :
    zObjectParse isEmail profileSchema body = .ok [("name", name), ("email", email)] := by
  obtain ⟨kvs, rfl⟩ := hobj
  rw [bodyField_obj] at hn he
  have a1 : ZodType.parse isEmail (.optional (.string [.min 2 none])) ((Json.obj kvs).field "name")
      = ⟨[], name⟩ := by
    rw [hn]
    cases name with
    | none => simp [ZodType.parse]
    | some v =>
      have := Nat.not_lt.mpr (hn2 v rfl)
      simp [ZodType.parse, StringCheck.run, this]
  have a2 : ZodType.parse isEmail (.optional (.string [.email none]))
      ((Json.obj kvs).field "email") = ⟨[], email⟩ := by
    rw [he]
    cases email with
    | none => simp [ZodType.parse]
    | some v => simp [ZodType.parse, StringCheck.run, he2 v rfl]
  simp [zObjectParse, profileSchema, keyIssues, a1, a2]

/-- An accepted profile body, taken apart. -/
theorem profileValid_fields (isEmail : String → Bool) (body : Option Json)
    (h : ProfileValid isEmail body) :
    ∃ name email : Option String,
      bodyField body "name" = name.map Json.str ∧ (∀ v, name = some v → 2 ≤ jsLength v) ∧
      bodyField body "email" = email.map Json.str ∧ (∀ v, email = some v → isEmail v = true) ∧
      supplied body "name" = name ∧ supplied body "email" = email := by
  obtain ⟨-, hn, he⟩ := h
  have hname : ∃ name : Option String, bodyField body "name" = name.map Json.str ∧
      (∀ v, name = some v → 2 ≤ jsLength v) ∧ supplied body "name" = name := by
    rcases hn with hn | ⟨v, hn, hv⟩
    · refine ⟨none, hn, ?_, ?_⟩
      · intro v h
        cases h
      · simp only [supplied, hn]
    · refine ⟨some v, hn, ?_, ?_⟩
      · intro w h
        cases h
        exact hv
      · simp only [supplied, hn]
  have hemail : ∃ email : Option String, bodyField body "email" = email.map Json.str ∧
      (∀ v, email = some v → isEmail v = true) ∧ supplied body "email" = email := by
    rcases he with he | ⟨v, he, hv⟩
    · refine ⟨none, he, ?_, ?_⟩
      · intro v h
        cases h
      · simp only [supplied, he]
    · refine ⟨some v, he, ?_, ?_⟩
      · intro w h
        cases h
        exact hv
      · simp only [supplied, he]
  obtain ⟨name, h1, h2, h3⟩ := hname
  obtain ⟨email, h4, h5, h6⟩ := hemail
  exact ⟨name, email, h1, h2, h4, h5, h3, h6⟩

theorem findById_some (s : Store) (id : String) (u : User) (h : User.findById s id = some u) :
    u ∈ s.users ∧ u.id = id := by
  unfold User.findById at h
  exact ⟨List.mem_of_find?_eq_some h, by simpa using List.find?_some h⟩

theorem findById_none_iff (s : Store) (id : String) :
    User.findById s id = none ↔ ∀ u ∈ s.users, u.id ≠ id := by
  simp [User.findById, List.find?_eq_none]

theorem find_map_replace (i : String) (v : User) (hv : v.id = i) (l : List User) :
    (l.map fun u => if u.id == i then v else u).find? (fun u => u.id == i)
      = (l.find? fun u => u.id == i).map fun _ => v := by
  induction l with
  | nil => rfl
  | cons x xs ih =>
    simp only [List.map_cons, List.find?_cons]
    cases hx : (x.id == i) with
    | true =>
      have hvi : (v.id == i) = true := by simp [hv]
      simp only [if_true, hvi, Option.map_some']
    | false =>
      simp only [Bool.false_eq_true, if_false, hx]
      exact ih

theorem truthy_some (v : String) (h : v ≠ "") : truthy (some v) = true := by
  simp [truthy, h]

/-- The handler `updateProfile` for a resolved caller whose user exists and
an accepted body: a supplied name or e-mail replaces the previous one, and
the save is refused when another stored user holds the resulting e-mail. -/
theorem updateProfile_of_valid (env : Env) (s : Store) (req : Request)
    (hE : env.isEmail "" = false) (caller : ReqUser) (user : User)
    (name email : Option String) (hobj : IsObject req.body)
    (hn : bodyField req.body "name" = name.map Json.str)
    (hn2 : ∀ v, name = some v → 2 ≤ jsLength v)
    (he : bodyField req.body "email" = email.map Json.str)
    (he2 : ∀ v, email = some v → env.isEmail v = true)
    (huser : req.user = some caller) (hfind : User.findById s caller.id = some user) :
    updateProfile env s req =
      if s.users.any (fun u => u.id != caller.id && u.email == email.getD user.email) then
        (s, ⟨500, message "DuplicateEmail"⟩)
      else
        ({ s with users := s.users.map fun u =>
              if u.id == caller.id then
                { user with name := name.getD user.name, email := email.getD user.email }
              else u },
         ⟨200, authBody env req.now
            { user with name := name.getD user.name, email := email.getD user.email }⟩) := by
  have h := profile_parse_ok env.isEmail req.body name email hobj hn hn2 he he2
  have hid := (findById_some s caller.id user hfind).2
  have e1 : Parsed.opt [("name", name), ("email", email)] "name" = name := by
    cases name <;> rfl
  have e2 : Parsed.opt [("name", name), ("email", email)] "email" = email := by
    cases email <;> rfl
  have tn : name = none ∨ truthy name = true := by
    cases name with
    | none => exact Or.inl rfl
    | some v =>
      exact Or.inr (truthy_some v
        ((jsLength_pos_iff v).mp (Nat.le_trans (by decide) (hn2 v rfl))))
  have te : email = none ∨ truthy email = true := by
    cases email with
    | none => exact Or.inl rfl
    | some v =>
      refine Or.inr (truthy_some v ?_)
      intro h0
      have := he2 v rfl
      rw [h0, hE] at this
      cases this
  have hsome : (User.findById s caller.id).isSome = true := by rw [hfind]; rfl
  have tnone : truthy none = false := rfl
  obtain ⟨uid, uname, uemail, upassword, ucreated⟩ := user
  simp only at hid
  subst hid
  unfold updateProfile
  rw [h, huser]
  simp only [e1, e2, hfind]
  rcases tn with rfl | tn <;> rcases te with rfl | te
  · simp only [tnone, User.save, hsome, Bool.false_eq_true, if_false, if_true,
      Option.getD_none]
    split_ifs <;> rfl
  · simp only [tnone, te, User.save, hsome, Bool.false_eq_true, if_false, if_true,
      Option.getD_none]
    split_ifs <;> rfl
  · simp only [tnone, tn, User.save, hsome, Bool.false_eq_true, if_false, if_true,
      Option.getD_none]
    split_ifs <;> rfl
  · simp only [tn, te, User.save, hsome, if_true]
    split_ifs <;> rfl

theorem any_other_email_false (s : Store) (id email : String)
    (h : ∀ u ∈ s.users, u.id ≠ id → u.email ≠ email) :
    s.users.any (fun u => u.id != id && u.email == email) = false := by
  rw [List.any_eq_false]
  intro u hu
  by_cases hid : u.id = id
  · simp [hid]
  · simp [hid, h u hu hid]

theorem any_other_email_true (s : Store) (id email : String) (other : User)
    (hmem : other ∈ s.users) (hid : other.id ≠ id) (hmail : other.email = email) :
    s.users.any (fun u => u.id != id && u.email == email) = true := by
  rw [List.any_eq_true]
  exact ⟨other, hmem, by simp [hid, hmail]⟩

/-- C11, as stated, fails when the supplied e-mail is another user's: Bob
asks for Ann's e-mail with a body the schema accepts, and the save is refused
by the uniqueness of e-mails; the answer is 500 and the store is unchanged. -/
theorem updateProfile_taken_email_refused :
    ProfileValid demoEnv.isEmail (some (.obj [("email", .str "ann@x.com")])) ∧
    User.findById twoUserStore bobReq.id = some bob ∧
    (updateProfile demoEnv twoUserStore
        { user := some bobReq, body := some (.obj [("email", .str "ann@x.com")]) }).2.status
      = 500 ∧
    (updateProfile demoEnv twoUserStore
        { user := some bobReq, body := some (.obj [("email", .str "ann@x.com")]) }).1
      = twoUserStore :=
  ⟨⟨⟨_, rfl⟩, Or.inl rfl, Or.inr ⟨"ann@x.com", rfl, by decide⟩⟩, rfl, rfl, rfl⟩

/-- C11, amended: for a resolved caller whose user exists and a body the
profile schema accepts, when no other stored user holds the e-mail the user
is to have, `updateProfile` answers 200 with `_id` the caller's id, the
supplied name if one is given and the previous name otherwise, the supplied
e-mail if one is given and the previous e-mail otherwise, and the token
issued for that id. The stored user then holds that name and e-mail, with
identifier and password hash unchanged. The e-mail syntax is taken to reject
the empty string. -/
theorem updateProfile_updates (env : Env) (s : Store) (req : Request) (caller : ReqUser)
    (user : User) (hE : env.isEmail "" = false)
    (hv : ProfileValid env.isEmail req.body)
    (huser : req.user = some caller) (hfind : User.findById s caller.id = some user)
    (hfree : ∀ u ∈ s.users, u.id ≠ caller.id →
      u.email ≠ (supplied req.body "email").getD user.email) :
    ∃ u : User,
      u.name = (supplied req.body "name").getD user.name ∧
      u.email = (supplied req.body "email").getD user.email ∧
      u.id = caller.id ∧ u.password = user.password ∧
      (updateProfile env s req).2 =
        ⟨200, .obj [("_id", .str caller.id), ("name", .str u.name), ("email", .str u.email),
                    ("token", .str (env.generateToken caller.id req.now))]⟩ ∧
      User.findById (updateProfile env s req).1 caller.id = some u ∧
      (updateProfile env s req).1.tasks = s.tasks := by
  obtain ⟨name, email, hn, hn2, he, he2, sn, se⟩ := profileValid_fields env.isEmail req.body hv
  have h := updateProfile_of_valid env s req hE caller user name email hv.1 hn hn2 he he2
    huser hfind
  rw [se] at hfree
  rw [any_other_email_false s caller.id _ hfree] at h
  simp only [Bool.false_eq_true, if_false] at h
  have hid := (findById_some s caller.id user hfind).2
  refine ⟨{ user with name := name.getD user.name, email := email.getD user.email },
    by rw [sn], by rw [se], hid, rfl, ?_, ?_, ?_⟩
  · rw [h]
    simp only [authBody, hid]
  · rw [h]
    simp only [User.findById]
    rw [find_map_replace caller.id
      { user with name := name.getD user.name, email := email.getD user.email } hid]
    unfold User.findById at hfind
    rw [hfind]
    rfl
  · rw [h]

/-- Bob changes his name and takes an e-mail nobody holds. -/
theorem updateProfile_updates_witness :
    ∃ u : User,
      u.name = (supplied (some (.obj [("name", .str "Robert"), ("email", .str "rob@x.com")]))
        "name").getD bob.name ∧
      u.email = (supplied (some (.obj [("name", .str "Robert"), ("email", .str "rob@x.com")]))
        "email").getD bob.email ∧
      u.id = bobReq.id ∧ u.password = bob.password ∧
      (updateProfile demoEnv twoUserStore
          { user := some bobReq, now := 4,
            body := some (.obj [("name", .str "Robert"), ("email", .str "rob@x.com")]) }).2 =
        ⟨200, .obj [("_id", .str bobReq.id), ("name", .str u.name), ("email", .str u.email),
                    ("token", .str (demoEnv.generateToken bobReq.id 4))]⟩ ∧
      User.findById (updateProfile demoEnv twoUserStore
          { user := some bobReq, now := 4,
            body := some (.obj [("name", .str "Robert"), ("email", .str "rob@x.com")]) }).1
        bobReq.id = some u ∧
      (updateProfile demoEnv twoUserStore
          { user := some bobReq, now := 4,
            body := some (.obj [("name", .str "Robert"), ("email", .str "rob@x.com")]) }).1.tasks
        = twoUserStore.tasks :=
  updateProfile_updates demoEnv twoUserStore
    { user := some bobReq, now := 4,
      body := some (.obj [("name", .str "Robert"), ("email", .str "rob@x.com")]) }
    bobReq bob (by decide)
    ⟨⟨_, rfl⟩, Or.inr ⟨"Robert", rfl, by decide⟩, Or.inr ⟨"rob@x.com", rfl, by decide⟩⟩ rfl rfl
    (by decide)

/-- C12: when the body passes validation and the caller's id matches no
stored user, `updateProfile` answers 404 with `message` "User not found" and
the store is unchanged. -/
theorem updateProfile_user_missing (env : Env) (s : Store) (req : Request) (caller : ReqUser)
    (hv : ProfileValid env.isEmail req.body) (huser : req.user = some caller)
    (hmissing : ∀ u ∈ s.users, u.id ≠ caller.id) :
    updateProfile env s req = (s, ⟨404, message "User not found"⟩) := by
  obtain ⟨name, email, hn, hn2, he, he2, -, -⟩ := profileValid_fields env.isEmail req.body hv
  have h := profile_parse_ok env.isEmail req.body name email hv.1 hn hn2 he he2
  have hfind := (findById_none_iff s caller.id).mpr hmissing
  unfold updateProfile
  rw [h, huser]
  simp only [hfind]

/-- Bob, who is not in the store, sends a valid profile body. -/
theorem updateProfile_user_missing_witness :
    updateProfile demoEnv demoStore
        { user := some bobReq, body := some (.obj [("email", .str "bob@y.com")]) }
      = (demoStore, ⟨404, message "User not found"⟩) :=
  updateProfile_user_missing demoEnv demoStore
    { user := some bobReq, body := some (.obj [("email", .str "bob@y.com")]) } bobReq
    ⟨⟨_, rfl⟩, Or.inl rfl, Or.inr ⟨"bob@y.com", rfl, by decide⟩⟩ rfl (by decide)

/-! ## Listing tasks -/

theorem bitLength_spec (fuel : Nat) : ∀ m : Nat, m ≤ fuel →
    m < 2 ^ bitLength fuel m ∧ (0 < m → 2 ^ (bitLength fuel m - 1) ≤ m) := by
  induction fuel with
  | zero =>
    intro m hm
    have : m = 0 := by omega
    subst this
    simp [bitLength]
  | succ fuel ih =>
    intro m hm
    by_cases h0 : m = 0
    · subst h0
      simp [bitLength]
    · have hstep : bitLength (fuel + 1) m = bitLength fuel (m / 2) + 1 := by
        simp [bitLength, h0]
      rw [hstep]
      obtain ⟨h1, h2⟩ := ih (m / 2) (by omega)
      constructor
      · rw [Nat.pow_succ]
        omega
      · intro _
        rw [Nat.add_sub_cancel]
        by_cases hhalf : m / 2 = 0
        · have hb : bitLength fuel (m / 2) = 0 := by
            rw [hhalf]
            cases fuel <;> simp [bitLength]
          rw [hb]
          simp
          omega
        · have h3 := h2 (by omega)
          have hpos : 0 < bitLength fuel (m / 2) := by
            by_contra hc
            have hz : bitLength fuel (m / 2) = 0 := by omega
            rw [hz] at h1
            simp at h1
            omega
          have hsplit : 2 ^ bitLength fuel (m / 2) = 2 ^ (bitLength fuel (m / 2) - 1) * 2 := by
            rw [← Nat.pow_succ]
            congr 1
            omega
          rw [hsplit]
          omega

theorem bitLength_le (m k : Nat) (h : m < 2 ^ k) : bitLength m m ≤ k := by
  by_cases h0 : m = 0
  · subst h0
    simp [bitLength]
  · have h2 := (bitLength_spec m m (Nat.le_refl m)).2 (by omega)
    by_contra hc
    have hle : 2 ^ k ≤ 2 ^ (bitLength m m - 1) := Nat.pow_le_pow_right (by decide) (by omega)
    omega

theorem roundTo53_of_lt (m : Nat) (h : m < 2 ^ 53) : roundTo53 m = m := by
  have hb : bitLength m m - 53 = 0 := Nat.sub_eq_zero_of_le (bitLength_le m 53 h)
  simp [roundTo53, hb, Nat.mod_one]

theorem roundTo53_ge (m : Nat) (h : 2 ^ 53 ≤ m) : 2 ^ 53 ≤ roundTo53 m := by
  obtain ⟨h1, h2⟩ := bitLength_spec m m (Nat.le_refl m)
  have h2 := h2 (by
    have : 0 < 2 ^ 53 := by decide
    omega)
  have hbig : 54 ≤ bitLength m m := by
    by_contra hc
    have : 2 ^ bitLength m m ≤ 2 ^ 53 := Nat.pow_le_pow_right (by decide) (by omega)
    omega
  obtain ⟨e, he⟩ : ∃ e, bitLength m m = e + 54 := ⟨bitLength m m - 54, by omega⟩
  have hunit : bitLength m m - 53 = e + 1 := by omega
  have hlow : 2 ^ (e + 1) * 2 ^ 52 ≤ m := by
    rw [← Nat.pow_add]
    have : e + 1 + 52 = bitLength m m - 1 := by omega
    rw [this]
    exact h2
  have hq : 2 ^ 52 ≤ m / 2 ^ (e + 1) := by
    rw [Nat.le_div_iff_mul_le (Nat.pos_pow_of_pos _ (by decide))]
    rw [Nat.mul_comm]
    exact hlow
  have hbase : 2 ^ 53 ≤ m / 2 ^ (e + 1) * 2 ^ (e + 1) := by
    have h53 : (2 : Nat) ^ 53 = 2 ^ 52 * 2 ^ 1 := by decide
    have hmono : 2 ^ 52 * 2 ^ 1 ≤ m / 2 ^ (e + 1) * 2 ^ (e + 1) :=
      Nat.mul_le_mul hq (Nat.pow_le_pow_right (by decide) (by omega))
    omega
  have hup : m / 2 ^ (e + 1) * 2 ^ (e + 1) ≤ (m / 2 ^ (e + 1) + 1) * 2 ^ (e + 1) :=
    Nat.mul_le_mul_right _ (by omega)
  unfold roundTo53
  simp only [hunit]
  split_ifs <;> omega

theorem JsNumber.ofInt_of_lt (n : Int) (h0 : 0 ≤ n) (h : n < 2 ^ 53) :
    JsNumber.ofInt n = .int n := by
  have hn : n.natAbs < 2 ^ 53 := by omega
  have hb : ¬ 1024 < bitLength n.natAbs n.natAbs := by
    have := bitLength_le n.natAbs 53 hn
    omega
  unfold JsNumber.ofInt
  rw [roundTo53_of_lt _ hn, if_neg hb, if_neg (by omega)]
  congr 1
  omega

theorem JsNumber.ofInt_of_ge (n : Int) (h : 2 ^ 53 ≤ n) :
    JsNumber.ofInt n = .infinity false ∨ ∃ r : Int, 2 ^ 53 ≤ r ∧ JsNumber.ofInt n = .int r := by
  have hn : 2 ^ 53 ≤ n.natAbs := by omega
  have hr := roundTo53_ge n.natAbs hn
  have hneg : ¬ n < 0 := by omega
  unfold JsNumber.ofInt
  by_cases hb : 1024 < bitLength (roundTo53 n.natAbs) (roundTo53 n.natAbs)
  · left
    rw [if_pos hb]
    simp [hneg]
  · right
    rw [if_neg hb, if_neg hneg]
    exact ⟨_, by omega, rfl⟩

theorem readsAs_ofInt (n : Int) (h0 : 0 ≤ n) : ReadsAs (JsNumber.ofInt n) n := by
  by_cases h : n < 2 ^ 53
  · exact Or.inl ⟨h, JsNumber.ofInt_of_lt n h0 h⟩
  · exact Or.inr ⟨by omega, JsNumber.ofInt_of_ge n (by omega)⟩

theorem readsAs_int (n : Int) : ReadsAs (.int n) n := by
  by_cases h : n < 2 ^ 53
  · exact Or.inl ⟨h, rfl⟩
  · exact Or.inr ⟨by omega, Or.inr ⟨n, by omega, rfl⟩⟩

theorem toInt64_int (n : Int) (h0 : 0 ≤ n) (h : n < 2 ^ 63) : (JsNumber.int n).toInt64 = n := by
  simp only [JsNumber.toInt64, max_def, min_def]
  split_ifs <;> omega

theorem toInt64_int_ge (b r : Int) (hb : b < 2 ^ 63) (h : b ≤ r) :
    b ≤ (JsNumber.int r).toInt64 := by
  simp only [JsNumber.toInt64, max_def, min_def]
  split_ifs <;> omega

theorem toInt64_ofInt_ge (n : Int) (h : 2 ^ 53 - 1 ≤ n) :
    2 ^ 53 - 1 ≤ (JsNumber.ofInt n).toInt64 := by
  by_cases hlt : n < 2 ^ 53
  · rw [JsNumber.ofInt_of_lt n (by omega) hlt]
    exact toInt64_int_ge _ _ (by decide) h
  · rcases JsNumber.ofInt_of_ge n (by omega) with hinf | ⟨r, hr, hint⟩
    · rw [hinf]
      decide
    · rw [hint]
      exact toInt64_int_ge _ _ (by decide) (by omega)

theorem toInt64_ofInt_near (n : Int) (h0 : 0 ≤ n) :
    (n < 2 ^ 53 - 1 ∧ (JsNumber.ofInt n).toInt64 = n) ∨
      (2 ^ 53 - 1 ≤ n ∧ 2 ^ 53 - 1 ≤ (JsNumber.ofInt n).toInt64) := by
  by_cases hlt : n < 2 ^ 53 - 1
  · left
    rw [JsNumber.ofInt_of_lt n h0 (by omega)]
    exact ⟨hlt, toInt64_int n h0 (by omega)⟩
  · exact Or.inr ⟨by omega, toInt64_ofInt_ge n (by omega)⟩

theorem le_mul_of_one_le (a b c : Int) (ha : 1 ≤ a) (hc : 0 ≤ c) (hb : c ≤ b) : c ≤ a * b := by
  nlinarith

theorem le_mul_of_le_one (a b c : Int) (hb : 1 ≤ b) (hc : 0 ≤ c) (ha : c ≤ a) : c ≤ a * b := by
  nlinarith

/-- The skip the database reads, against the exact product `(page - 1) * limit`:
equal to it below `2 ^ 53 - 1`, and at least `2 ^ 53 - 1` from there on. -/
theorem skip_near (P L : JsNumber) (page limit : Int) (hP : ReadsAs P page)
    (hL : ReadsAs L limit) (hp : 1 ≤ page) (hl : 1 ≤ limit) :
    ((page - 1) * limit < 2 ^ 53 - 1 ∧ ((P.sub (.int 1)).mul L).toInt64 = (page - 1) * limit) ∨
      (2 ^ 53 - 1 ≤ (page - 1) * limit ∧ 2 ^ 53 - 1 ≤ ((P.sub (.int 1)).mul L).toInt64) := by
  have hL' : L = .infinity false ∨ ∃ l : Int, 1 ≤ l ∧ L = .int l ∧
      (limit < 2 ^ 53 → l = limit) ∧ (2 ^ 53 ≤ limit → 2 ^ 53 ≤ l) := by
    rcases hL with ⟨h1, h2⟩ | ⟨h1, h2 | ⟨r, hr, h2⟩⟩
    · exact Or.inr ⟨limit, hl, h2, fun _ => rfl, fun h => by omega⟩
    · exact Or.inl h2
    · exact Or.inr ⟨r, by omega, h2, fun h => by omega, fun _ => hr⟩
  have hLinf : L = .infinity false → 2 ^ 53 ≤ limit := by
    intro h
    rcases hL with ⟨_, h2⟩ | ⟨h1, _⟩
    · rw [h] at h2
      cases h2
    · exact h1
  rcases hP with ⟨hp1, hP⟩ | ⟨hp1, hP⟩
  · -- the page is read exactly
    have hQ : P.sub (.int 1) = .int (page - 1) := by
      rw [hP]
      exact JsNumber.ofInt_of_lt (page - 1) (by omega) (by omega)
    rw [hQ]
    rcases hL' with hinf | ⟨l, hl1, hint, hsmall, hbig⟩
    · rw [hinf]
      have hlim := hLinf hinf
      by_cases ha : page - 1 = 0
      · left
        rw [ha]
        simp only [Int.zero_mul]
        exact ⟨by decide, by simp [JsNumber.mul, JsNumber.toInt64]⟩
      · right
        have hneg : ¬ page - 1 < 0 := by omega
        refine ⟨le_mul_of_one_le _ _ _ (by omega) (by decide) (by omega), ?_⟩
        simp [JsNumber.mul, ha, hneg, JsNumber.toInt64]
    · rw [hint]
      have hmul : (JsNumber.int (page - 1)).mul (.int l) = JsNumber.ofInt ((page - 1) * l) := rfl
      rw [hmul]
      by_cases hlim : limit < 2 ^ 53
      · rw [hsmall hlim]
        exact toInt64_ofInt_near _ (Int.mul_nonneg (by omega) (by omega))
      · by_cases ha : page - 1 = 0
        · left
          rw [ha]
          simp only [Int.zero_mul]
          exact ⟨by decide, by decide⟩
        · right
          refine ⟨le_mul_of_one_le _ _ _ (by omega) (by decide) (by omega), ?_⟩
          exact toInt64_ofInt_ge _
            (le_mul_of_one_le _ _ _ (by omega) (by decide) (by have := hbig (by omega); omega))
  · -- the page is read as a number of at least 2 ^ 53
    right
    refine ⟨le_mul_of_le_one _ _ _ hl (by decide) (by omega), ?_⟩
    have hQ : P.sub (.int 1) = .infinity false ∨
        ∃ q : Int, 2 ^ 53 - 1 ≤ q ∧ P.sub (.int 1) = .int q := by
      rcases hP with hP | ⟨r, hr, hP⟩
      · left
        rw [hP]
        rfl
      · rw [hP]
        have hsub : (JsNumber.int r).sub (.int 1) = JsNumber.ofInt (r - 1) := rfl
        rw [hsub]
        by_cases hlt : r - 1 < 2 ^ 53
        · right
          exact ⟨r - 1, by omega, JsNumber.ofInt_of_lt _ (by omega) hlt⟩
        · rcases JsNumber.ofInt_of_ge (r - 1) (by omega) with h | ⟨q, hq, h⟩
          · exact Or.inl h
          · exact Or.inr ⟨q, by omega, h⟩
    rcases hQ with hQ | ⟨q, hq, hQ⟩
    · rw [hQ]
      rcases hL' with hinf | ⟨l, hl1, hint, -, -⟩
      · rw [hinf]
        decide
      · rw [hint]
        have h0 : l ≠ 0 := by omega
        have hneg : ¬ l < 0 := by omega
        simp [JsNumber.mul, h0, hneg, JsNumber.toInt64]
    · rw [hQ]
      rcases hL' with hinf | ⟨l, hl1, hint, -, -⟩
      · rw [hinf]
        have h0 : q ≠ 0 := by omega
        have hneg : ¬ q < 0 := by omega
        simp [JsNumber.mul, h0, hneg, JsNumber.toInt64]
      · rw [hint]
        have hmul : (JsNumber.int q).mul (.int l) = JsNumber.ofInt (q * l) := rfl
        rw [hmul]
        exact toInt64_ofInt_ge _ (le_mul_of_le_one _ _ _ hl1 (by decide) hq)

/-- The limit the database reads, against the requested limit: equal to it
below `2 ^ 53`, and at least `2 ^ 53` from there on. -/
theorem limit_near (L : JsNumber) (limit : Int) (hL : ReadsAs L limit) (hl : 1 ≤ limit) :
    (limit < 2 ^ 53 ∧ L.toInt64 = limit) ∨ (2 ^ 53 ≤ limit ∧ 2 ^ 53 ≤ L.toInt64) := by
  rcases hL with ⟨h1, h2⟩ | ⟨h1, h2 | ⟨r, hr, h2⟩⟩
  · left
    rw [h2]
    exact ⟨h1, toInt64_int limit (by omega) (by omega)⟩
  · right
    rw [h2]
    exact ⟨h1, by decide⟩
  · right
    rw [h2]
    exact ⟨h1, toInt64_int_ge _ _ (by decide) hr⟩

theorem ceilDiv_spec (a b : Int) (hb : 0 < b) :
    a ≤ ceilDiv a b * b ∧ ∀ m : Int, a ≤ m * b → ceilDiv a b ≤ m := by
  have hq : ceilDiv a b = -((-a) / b) := by
    unfold ceilDiv
    rw [Int.fdiv_eq_ediv _ (Int.le_of_lt hb)]
  rw [hq]
  constructor
  · have h1 : (-a) / b * b ≤ -a := Int.ediv_mul_le (-a) (Int.ne_of_gt hb)
    have h2 : -(-a / b) * b = -((-a) / b * b) := by ring
    rw [h2]
    omega
  · intro m hm
    have h1 : -m ≤ (-a) / b := by
      rw [Int.le_ediv_iff_mul_le hb]
      have : -m * b = -(m * b) := by ring
      rw [this]
      omega
    omega

theorem ceilDiv_nonneg (a b : Int) (ha : 0 ≤ a) (hb : 0 < b) : 0 ≤ ceilDiv a b := by
  have h := (ceilDiv_spec a b hb).1
  by_contra hneg
  have hlt : ceilDiv a b ≤ -1 := by omega
  have : ceilDiv a b * b ≤ -1 * b := Int.mul_le_mul_of_nonneg_right hlt (Int.le_of_lt hb)
  omega

theorem listing_perm (s : Store) (user : String) : (listing s user).Perm (ownedBy s user) :=
  List.perm_insertionSort newerFirst _

theorem listing_length (s : Store) (user : String) :
    (listing s user).length = (ownedBy s user).length :=
  (listing_perm s user).length_eq

theorem ownedBy_user (s : Store) (user : String) (t : Task) (h : t ∈ ownedBy s user) :
    t.user = user := by
  simpa [ownedBy] using (List.mem_filter.mp h).2

/-- The handler `getTasks` for a resolved caller. -/
theorem getTasks_of_user (s : Store) (req : Request) (caller : ReqUser)
    (huser : req.user = some caller) :
    getTasks s req =
      if (skipOf req).toInt64 < 0 then ⟨500, message "Skip value must be non-negative"⟩
      else ⟨200, tasksBody
        (if (limitOf req).toInt64 = 0 then (listing s caller.id).drop (skipOf req).toInt64.toNat
         else ((listing s caller.id).drop (skipOf req).toInt64.toNat).take
           (limitOf req).toInt64.natAbs)
        (pageOf req) (limitOf req) (ownedBy s caller.id).length⟩ := by
  unfold getTasks
  rw [huser]
  simp only [TaskQuery.exec, Task.find, TaskQuery.setSkip, TaskQuery.setLimit,
    TaskQuery.sortCreatedAtDesc, Task.countDocuments, if_true, skipOf, listing]
  by_cases hs : (((pageOf req).sub (.int 1)).mul (limitOf req)).toInt64 < 0
  · simp only [hs, if_true]
  · simp only [hs, if_false]

theorem segment_sublist (l : List Task) (m n : Nat) : ((l.drop m).take n).Sublist l :=
  (List.take_sublist n _).trans (List.drop_sublist m l)

/-- A segment of a list of fewer than `2 ^ 53` elements does not change when
an offset or a length beyond the list is replaced by another one beyond it. -/
theorem segment_eq (l : List Task) (k n k₁ n₁ : Nat) (hlen : l.length < 2 ^ 53)
    (hk : k₁ = k ∨ (2 ^ 53 - 1 ≤ k ∧ 2 ^ 53 - 1 ≤ k₁))
    (hn : n₁ = n ∨ (2 ^ 53 ≤ n ∧ 2 ^ 53 ≤ n₁)) :
    (l.drop k₁).take n₁ = (l.drop k).take n := by
  have hdrop : l.drop k₁ = l.drop k := by
    rcases hk with hk | ⟨h1, h2⟩
    · rw [hk]
    · rw [List.drop_eq_nil_of_le (by omega), List.drop_eq_nil_of_le (by omega)]
  rw [hdrop]
  rcases hn with hn | ⟨h1, h2⟩
  · rw [hn]
  · have hl : (l.drop k).length ≤ l.length := by
      rw [List.length_drop]
      omega
    rw [List.take_of_length_le (by omega), List.take_of_length_le (by omega)]

/-- The handler `getTasks` for a resolved caller who owns fewer than `2 ^ 53`
tasks and asks for a positive page and limit: the answer is 200 with the
segment of the listing at offset `(page - 1) * limit`, of length at most
`limit`, whatever the size of the two numbers. -/
theorem getTasks_segment (s : Store) (req : Request) (caller : ReqUser) (page limit : Int)
    (huser : req.user = some caller) (hP : ReadsAs (pageOf req) page)
    (hL : ReadsAs (limitOf req) limit) (hp : 1 ≤ page) (hl : 1 ≤ limit)
    (hcount : (s.tasks.filter fun t => t.user == caller.id).length < 2 ^ 53) :
    getTasks s req =
      ⟨200, tasksBody
        ((((s.tasks.filter fun t => t.user == caller.id).insertionSort newerFirst).drop
          ((page - 1) * limit).toNat).take limit.toNat)
        (pageOf req) (limitOf req) (s.tasks.filter fun t => t.user == caller.id).length⟩ := by
  have hlisting : (s.tasks.filter fun t => t.user == caller.id).insertionSort newerFirst
      = listing s caller.id := rfl
  have howned : (s.tasks.filter fun t => t.user == caller.id) = ownedBy s caller.id := rfl
  rw [hlisting, howned] at *
  rw [getTasks_of_user s req caller huser]
  have hskip := skip_near (pageOf req) (limitOf req) page limit hP hL hp hl
  have hlim := limit_near (limitOf req) limit hL hl
  have hskip' : ((pageOf req).sub (.int 1)).mul (limitOf req) = skipOf req := rfl
  rw [hskip'] at hskip
  have hnn : ¬ (skipOf req).toInt64 < 0 := by
    rcases hskip with ⟨h1, h2⟩ | ⟨h1, h2⟩
    · rw [h2]
      have : 0 ≤ (page - 1) * limit := Int.mul_nonneg (by omega) (by omega)
      omega
    · omega
  have hl0 : (limitOf req).toInt64 ≠ 0 := by
    rcases hlim with ⟨h1, h2⟩ | ⟨h1, h2⟩ <;> omega
  rw [if_neg hnn, if_neg hl0]
  have hseg := segment_eq (listing s caller.id) ((page - 1) * limit).toNat limit.toNat
    (skipOf req).toInt64.toNat (limitOf req).toInt64.natAbs
    (by rw [listing_length]; exact hcount)
    (by
      rcases hskip with ⟨h1, h2⟩ | ⟨h1, h2⟩
      · left
        rw [h2]
      · right
        omega)
    (by
      rcases hlim with ⟨h1, h2⟩ | ⟨h1, h2⟩
      · left
        rw [h2]
        omega
      · right
        omega)
  rw [hseg]

/-- The body of `getTasks` for a finite page, a finite limit other than zero
and fewer than `2 ^ 53` tasks. -/
theorem tasksBody_int (tasks : List Task) (page limit : Int) (total : Nat) (hl : limit ≠ 0)
    (ht : total < 2 ^ 53) :
    tasksBody tasks (.int page) (.int limit) total
      = .obj [("tasks", .arr (tasks.map Task.toJson)), ("page", .num page),
              ("limit", .num limit), ("totalPages", .num (ceilDiv total limit)),
              ("totalTasks", .num total)] := by
  have h : JsNumber.ofInt (total : Int) = .int total :=
    JsNumber.ofInt_of_lt _ (Int.ofNat_nonneg _) (by omega)
  simp only [tasksBody, h, ceilQuotient, hl, if_false, JsNumber.toJson]

/-- The handler `getTasks` for a resolved caller who owns fewer than `2 ^ 53`
tasks, and a finite positive page and limit. -/
theorem getTasks_of_finite (s : Store) (req : Request) (caller : ReqUser) (page limit : Int)
    (huser : req.user = some caller) (hpage : pageOf req = .int page)
    (hlimit : limitOf req = .int limit) (hp : 0 < page) (hl : 0 < limit)
    (hcount : (s.tasks.filter fun t => t.user == caller.id).length < 2 ^ 53) :
    getTasks s req =
      ⟨200, .obj [("tasks", .arr (((((s.tasks.filter fun t => t.user == caller.id).insertionSort
                    newerFirst).drop ((page - 1) * limit).toNat).take
                    limit.toNat).map Task.toJson)),
                  ("page", .num page), ("limit", .num limit),
                  ("totalPages", .num
                    (ceilDiv (s.tasks.filter fun t => t.user == caller.id).length limit)),
                  ("totalTasks", .num
                    (s.tasks.filter fun t => t.user == caller.id).length)]⟩ := by
  have hP : ReadsAs (pageOf req) page := by
    rw [hpage]
    exact readsAs_int page
  have hL : ReadsAs (limitOf req) limit := by
    rw [hlimit]
    exact readsAs_int limit
  rw [getTasks_segment s req caller page limit huser hP hL (by omega) (by omega) hcount,
    hpage, hlimit, tasksBody_int _ _ _ _ (by omega) hcount]

/-- C13, as stated, fails for negative values: `parseInt(x) || d` falls back
to the default only for `NaN` and zero. A page of `-2` stays `-2`, with a
negative skip, and a limit of `-5` stays `-5`. -/
theorem getTasks_negative_kept :
    pageOf { query := [("page", "-2")] } = .int (-2) ∧
    limitOf { query := [("page", "-2")] } = .int 10 ∧
    skipOf { query := [("page", "-2")] } = .int (-30) ∧
    limitOf { query := [("limit", "-5")] } = .int (-5) := by
  decide

/-- C13, amended: when the page parameter is absent, non-numeric or parses
to zero the effective page is 1, and when the limit parameter is absent,
non-numeric or parses to zero the effective limit is 10; a positive value is
kept as `parseInt` reads it. When both effective values are positive and
finite and the caller owns fewer than `2 ^ 53` tasks, the request of a
resolved caller is answered 200 with these values in the body. -/
theorem getTasks_defaults (s : Store) (req : Request) :
    (req.query.lookup "page" = none → pageOf req = .int 1) ∧
    (∀ v, req.query.lookup "page" = some v → parseInt v = .nan → pageOf req = .int 1) ∧
    (∀ v, req.query.lookup "page" = some v → parseInt v = .int 0 → pageOf req = .int 1) ∧
    (∀ v n, req.query.lookup "page" = some v → parseInt v = .int n → 0 < n →
      pageOf req = .int n) ∧
    (req.query.lookup "limit" = none → limitOf req = .int 10) ∧
    (∀ v, req.query.lookup "limit" = some v → parseInt v = .nan → limitOf req = .int 10) ∧
    (∀ v, req.query.lookup "limit" = some v → parseInt v = .int 0 → limitOf req = .int 10) ∧
    (∀ v n, req.query.lookup "limit" = some v → parseInt v = .int n → 0 < n →
      limitOf req = .int n) ∧
    (∀ (caller : ReqUser) (page limit : Int), req.user = some caller →
      pageOf req = .int page → limitOf req = .int limit →
      0 < page → 0 < limit →
      (s.tasks.filter fun t => t.user == caller.id).length < 2 ^ 53 →
      getTasks s req
        = ⟨200, .obj [("tasks", .arr (((((s.tasks.filter fun t => t.user == caller.id).insertionSort newerFirst).drop
                    ((page - 1) * limit).toNat).take limit.toNat).map Task.toJson)),
                    ("page", .num page), ("limit", .num limit),
                    ("totalPages", .num (ceilDiv (s.tasks.filter fun t => t.user == caller.id).length limit)),
                    ("totalTasks", .num (s.tasks.filter fun t => t.user == caller.id).length)]⟩) := by
  refine ⟨?_, ?_, ?_, ?_, ?_, ?_, ?_, ?_, ?_⟩
  · intro h
    simp [pageOf, parseIntOr, h, JsNumber.falsy]
  · intro v h hv
    simp [pageOf, parseIntOr, h, hv, JsNumber.falsy]
  · intro v h hv
    simp [pageOf, parseIntOr, h, hv, JsNumber.falsy]
  · intro v n h hv hn
    have : n ≠ 0 := by omega
    simp [pageOf, parseIntOr, h, hv, this, JsNumber.falsy]
  · intro h
    simp [limitOf, parseIntOr, h, JsNumber.falsy]
  · intro v h hv
    simp [limitOf, parseIntOr, h, hv, JsNumber.falsy]
  · intro v h hv
    simp [limitOf, parseIntOr, h, hv, JsNumber.falsy]
  · intro v n h hv hn
    have : n ≠ 0 := by omega
    simp [limitOf, parseIntOr, h, hv, this, JsNumber.falsy]
  · intro caller page limit huser hpage hlimit hp hl hcount
    exact getTasks_of_finite s req caller page limit huser hpage hlimit hp hl hcount

/-- C14, as stated, fails for a number that is not a JavaScript number: a
limit of `9007199254740993`, which is `2 ^ 53 + 1`, is read by `parseInt` as
`9007199254740992`, and that is the limit the response carries. -/
theorem getTasks_limit_rounded :
    limitOf { query := [("limit", "9007199254740993")] } = .int 9007199254740992 ∧
    (getTasks listStore
      { user := some annReq, query := [("limit", "9007199254740993")] }).status = 200 ∧
    (getTasks listStore
      { user := some annReq, query := [("limit", "9007199254740993")] }).body.field "limit"
      = some (.num 9007199254740992) := by
  refine ⟨by decide, rfl, rfl⟩

/-- C14, amended: for a positive page and limit below `2 ^ 53` and a caller
who owns fewer than `2 ^ 53` tasks, `getTasks` skips `(page - 1) * limit`
tasks of the caller's stored tasks sorted most recent first and answers 200
with the page and limit echoed, `totalTasks` the number of stored tasks of
the caller, and `totalPages` the least integer `n` with
`n * limit ≥ totalTasks`. -/
theorem getTasks_paging (s : Store) (req : Request) (caller : ReqUser) (page limit : Int)
    (huser : req.user = some caller) (hpage : pageOf req = JsNumber.ofInt page)
    (hlimit : limitOf req = JsNumber.ofInt limit) (hp : 0 < page) (hpb : page < 2 ^ 53)
    (hl : 0 < limit) (hlb : limit < 2 ^ 53)
    (hcount : (s.tasks.filter fun t => t.user == caller.id).length < 2 ^ 53) :
    ∃ totalPages : Int,
      getTasks s req
        = ⟨200, .obj [("tasks", .arr (((((s.tasks.filter fun t => t.user == caller.id).insertionSort newerFirst).drop
                    ((page - 1) * limit : Int).toNat).take (limit : Int).toNat).map Task.toJson)),
                    ("page", .num page), ("limit", .num limit),
                    ("totalPages", .num totalPages),
                    ("totalTasks", .num (s.tasks.filter fun t => t.user == caller.id).length)]⟩ ∧
      ((((page : Int) - 1) * limit).toNat : Int) = (page - 1) * limit ∧
      ((s.tasks.filter fun t => t.user == caller.id).length : Int) ≤ totalPages * limit ∧
      (∀ m : Int, ((s.tasks.filter fun t => t.user == caller.id).length : Int) ≤ m * limit → totalPages ≤ m) ∧
      0 ≤ totalPages := by
  rw [JsNumber.ofInt_of_lt page (by omega) hpb] at hpage
  rw [JsNumber.ofInt_of_lt limit (by omega) hlb] at hlimit
  have hspec := ceilDiv_spec (s.tasks.filter fun t => t.user == caller.id).length limit hl
  have hfin := getTasks_of_finite s req caller page limit huser hpage hlimit hp hl hcount
  have hnn := ceilDiv_nonneg (s.tasks.filter fun t => t.user == caller.id).length limit
    (Int.ofNat_nonneg _) hl
  have hskip : 0 ≤ (page - 1) * limit := Int.mul_nonneg (by omega) (Int.le_of_lt hl)
  exact ⟨_, hfin, Int.toNat_of_nonneg hskip, hspec.1, hspec.2, hnn⟩

/-- The second page of size 2 of Ann's three tasks holds her oldest task,
and two pages are reported for three tasks. -/
theorem getTasks_paging_witness :
    getTasks listStore { user := some annReq, query := [("page", "2"), ("limit", "2")] }
      = ⟨200, .obj [("tasks", .arr [.obj [("_id", .str "id2"), ("title", .str "T"), ("description", .str "D"),
            ("status", .str "pending"), ("user", .str "id0"), ("createdAt", .num 2),
            ("updatedAt", .num 2)]]),
                    ("page", .num 2), ("limit", .num 2), ("totalPages", .num 2),
                    ("totalTasks", .num 3)]⟩ ∧
    ∃ totalPages : Int,
        getTasks listStore { user := some annReq, query := [("page", "2"), ("limit", "2")] }
          = ⟨200, .obj [("tasks", .arr (((((listStore.tasks.filter fun t => t.user == annReq.id).insertionSort newerFirst).drop
                      ((2 - 1) * 2 : Int).toNat).take (2 : Int).toNat).map Task.toJson)),
                      ("page", .num 2), ("limit", .num 2),
                      ("totalPages", .num totalPages),
                      ("totalTasks", .num (listStore.tasks.filter fun t => t.user == annReq.id).length)]⟩ ∧
        ((((2 : Int) - 1) * 2).toNat : Int) = (2 - 1) * 2 ∧
        ((listStore.tasks.filter fun t => t.user == annReq.id).length : Int) ≤ totalPages * 2 ∧
        (∀ m : Int, ((listStore.tasks.filter fun t => t.user == annReq.id).length : Int) ≤ m * 2 → totalPages ≤ m) ∧
        0 ≤ totalPages :=
  ⟨rfl, getTasks_paging listStore { user := some annReq, query := [("page", "2"), ("limit", "2")] }
    annReq 2 2 rfl (by decide) (by decide) (by decide) (by decide) (by decide) (by decide)
    (by decide)⟩

set_option exponentiation.threshold 2048 in
set_option maxRecDepth 100000 in
/-- C15, as stated, fails for a limit beyond the largest JavaScript number:
a limit of 400 digits is read as `Infinity`, the skip `0 * Infinity` is
`NaN`, and the answer to page 1 reports `totalPages` 0, so that the page is
beyond the last one, yet carries the three tasks of the caller. -/
theorem getTasks_infinite_limit :
    pageOf { user := some annReq, query := [("page", "1"), ("limit", hugeNumber)] } = .int 1 ∧
    limitOf { user := some annReq, query := [("page", "1"), ("limit", hugeNumber)] }
      = .infinity false ∧
    skipOf { user := some annReq, query := [("page", "1"), ("limit", hugeNumber)] } = .nan ∧
    ceilQuotient (.int 3) (.infinity false) = .int 0 ∧
    ∃ tasks : List Task,
      getTasks listStore { user := some annReq, query := [("page", "1"), ("limit", hugeNumber)] }
        = ⟨200, .obj [("tasks", .arr (tasks.map Task.toJson)), ("page", .num 1),
                      ("limit", .null), ("totalPages", .num 0), ("totalTasks", .num 3)]⟩ ∧
      tasks.map Task.id = ["id5", "id3", "id2"] := by
  refine ⟨by decide, by decide, by decide, by decide,
    (listStore.tasks.filter fun (t : Task) => t.user == "id0").insertionSort newerFirst,
    ?_, ?_⟩
  · rfl
  · decide

/-- C15, amended: for a positive page and limit below `2 ^ 53` and a caller
who owns fewer than `2 ^ 53` tasks, when the page is greater than the
`totalPages` that `getTasks` reports, the answer is 200 with an empty `tasks`
list: the skip `(page - 1) * limit` is at least the number of stored tasks
of the caller. -/
theorem getTasks_beyond_last_page (s : Store) (req : Request) (caller : ReqUser)
    (page limit : Int) (huser : req.user = some caller)
    (hpage : pageOf req = JsNumber.ofInt page) (hlimit : limitOf req = JsNumber.ofInt limit)
    (hp : 0 < page) (hpb : page < 2 ^ 53) (hl : 0 < limit) (hlb : limit < 2 ^ 53)
    (hcount : (s.tasks.filter fun t => t.user == caller.id).length < 2 ^ 53)
    (hgt : ceilDiv (s.tasks.filter fun t => t.user == caller.id).length limit < page) :
    getTasks s req
      = ⟨200, .obj [("tasks", .arr ([])),
                  ("page", .num page), ("limit", .num limit),
                  ("totalPages", .num (ceilDiv (s.tasks.filter fun t => t.user == caller.id).length limit)),
                  ("totalTasks", .num (s.tasks.filter fun t => t.user == caller.id).length)]⟩ ∧
    ((s.tasks.filter fun t => t.user == caller.id).length : Int) ≤ (page - 1) * limit := by
  rw [JsNumber.ofInt_of_lt page (by omega) hpb] at hpage
  rw [JsNumber.ofInt_of_lt limit (by omega) hlb] at hlimit
  have hspec := (ceilDiv_spec (s.tasks.filter fun t => t.user == caller.id).length limit hl).1
  have hle : ceilDiv (s.tasks.filter fun t => t.user == caller.id).length limit * limit
      ≤ (page - 1) * limit :=
    Int.mul_le_mul_of_nonneg_right (by omega) (Int.le_of_lt hl)
  have hskip : ((s.tasks.filter fun t => t.user == caller.id).length : Int) ≤ (page - 1) * limit :=
    Int.le_trans hspec hle
  refine ⟨?_, hskip⟩
  rw [getTasks_of_finite s req caller page limit huser hpage hlimit hp hl hcount]
  have hdrop : ((s.tasks.filter fun t => t.user == caller.id).insertionSort newerFirst).drop
      ((page - 1) * limit).toNat = [] := by
    apply List.drop_eq_nil_of_le
    rw [(List.perm_insertionSort newerFirst _).length_eq]
    omega
  rw [hdrop, List.take_nil]
  rfl

/-- Page 3 of size 2 of Ann's three tasks is empty: two pages are reported. -/
theorem getTasks_beyond_last_page_witness :
    getTasks listStore { user := some annReq, query := [("page", "3"), ("limit", "2")] }
      = ⟨200, .obj [("tasks", .arr []), ("page", .num 3), ("limit", .num 2),
                    ("totalPages", .num 2), ("totalTasks", .num 3)]⟩ ∧
    getTasks listStore { user := some annReq, query := [("page", "3"), ("limit", "2")] }
      = ⟨200, .obj [("tasks", .arr ([])),
                  ("page", .num 3), ("limit", .num 2),
                  ("totalPages", .num (ceilDiv (listStore.tasks.filter fun t => t.user == annReq.id).length 2)),
                  ("totalTasks", .num (listStore.tasks.filter fun t => t.user == annReq.id).length)]⟩ ∧
    ((listStore.tasks.filter fun t => t.user == annReq.id).length : Int) ≤ (3 - 1) * 2 :=
  ⟨rfl, getTasks_beyond_last_page listStore
    { user := some annReq, query := [("page", "3"), ("limit", "2")] } annReq 3 2 rfl
    (by decide) (by decide) (by decide) (by decide) (by decide) (by decide) (by decide)
    (by decide)⟩

/-- C16: the listing is isolated per owner. For every request of a resolved
caller, `getTasks` is either refused by the store or answers 200 with tasks
that are all stored tasks of the caller; and two stores that hold the same
tasks for the caller give the same response, so the same tasks, `totalTasks`
and `totalPages`, for the same page and limit. -/
theorem getTasks_isolated (s₁ s₂ : Store) (req : Request) (caller : ReqUser)
    (huser : req.user = some caller)
    (hsame : ownedBy s₁ caller.id = ownedBy s₂ caller.id) :
    getTasks s₁ req = getTasks s₂ req ∧
    ∃ tasks : List Task, (∀ t ∈ tasks, t.user = caller.id ∧ t ∈ s₁.tasks) ∧
      ((getTasks s₁ req).status = 500 ∨
        getTasks s₁ req = ⟨200, tasksBody tasks (pageOf req) (limitOf req)
          (ownedBy s₁ caller.id).length⟩) := by
  have h₁ := getTasks_of_user s₁ req caller huser
  have h₂ := getTasks_of_user s₂ req caller huser
  constructor
  · rw [h₁, h₂]
    simp only [listing, hsame]
  · have hmem : ∀ (l : List Task), l.Sublist (listing s₁ caller.id) →
        ∀ t ∈ l, t.user = caller.id ∧ t ∈ s₁.tasks := by
      intro l hl t ht
      have h1 : t ∈ ownedBy s₁ caller.id := (listing_perm s₁ caller.id).subset (hl.subset ht)
      exact ⟨ownedBy_user s₁ caller.id t h1, (List.mem_filter.mp h1).1⟩
    by_cases hs : (skipOf req).toInt64 < 0
    · refine ⟨[], by simp, Or.inl ?_⟩
      rw [h₁]
      simp only [hs, if_true]
    · by_cases hl0 : (limitOf req).toInt64 = 0
      · refine ⟨(listing s₁ caller.id).drop (skipOf req).toInt64.toNat,
          hmem _ (List.drop_sublist _ _), Or.inr ?_⟩
        rw [h₁]
        simp only [hs, if_false, hl0, if_true]
      · refine ⟨((listing s₁ caller.id).drop (skipOf req).toInt64.toNat).take
            (limitOf req).toInt64.natAbs,
          hmem _ (segment_sublist _ _ _), Or.inr ?_⟩
        rw [h₁]
        simp only [hs, if_false, hl0]

/-- Ann's listing is the same with and without Bob's task in the store. -/
theorem getTasks_isolated_witness :
    getTasks listStore { user := some annReq, query := [("limit", "2")] }
      = getTasks { listStore with tasks := listStore.tasks.filter fun t => t.user == "id0" }
          { user := some annReq, query := [("limit", "2")] } ∧
    ∃ tasks : List Task, (∀ t ∈ tasks, t.user = annReq.id ∧ t ∈ listStore.tasks) ∧
      ((getTasks listStore { user := some annReq, query := [("limit", "2")] }).status = 500 ∨
        getTasks listStore { user := some annReq, query := [("limit", "2")] }
          = ⟨200, tasksBody tasks
              (pageOf { user := some annReq, query := [("limit", "2")] })
              (limitOf { user := some annReq, query := [("limit", "2")] })
              (ownedBy listStore annReq.id).length⟩) :=
  getTasks_isolated listStore
    { listStore with tasks := listStore.tasks.filter fun t => t.user == "id0" }
    { user := some annReq, query := [("limit", "2")] } annReq rfl rfl

/-- C17: for all positive integers page and limit, which the handler reads
as the JavaScript numbers nearest to them, and a caller who owns fewer than
`2 ^ 53` tasks, `getTasks` answers 200 and the tasks it returns are the
segment of length at most `limit` at offset `(page - 1) * limit` of the
stored tasks of the caller sorted by creation time, most recent first. The
sorted list is a rearrangement of the caller's stored tasks; the returned
list is sorted as well and has at most `limit` elements. The chain sets skip
and limit before sort, but the query sorts first. -/
theorem getTasks_sorted_segment (s : Store) (req : Request) (caller : ReqUser)
    (page limit : Int) (huser : req.user = some caller)
    (hpage : pageOf req = JsNumber.ofInt page) (hlimit : limitOf req = JsNumber.ofInt limit)
    (hp : 0 < page) (hl : 0 < limit)
    (hcount : (s.tasks.filter fun t => t.user == caller.id).length < 2 ^ 53) :
    ∃ tasks : List Task,
      tasks = (((s.tasks.filter fun t => t.user == caller.id).insertionSort newerFirst).drop
                  ((page - 1) * limit : Int).toNat).take (limit : Int).toNat ∧
      ((s.tasks.filter fun t => t.user == caller.id).insertionSort newerFirst).Perm
        (s.tasks.filter fun t => t.user == caller.id) ∧
      ((s.tasks.filter fun t => t.user == caller.id).insertionSort newerFirst).Pairwise
        (fun a b => b.createdAt ≤ a.createdAt) ∧
      (getTasks s req).status = 200 ∧
      (getTasks s req).body.field "tasks"
        = some (.arr (tasks.map fun t =>
          .obj [("_id", .str t.id), ("title", .str t.title),
          ("description", .str t.description), ("status", .str t.status),
          ("user", .str t.user), ("createdAt", .num t.createdAt),
          ("updatedAt", .num t.updatedAt)])) ∧
      tasks.Pairwise (fun a b => b.createdAt ≤ a.createdAt) ∧
      tasks.length ≤ (limit : Int).toNat := by
  have hP : ReadsAs (pageOf req) page := by
    rw [hpage]
    exact readsAs_ofInt page (by omega)
  have hL : ReadsAs (limitOf req) limit := by
    rw [hlimit]
    exact readsAs_ofInt limit (by omega)
  have h := getTasks_segment s req caller page limit huser hP hL (by omega) (by omega) hcount
  refine ⟨_, rfl, List.perm_insertionSort newerFirst _,
    List.sorted_insertionSort newerFirst _, ?_, ?_, ?_, ?_⟩
  · rw [h]
  · rw [h]
    rfl
  · exact List.Pairwise.sublist (segment_sublist _ _ _)
      (List.sorted_insertionSort newerFirst _)
  · exact List.length_take_le _ _

/-- The first page of size 2 of Ann's tasks holds her two most recent tasks,
the one created at time 9 before the one created at time 5. -/
theorem getTasks_sorted_segment_witness :
    (getTasks listStore { user := some annReq, query := [("page", "1"), ("limit", "2")] }).body.field "tasks"
      = some (.arr
          [.obj [("_id", .str "id5"), ("title", .str "V"), ("description", .str "D"),
            ("status", .str "pending"), ("user", .str "id0"), ("createdAt", .num 9),
            ("updatedAt", .num 9)],
           .obj [("_id", .str "id3"), ("title", .str "U"), ("description", .str "D"),
            ("status", .str "pending"), ("user", .str "id0"), ("createdAt", .num 5),
            ("updatedAt", .num 5)]]) ∧
    ∃ tasks : List Task,
      tasks = (((listStore.tasks.filter fun t => t.user == annReq.id).insertionSort newerFirst).drop
                  ((1 - 1) * 2 : Int).toNat).take (2 : Int).toNat ∧
      ((listStore.tasks.filter fun t => t.user == annReq.id).insertionSort newerFirst).Perm
        (listStore.tasks.filter fun t => t.user == annReq.id) ∧
      ((listStore.tasks.filter fun t => t.user == annReq.id).insertionSort newerFirst).Pairwise
        (fun a b => b.createdAt ≤ a.createdAt) ∧
      (getTasks listStore { user := some annReq, query := [("page", "1"), ("limit", "2")] }).status = 200 ∧
      (getTasks listStore { user := some annReq, query := [("page", "1"), ("limit", "2")] }).body.field "tasks"
        = some (.arr (tasks.map fun t =>
          .obj [("_id", .str t.id), ("title", .str t.title),
          ("description", .str t.description), ("status", .str t.status),
          ("user", .str t.user), ("createdAt", .num t.createdAt),
          ("updatedAt", .num t.updatedAt)])) ∧
      tasks.Pairwise (fun a b => b.createdAt ≤ a.createdAt) ∧
      tasks.length ≤ (2 : Int).toNat :=
  ⟨rfl, getTasks_sorted_segment listStore
    { user := some annReq, query := [("page", "1"), ("limit", "2")] } annReq 1 2 rfl
    (by decide) (by decide) (by decide) (by decide) (by decide)⟩

/-! ## Update validation, deletion and the order of checks -/

theorem parse_optional_min_issues (isEmail : String → Bool) (n : Nat) (v : Option Json) :
    (ZodType.parse isEmail (.optional (.string [.min n none])) v).issues = [] ↔
      (v = none ∨ IsStringMin n v) := by
  rcases v with _ | j
  · simp [ZodType.parse]
  · rw [parse_optional_some, parse_min_issues]
    simp

theorem update_message_none_iff (isEmail : String → Bool) (body : Option Json) :
    validationMessage isEmail updateTaskSchema body = none ↔ UpdateValid body := by
  unfold validationMessage
  split
  · rename_i kvs
    rw [firstViolation_none_iff]
    simp [updateTaskSchema, UpdateValid, parse_optional_min_issues, statuses_eq,
      parse_status_issues, bodyField_obj, IsObject]
  · rename_i hb
    simp only [reduceCtorEq, false_iff]
    rintro ⟨⟨kvs, hk⟩, -⟩
    exact hb kvs hk

/-- An accepted update body, taken apart. -/
theorem updateValid_fields (body : Option Json) (h : UpdateValid body) :
    ∃ title description status : Option String,
      bodyField body "title" = title.map Json.str ∧ (∀ v, title = some v → v ≠ "") ∧
      bodyField body "description" = description.map Json.str ∧
      (∀ v, description = some v → v ≠ "") ∧
      bodyField body "status" = status.map Json.str ∧
      (∀ v, status = some v → v ∈ statuses) := by
  obtain ⟨-, ht, hd, hs⟩ := h
  have key : ∀ x : Option Json, (x = none ∨ IsStringMin 1 x) →
      ∃ o : Option String, x = o.map Json.str ∧ ∀ v, o = some v → v ≠ "" := by
    intro x hx
    rcases hx with hx | ⟨v, hx, hv⟩
    · refine ⟨none, hx, ?_⟩
      intro v h
      cases h
    · refine ⟨some v, hx, ?_⟩
      intro w h
      cases h
      exact (jsLength_pos_iff v).mp hv
  obtain ⟨title, h1, h2⟩ := key _ ht
  obtain ⟨description, h3, h4⟩ := key _ hd
  have hst : ∃ o : Option String, bodyField body "status" = o.map Json.str ∧
      ∀ v, o = some v → v ∈ statuses := by
    rcases hs with hs | ⟨v, hs, hv⟩
    · refine ⟨none, hs, ?_⟩
      intro v h
      cases h
    · refine ⟨some v, hs, ?_⟩
      intro w h
      cases h
      exact hv
  obtain ⟨status, h5, h6⟩ := hst
  exact ⟨title, description, status, h1, h2, h3, h4, h5, h6⟩

/-- The handler `updateTask` by the owner with a body the schema rejects. -/
theorem updateTask_of_invalid (env : Env) (s : Store) (req : Request) (task : Task)
    (caller : ReqUser) (hfind : Task.findById s req.id = some task)
    (huser : req.user = some caller) (hown : task.user = caller.id)
    (h : ¬ UpdateValid req.body) :
    ∃ m, validationMessage env.isEmail updateTaskSchema req.body = some m ∧
      updateTask env s req = (s, ⟨400, message m⟩) := by
  cases hm : validationMessage env.isEmail updateTaskSchema req.body with
  | none => exact absurd ((update_message_none_iff _ _).mp hm) h
  | some m =>
    obtain ⟨e, hpe, hem⟩ := zObjectParse_of_message _ _ _ _ hm
    refine ⟨m, rfl, ?_⟩
    simp [updateTask, hfind, huser, hown, hpe, hem]

theorem updateValid_iff (body : Option Json) :
    UpdateValid body ↔ IsObject body ∧ ¬ HasInvalidUpdateField body := by
  unfold UpdateValid HasInvalidUpdateField
  constructor
  · rintro ⟨ho, ht, hd, hs⟩
    refine ⟨ho, ?_⟩
    rintro (⟨h1, h2⟩ | ⟨h1, h2⟩ | h3)
    · rcases ht with ht | ht
      · exact h1 ht
      · exact h2 ht
    · rcases hd with hd | hd
      · exact h1 hd
      · exact h2 hd
    · exact h3 hs
  · rintro ⟨ho, hn⟩
    refine ⟨ho, ?_, ?_, ?_⟩
    · by_cases h1 : bodyField body "title" = none
      · exact Or.inl h1
      · by_cases h2 : IsStringMin 1 (bodyField body "title")
        · exact Or.inr h2
        · exact absurd (Or.inl ⟨h1, h2⟩) hn
    · by_cases h1 : bodyField body "description" = none
      · exact Or.inl h1
      · by_cases h2 : IsStringMin 1 (bodyField body "description")
        · exact Or.inr h2
        · exact absurd (Or.inr (Or.inl ⟨h1, h2⟩)) hn
    · by_contra h3
      exact hn (Or.inr (Or.inr h3))

/-- C21, as stated, fails: a JSON array is a body that contains no title,
description or status at all, and `updateTask` by the owner of an existing
task answers it with 400, not 200. -/
theorem updateTask_array_body_rejected :
    ¬ HasInvalidUpdateField (some (.arr [])) ∧
    updateTask demoEnv demoStore { id := "id2", user := some annReq, body := some (.arr []) }
      = (demoStore, ⟨400, message "Expected object, received array"⟩) := by
  refine ⟨?_, rfl⟩
  rintro (⟨h, -⟩ | ⟨h, -⟩ | h)
  · exact h rfl
  · exact h rfl
  · exact h (Or.inl rfl)

/-- C21, amended: for an existing task and its owner, `updateTask` answers
400 exactly when the body is not a JSON object or contains a title that is
not a non-empty string, a description that is not a non-empty string, or a
status outside `pending`, `in_progress`, `completed`; every other body, the
empty object included, is answered 200; on 400 the store is unchanged. -/
theorem updateTask_validation (env : Env) (s : Store) (req : Request) (task : Task)
    (caller : ReqUser) (hfind : Task.findById s req.id = some task)
    (huser : req.user = some caller) (hown : task.user = caller.id) :
    ((updateTask env s req).2.status = 400 ↔
      (¬ IsObject req.body ∨ HasInvalidUpdateField req.body)) ∧
    ((updateTask env s req).2.status = 200 ↔
      (IsObject req.body ∧ ¬ HasInvalidUpdateField req.body)) ∧
    ((updateTask env s req).2.status = 400 → (updateTask env s req).1 = s) ∧
    (req.body = some (.obj []) → (updateTask env s req).2.status = 200) := by
  have hcases : (¬ UpdateValid req.body ∧ (updateTask env s req).2.status = 400 ∧
        (updateTask env s req).1 = s) ∨
      (UpdateValid req.body ∧ (updateTask env s req).2.status = 200) := by
    by_cases hv : UpdateValid req.body
    · obtain ⟨title, description, status, ht, ht2, hd, hd2, hs, hs2⟩ :=
        updateValid_fields _ hv
      right
      refine ⟨hv, ?_⟩
      rw [updateTask_of_valid env s req task caller title description status hfind huser hown
        hv.1 ht ht2 hd hd2 hs hs2]
    · obtain ⟨m, -, hr⟩ := updateTask_of_invalid env s req task caller hfind huser hown hv
      left
      refine ⟨hv, ?_, ?_⟩ <;> rw [hr]
  have hiff := updateValid_iff req.body
  refine ⟨⟨?_, ?_⟩, ⟨?_, ?_⟩, ?_, ?_⟩
  · intro h400
    rcases hcases with ⟨hv, -, -⟩ | ⟨-, h200⟩
    · by_contra hc
      push_neg at hc
      exact hv (hiff.mpr ⟨hc.1, hc.2⟩)
    · rw [h200] at h400
      cases h400
  · intro hbad
    rcases hcases with ⟨-, h400, -⟩ | ⟨hv, -⟩
    · exact h400
    · have := hiff.mp hv
      rcases hbad with hb | hb
      · exact absurd this.1 hb
      · exact absurd hb this.2
  · intro h200
    rcases hcases with ⟨-, h400, -⟩ | ⟨hv, -⟩
    · rw [h400] at h200
      cases h200
    · exact hiff.mp hv
  · intro hok
    rcases hcases with ⟨hv, -, -⟩ | ⟨-, h200⟩
    · exact absurd (hiff.mpr hok) hv
    · exact h200
  · intro h400
    rcases hcases with ⟨-, -, hs⟩ | ⟨-, h200⟩
    · exact hs
    · rw [h200] at h400
      cases h400
  · intro hb
    rcases hcases with ⟨hv, -, -⟩ | ⟨-, h200⟩
    · exfalso
      apply hv
      rw [hb]
      exact ⟨⟨[], rfl⟩, Or.inl rfl, Or.inl rfl, Or.inl rfl⟩
    · exact h200

/-- Ann sends the empty object for her task and is answered 200; a title
that is a number is answered 400 with the store unchanged. -/
theorem updateTask_validation_witness :
    (updateTask demoEnv demoStore
        { id := "id2", user := some annReq, body := some (.obj []) }).2.status = 200 ∧
    (updateTask demoEnv demoStore
        { id := "id2", user := some annReq, body := some (.obj [("title", .num 5)]) }).2.status
      = 400 ∧
    (updateTask demoEnv demoStore
        { id := "id2", user := some annReq, body := some (.obj [("title", .num 5)]) }).1
      = demoStore :=
  ⟨(updateTask_validation demoEnv demoStore
      { id := "id2", user := some annReq, body := some (.obj []) } annTask annReq rfl rfl
      rfl).2.2.2 rfl,
   (updateTask_validation demoEnv demoStore
      { id := "id2", user := some annReq, body := some (.obj [("title", .num 5)]) } annTask annReq
      rfl rfl rfl).1.mpr (Or.inr (Or.inl ⟨by simp [bodyField, Json.field, List.lookup],
        by rintro ⟨d, hd, -⟩; simp [bodyField, Json.field, List.lookup] at hd⟩)),
   (updateTask_validation demoEnv demoStore
      { id := "id2", user := some annReq, body := some (.obj [("title", .num 5)]) } annTask annReq
      rfl rfl rfl).2.2.1 rfl⟩

theorem eraseP_eq_filter_of_nodup (i : String) (l : List Task) (h : (l.map Task.id).Nodup) :
    l.eraseP (fun t => t.id == i) = l.filter (fun t => t.id != i) := by
  induction l with
  | nil => rfl
  | cons x xs ih =>
    simp only [List.map_cons, List.nodup_cons] at h
    by_cases hx : x.id = i
    · have hxs : ∀ t ∈ xs, t.id ≠ i := by
        intro t ht hti
        exact h.1 (List.mem_map.mpr ⟨t, ht, hti.trans hx.symm⟩)
      have hfil : xs.filter (fun t => t.id != i) = xs :=
        List.filter_eq_self.mpr (fun t ht => by simpa using hxs t ht)
      simp [List.eraseP_cons, hx, hfil]
    · simp [List.eraseP_cons, hx, ih h.2]

theorem findById_task (s : Store) (id : String) (t : Task) (h : Task.findById s id = some t) :
    t ∈ s.tasks ∧ t.id = id := by
  unfold Task.findById at h
  exact ⟨List.mem_of_find?_eq_some h, by simpa using List.find?_some h⟩

theorem find_filter_ne (i j : String) (l : List Task) :
    (l.filter (fun t => t.id != j)).find? (fun t => t.id == i)
      = if i = j then none else l.find? (fun t => t.id == i) := by
  induction l with
  | nil => simp
  | cons x xs ih =>
    by_cases hxj : x.id = j
    · by_cases hij : i = j
      · simp [hxj, hij, ih]
      · have hxi : ¬ x.id = i := fun h => hij (h.symm.trans hxj)
        have hji : ¬ j = i := fun h => hij h.symm
        simp [List.filter_cons, List.find?_cons, hxj, hij, hji, ih]
    · by_cases hxi : x.id = i
      · have hij : ¬ i = j := fun h => hxj (hxi.trans h)
        simp [List.filter_cons, List.find?_cons, hxj, hxi, hij]
      · simp [List.filter_cons, List.find?_cons, hxj, hxi, ih]

/-- C22: for an existing task and its owner, in a store whose task
identifiers are distinct, `deleteTask` answers 200 with the body `id` holding
the requested id; afterwards a lookup of that id finds no task, every other
task is in the store as before, and the users are untouched. -/
theorem deleteTask_removes (s : Store) (req : Request) (task : Task) (caller : ReqUser)
    (hfind : Task.findById s req.id = some task) (huser : req.user = some caller)
    (hown : task.user = caller.id) (huniq : TaskIdsUnique s) :
    (deleteTask s req).2 = ⟨200, .obj [("id", .str req.id)]⟩ ∧
    (deleteTask s req).1.tasks = s.tasks.filter (fun t => t.id != req.id) ∧
    Task.findById (deleteTask s req).1 req.id = none ∧
    (∀ i, i ≠ req.id → Task.findById (deleteTask s req).1 i = Task.findById s i) ∧
    (deleteTask s req).1.users = s.users := by
  have hid := (findById_task s req.id task hfind).2
  have hdel : deleteTask s req =
      ({ s with tasks := s.tasks.filter (fun t => t.id != req.id) },
        ⟨200, .obj [("id", .str req.id)]⟩) := by
    unfold deleteTask
    rw [hfind, huser]
    simp only [hown, ne_eq, not_true_eq_false, if_false, Task.deleteOne, hid]
    rw [eraseP_eq_filter_of_nodup req.id s.tasks huniq]
  refine ⟨by rw [hdel], by rw [hdel], ?_, ?_, by rw [hdel]⟩
  · rw [hdel]
    simp only [Task.findById]
    rw [find_filter_ne]
    simp
  · intro i hi
    rw [hdel]
    simp only [Task.findById]
    rw [find_filter_ne]
    simp [hi]

/-- Ann deletes the second of her tasks in the listing store. -/
theorem deleteTask_removes_witness :
    (deleteTask listStore { id := "id3", user := some annReq }).2
      = ⟨200, .obj [("id", .str "id3")]⟩ ∧
    (deleteTask listStore { id := "id3", user := some annReq }).1.tasks
      = listStore.tasks.filter (fun t => t.id != "id3") ∧
    Task.findById (deleteTask listStore { id := "id3", user := some annReq }).1 "id3" = none ∧
    (∀ i, i ≠ "id3" →
      Task.findById (deleteTask listStore { id := "id3", user := some annReq }).1 i
        = Task.findById listStore i) ∧
    (deleteTask listStore { id := "id3", user := some annReq }).1.users = listStore.users :=
  deleteTask_removes listStore { id := "id3", user := some annReq }
    { annTask with id := "id3", title := "U", createdAt := 5, updatedAt := 5 } annReq rfl rfl rfl
    (by unfold TaskIdsUnique; decide)

/-- C24: for an existing task and a request without a resolved user,
`updateTask` and `deleteTask` answer 401 with `message` "User not found". The
checks run in the order task exists, user present, caller is owner: 404 is
answered exactly when the lookup finds nothing, 401 "User not found" exactly
when the task exists and no user is resolved, and 401 "User not authorized"
exactly when the task exists, a user is resolved and is not the owner. -/
theorem check_order (env : Env) (s : Store) (req : Request) (task : Task)
    (hfind : Task.findById s req.id = some task) (huser : req.user = none) :
    ((updateTask env s req).2 = ⟨401, message "User not found"⟩ ∧
      (deleteTask s req).2 = ⟨401, message "User not found"⟩) ∧
    (∀ (s' : Store) (r : Request),
      ((updateTask env s' r).2 = ⟨404, message "Task not found"⟩ ↔
        Task.findById s' r.id = none) ∧
      ((deleteTask s' r).2 = ⟨404, message "Task not found"⟩ ↔
        Task.findById s' r.id = none) ∧
      ((updateTask env s' r).2 = ⟨401, message "User not found"⟩ ↔
        (Task.findById s' r.id).isSome = true ∧ r.user = none) ∧
      ((deleteTask s' r).2 = ⟨401, message "User not found"⟩ ↔
        (Task.findById s' r.id).isSome = true ∧ r.user = none) ∧
      ((updateTask env s' r).2 = ⟨401, message "User not authorized"⟩ ↔
        ∃ t c, Task.findById s' r.id = some t ∧ r.user = some c ∧ t.user ≠ c.id) ∧
      ((deleteTask s' r).2 = ⟨401, message "User not authorized"⟩ ↔
        ∃ t c, Task.findById s' r.id = some t ∧ r.user = some c ∧ t.user ≠ c.id)) := by
  refine ⟨⟨by simp [updateTask, hfind, huser], by simp [deleteTask, hfind, huser]⟩, ?_⟩
  intro s' r
  have hupd : ∀ t c, Task.findById s' r.id = some t → r.user = some c → t.user = c.id →
      (updateTask env s' r).2.status = 400 ∨ (updateTask env s' r).2.status = 200 := by
    intro t c hf hu ho
    by_cases hv : UpdateValid r.body
    · obtain ⟨title, description, status, ht, ht2, hd, hd2, hs, hs2⟩ :=
        updateValid_fields _ hv
      right
      rw [updateTask_of_valid env s' r t c title description status hf hu ho hv.1 ht ht2 hd hd2
        hs hs2]
    · obtain ⟨m, -, hr⟩ := updateTask_of_invalid env s' r t c hf hu ho hv
      left
      rw [hr]
  cases hf : Task.findById s' r.id with
  | none => simp [updateTask, deleteTask, hf, message]
  | some t =>
    cases hu : r.user with
    | none => simp [updateTask, deleteTask, hf, hu, message]
    | some c =>
      by_cases ho : t.user = c.id
      · have hst := hupd t c hf hu ho
        have hne : ∀ (n : Nat) (b : Json), n ≠ 400 → n ≠ 200 →
            (updateTask env s' r).2 ≠ ⟨n, b⟩ := by
          intro n b h4 h2 heq
          rw [heq] at hst
          rcases hst with h | h
          · exact h4 h
          · exact h2 h
        have h1 := hne 404 (message "Task not found") (by decide) (by decide)
        have h2 := hne 401 (message "User not found") (by decide) (by decide)
        have h3 := hne 401 (message "User not authorized") (by decide) (by decide)
        simp [h1, h2, h3, deleteTask, hf, hu, ho]
      · simp [updateTask, deleteTask, hf, hu, ho, message]

/-- A request without a resolved user for Ann's task. -/
theorem check_order_witness :
    (updateTask demoEnv demoStore { id := "id2" }).2 = ⟨401, message "User not found"⟩ ∧
      (deleteTask demoStore { id := "id2" }).2 = ⟨401, message "User not found"⟩ :=
  (check_order demoEnv demoStore { id := "id2" } annTask rfl rfl).1

/-! ## Error bodies, validation order and the partition into pages -/

theorem profile_message_none_iff (isEmail : String → Bool) (body : Option Json) :
    validationMessage isEmail profileSchema body = none ↔ ProfileValid isEmail body := by
  unfold validationMessage
  split
  · rename_i kvs
    rw [firstViolation_none_iff]
    have hopt : ∀ v : Option Json,
        (ZodType.parse isEmail (.optional (.string [.email none])) v).issues = [] ↔
          (v = none ∨ IsEmailString isEmail v) := by
      intro v
      rcases v with _ | j
      · simp [ZodType.parse]
      · rw [parse_optional_some, parse_email_issues]
        simp
    simp [profileSchema, ProfileValid, parse_optional_min_issues, hopt, bodyField_obj, IsObject]
  · rename_i hb
    simp only [reduceCtorEq, false_iff]
    rintro ⟨⟨kvs, hk⟩, -⟩
    exact hb kvs hk

/-- The handler `updateProfile` on a body that violates the schema. -/
theorem updateProfile_of_invalid (env : Env) (s : Store) (req : Request)
    (h : ¬ ProfileValid env.isEmail req.body) :
    ∃ m, validationMessage env.isEmail profileSchema req.body = some m ∧
      updateProfile env s req = (s, ⟨400, message m⟩) := by
  cases hm : validationMessage env.isEmail profileSchema req.body with
  | none => exact absurd ((profile_message_none_iff _ _).mp hm) h
  | some m =>
    obtain ⟨e, hpe, hem⟩ := zObjectParse_of_message _ _ _ _ hm
    refine ⟨m, rfl, ?_⟩
    simp [updateProfile, hpe, hem]

/-- C27: validation of the body comes before any store access. For
`registerUser`, `loginUser`, `updateProfile` and `createTask`, a body that
fails the schema has a validation message that depends on the body alone, and
for every store the handler answers 400 with that message and leaves the
store as it is. -/
theorem validation_before_store (env : Env) (req : Request) :
    (¬ RegisterValid env.isEmail req.body →
      ∃ m, validationMessage env.isEmail registerSchema req.body = some m ∧
        ∀ s, registerUser env s req = (s, ⟨400, message m⟩)) ∧
    (¬ LoginValid env.isEmail req.body →
      ∃ m, validationMessage env.isEmail loginSchema req.body = some m ∧
        ∀ s, loginUser env s req = (s, ⟨400, message m⟩)) ∧
    (¬ ProfileValid env.isEmail req.body →
      ∃ m, validationMessage env.isEmail profileSchema req.body = some m ∧
        ∀ s, updateProfile env s req = (s, ⟨400, message m⟩)) ∧
    (¬ CreateValid req.body →
      ∃ m, validationMessage env.isEmail createTaskSchema req.body = some m ∧
        ∀ s, createTask env s req = (s, ⟨400, message m⟩)) := by
  have key : ∀ (shape : List (String × ZodType))
      (handler : Env → Store → Request → Store × Response),
      (∀ s, ∃ m, validationMessage env.isEmail shape req.body = some m ∧
        handler env s req = (s, ⟨400, message m⟩)) →
      ∃ m, validationMessage env.isEmail shape req.body = some m ∧
        ∀ s, handler env s req = (s, ⟨400, message m⟩) := by
    intro shape handler h
    obtain ⟨m, hm, -⟩ := h ⟨[], [], 0⟩
    refine ⟨m, hm, fun s => ?_⟩
    obtain ⟨m', hm', hr⟩ := h s
    rw [hm] at hm'
    cases hm'
    exact hr
  exact ⟨fun h => key _ registerUser (fun s => registerUser_of_invalid env s req h),
    fun h => key _ loginUser (fun s => loginUser_of_invalid env s req h),
    fun h => key _ updateProfile (fun s => updateProfile_of_invalid env s req h),
    fun h => key _ createTask (fun s => createTask_of_invalid env s req h)⟩

/-- A registration with Ann's e-mail and a short password reports the
password, not "User already exists"; a profile update with an invalid e-mail
by a caller who is not in the store reports 400, not 404. -/
theorem validation_before_store_witness :
    registerUser demoEnv demoStore
        { body := some (.obj [("name", .str "Ann"), ("email", .str "ann@x.com"),
                              ("password", .str "abc")]) }
      = (demoStore, ⟨400, message "String must contain at least 6 character(s)"⟩) ∧
    updateProfile demoEnv demoStore
        { user := some bobReq, body := some (.obj [("email", .str "nobody")]) }
      = (demoStore, ⟨400, message "Invalid email"⟩) := by
  obtain ⟨m₁, h₁, r₁⟩ := (validation_before_store demoEnv
    { body := some (.obj [("name", .str "Ann"), ("email", .str "ann@x.com"),
                          ("password", .str "abc")]) }).1
    (by
      rintro ⟨-, -, ⟨d, hd, hd2⟩⟩
      have h : d = "abc" := by
        have := Option.some.inj hd
        injection this with h
        exact h.symm
      subst h
      revert hd2
      decide)
  obtain ⟨m₂, h₂, r₂⟩ := (validation_before_store demoEnv
    { user := some bobReq, body := some (.obj [("email", .str "nobody")]) }).2.2.1
    (by
      rintro ⟨-, -, h | ⟨d, hd, hd2⟩⟩
      · cases h
      · have h : d = "nobody" := by
          have := Option.some.inj hd
          injection this with h
          exact h.symm
        subst h
        revert hd2
        decide)
  have e₁ : m₁ = "String must contain at least 6 character(s)" :=
    (Option.some.inj h₁).symm
  have e₂ : m₂ = "Invalid email" := (Option.some.inj h₂).symm
  rw [r₁ demoStore, r₂ demoStore, e₁, e₂]
  exact ⟨rfl, rfl⟩

/-- C23: for each of the seven handlers, every request and every store, a
response with status 400 or above has a body that is an object whose only
field is `message`. -/
theorem error_body_is_message (env : Env) (s : Store) (req : Request) :
    (400 ≤ (registerUser env s req).2.status →
      ∃ m, (registerUser env s req).2.body = .obj [("message", .str m)]) ∧
    (400 ≤ (loginUser env s req).2.status →
      ∃ m, (loginUser env s req).2.body = .obj [("message", .str m)]) ∧
    (400 ≤ (updateProfile env s req).2.status →
      ∃ m, (updateProfile env s req).2.body = .obj [("message", .str m)]) ∧
    (400 ≤ (getTasks s req).status →
      ∃ m, (getTasks s req).body = .obj [("message", .str m)]) ∧
    (400 ≤ (createTask env s req).2.status →
      ∃ m, (createTask env s req).2.body = .obj [("message", .str m)]) ∧
    (400 ≤ (updateTask env s req).2.status →
      ∃ m, (updateTask env s req).2.body = .obj [("message", .str m)]) ∧
    (400 ≤ (deleteTask s req).2.status →
      ∃ m, (deleteTask s req).2.body = .obj [("message", .str m)]) := by
  refine ⟨?_, ?_, ?_, ?_, ?_, ?_, ?_⟩
  · unfold registerUser
    repeat' (first | split | (dsimp only; split))
    all_goals first
      | exact fun _ => ⟨_, rfl⟩
      | (intro h; simp at h)
  · unfold loginUser
    repeat' (first | split | (dsimp only; split))
    all_goals first
      | exact fun _ => ⟨_, rfl⟩
      | (intro h; simp at h)
  · unfold updateProfile
    repeat' (first | split | (dsimp only; split))
    all_goals first
      | exact fun _ => ⟨_, rfl⟩
      | (intro h; simp at h)
  · unfold getTasks
    repeat' (first | split | (dsimp only; split))
    all_goals first
      | exact fun _ => ⟨_, rfl⟩
      | (intro h; simp at h)
  · unfold createTask
    repeat' split
    all_goals first
      | exact fun _ => ⟨_, rfl⟩
      | (intro h; simp at h)
  · unfold updateTask
    repeat' (first | split | (dsimp only; split))
    all_goals first
      | exact fun _ => ⟨_, rfl⟩
      | (intro h; simp at h)
  · unfold deleteTask
    repeat' split
    all_goals first
      | exact fun _ => ⟨_, rfl⟩
      | (intro h; simp at h)

theorem chunks_flatMap {α : Type} (l : List α) (k n : Nat) :
    (List.range n).flatMap (fun i => (l.drop (i * k)).take k) = l.take (n * k) := by
  induction n with
  | zero => simp
  | succ n ih =>
    rw [List.range_succ, List.flatMap_append, ih]
    simp only [List.flatMap_cons, List.flatMap_nil, List.append_nil]
    rw [Nat.succ_mul, List.take_add]

set_option exponentiation.threshold 2048 in
set_option maxRecDepth 100000 in
/-- C26, as stated, fails for a limit beyond the largest JavaScript number:
a limit of 400 digits is read as `Infinity`, and the answer reports
`totalPages` 0 for a caller who owns three tasks, so that the pages 1 to
`totalPages` are no page at all and their concatenation omits all three. -/
theorem pages_none_for_infinite_limit :
    limitOf { user := some annReq, query := [("limit", hugeNumber)] } = .infinity false ∧
    (getTasks listStore { user := some annReq, query := [("limit", hugeNumber)] }).status = 200 ∧
    (getTasks listStore { user := some annReq, query := [("limit", hugeNumber)] }).body.field
      "totalPages" = some (.num 0) ∧
    (getTasks listStore { user := some annReq, query := [("limit", hugeNumber)] }).body.field
      "totalTasks" = some (.num 3) ∧
    (List.range 0).flatMap (fun _ => ([] : List Task)) = [] ∧
    (listStore.tasks.filter fun t => t.user == annReq.id).map Task.id = ["id2", "id3", "id5"] := by
  refine ⟨by decide, rfl, rfl, rfl, rfl, by decide⟩

/-- C26, amended: the pages partition the listing for a limit that is read
as a finite number. For a positive finite limit, a caller who owns fewer
than `2 ^ 53` tasks, and requests of that caller for the pages 1, 2, ...,
`totalPages` against one store, each request is answered 200 with a page of
tasks, and these pages put one after the other are exactly the stored tasks
of the caller sorted most recent first, which are a rearrangement of the
caller's stored tasks: each task once, none omitted. -/
theorem pages_partition (s : Store) (caller : ReqUser) (limit : Int) (hl : 0 < limit)
    (hcount : (s.tasks.filter fun t => t.user == caller.id).length < 2 ^ 53)
    (reqs : Nat → Request)
    (hreq : ∀ i, i < (ceilDiv (s.tasks.filter fun t => t.user == caller.id).length limit).toNat →
      (reqs i).user = some caller ∧ pageOf (reqs i) = .int ((i : Int) + 1) ∧
        limitOf (reqs i) = .int limit) :
    ∃ page : Nat → List Task,
      (∀ i, i < (ceilDiv (s.tasks.filter fun t => t.user == caller.id).length limit).toNat →
        getTasks s (reqs i)
          = ⟨200, .obj [("tasks", .arr ((page i).map Task.toJson)),
                        ("page", .num ((i : Int) + 1)), ("limit", .num limit),
                        ("totalPages", .num
                          (ceilDiv (s.tasks.filter fun t => t.user == caller.id).length limit)),
                        ("totalTasks", .num
                          (s.tasks.filter fun t => t.user == caller.id).length)]⟩) ∧
      (List.range (ceilDiv (s.tasks.filter fun t => t.user == caller.id).length limit).toNat).flatMap page
        = (s.tasks.filter fun t => t.user == caller.id).insertionSort newerFirst ∧
      ((s.tasks.filter fun t => t.user == caller.id).insertionSort newerFirst).Perm
        (s.tasks.filter fun t => t.user == caller.id) ∧
      ((s.tasks.filter fun t => t.user == caller.id).insertionSort newerFirst).Pairwise
        (fun a b => b.createdAt ≤ a.createdAt) := by
  refine ⟨fun i => (((s.tasks.filter fun t => t.user == caller.id).insertionSort newerFirst).drop
      (i * limit.toNat)).take limit.toNat,
    ?_, ?_, List.perm_insertionSort newerFirst _, List.sorted_insertionSort newerFirst _⟩
  · intro i hi
    obtain ⟨hu, hp, hlim⟩ := hreq i hi
    have h := getTasks_of_finite s (reqs i) caller ((i : Int) + 1) limit hu hp hlim (by omega)
      hl hcount
    have hskip : (((i : Int) + 1 - 1) * limit).toNat = i * limit.toNat := by
      have h1 : ((i : Int) + 1 - 1) * limit = ((i * limit.toNat : Nat) : Int) := by
        push_cast
        rw [Int.toNat_of_nonneg (Int.le_of_lt hl)]
        ring
      rw [h1]
      exact Int.toNat_natCast _
    rw [h, hskip]
  · rw [chunks_flatMap]
    apply List.take_of_length_le
    rw [(List.perm_insertionSort newerFirst _).length_eq]
    have hspec := (ceilDiv_spec (s.tasks.filter fun t => t.user == caller.id).length limit hl).1
    have hnn := ceilDiv_nonneg (s.tasks.filter fun t => t.user == caller.id).length limit
      (Int.ofNat_nonneg _) hl
    have hcast : (((ceilDiv (s.tasks.filter fun t => t.user == caller.id).length limit).toNat
        * limit.toNat : Nat) : Int)
        = ceilDiv (s.tasks.filter fun t => t.user == caller.id).length limit * limit := by
      push_cast
      rw [Int.toNat_of_nonneg hnn, Int.toNat_of_nonneg (Int.le_of_lt hl)]
    exact Int.ofNat_le.mp (by rw [hcast]; exact hspec)

/-- The two pages of size 2 of Ann's three tasks: the tasks created at times
9 and 5, then the task created at time 2. -/
theorem pages_partition_witness :
    (getTasks listStore { user := some annReq, query := [("page", "1"), ("limit", "2")] }).body.field
      "tasks"
      = some (.arr
          [.obj [("_id", .str "id5"), ("title", .str "V"), ("description", .str "D"),
            ("status", .str "pending"), ("user", .str "id0"), ("createdAt", .num 9),
            ("updatedAt", .num 9)],
           .obj [("_id", .str "id3"), ("title", .str "U"), ("description", .str "D"),
            ("status", .str "pending"), ("user", .str "id0"), ("createdAt", .num 5),
            ("updatedAt", .num 5)]]) ∧
    (getTasks listStore { user := some annReq, query := [("page", "2"), ("limit", "2")] }).body.field
      "tasks"
      = some (.arr
          [.obj [("_id", .str "id2"), ("title", .str "T"), ("description", .str "D"),
            ("status", .str "pending"), ("user", .str "id0"), ("createdAt", .num 2),
            ("updatedAt", .num 2)]]) ∧
    (listStore.tasks.filter fun t => t.user == annReq.id).map Task.id = ["id2", "id3", "id5"] ∧
    ∃ page : Nat → List Task,
      (∀ i, i < (ceilDiv (listStore.tasks.filter fun t => t.user == annReq.id).length 2).toNat →
        getTasks listStore
          { user := some annReq,
            query := [("page", if i = 0 then "1" else "2"), ("limit", "2")] }
          = ⟨200, .obj [("tasks", .arr ((page i).map Task.toJson)),
                        ("page", .num ((i : Int) + 1)), ("limit", .num 2),
                        ("totalPages", .num
                          (ceilDiv (listStore.tasks.filter fun t => t.user == annReq.id).length 2)),
                        ("totalTasks", .num
                          (listStore.tasks.filter fun t => t.user == annReq.id).length)]⟩) ∧
      (List.range (ceilDiv (listStore.tasks.filter fun t => t.user == annReq.id).length 2).toNat).flatMap page
        = (listStore.tasks.filter fun t => t.user == annReq.id).insertionSort newerFirst ∧
      ((listStore.tasks.filter fun t => t.user == annReq.id).insertionSort newerFirst).Perm
        (listStore.tasks.filter fun t => t.user == annReq.id) ∧
      ((listStore.tasks.filter fun t => t.user == annReq.id).insertionSort newerFirst).Pairwise
        (fun a b => b.createdAt ≤ a.createdAt) :=
  ⟨rfl, rfl, by decide, pages_partition listStore annReq 2 (by decide) (by decide)
    (fun i => { user := some annReq,
                query := [("page", if i = 0 then "1" else "2"), ("limit", "2")] })
    (by
      intro i hi
      have h2 : (ceilDiv (listStore.tasks.filter fun t => t.user == annReq.id).length 2).toNat
          = 2 := by decide
      rw [h2] at hi
      match i, hi with
      | 0, _ => exact ⟨rfl, by decide, by decide⟩
      | 1, _ => exact ⟨rfl, by decide, by decide⟩)⟩

/-! ## Frontend: routes, profile stats, task filter and form schemas -/

/-- C28 fails on the code: the Sidebar links to `/profile`, and `App`
declares no route for it, while `/dashboard` and `/tasks` are routed. -/
theorem sidebar_profile_unrouted :
    Sidebar.navItems.map NavItem.path = ["/dashboard", "/tasks", "/profile"] ∧
    App.hasRoute "/dashboard" = true ∧ App.hasRoute "/tasks" = true ∧
    App.hasRoute "/profile" = false ∧
    ¬ ∀ item ∈ Sidebar.navItems, App.hasRoute item.path = true := by
  refine ⟨rfl, by decide, by decide, by decide, ?_⟩
  intro h
  have := h { label := "Profile", path := "/profile" } (by simp [Sidebar.navItems])
  revert this
  decide

theorem profile_request_page (user : Option ReqUser) :
    pageOf (Profile.request user) = .int 1 := by
  rfl

theorem profile_request_limit (user : Option ReqUser) :
    limitOf (Profile.request user) = .int 1000 := by
  rfl

/-- The state `tasks` of `Profile` for a resolved caller: the first 1000
tasks of the caller's listing. -/
theorem profile_fetchTasks (s : Store) (caller : ReqUser) :
    Profile.fetchTasks s (some caller)
      = ((listing s caller.id).take 1000).map Task.toJson := by
  have h := getTasks_of_user s (Profile.request (some caller)) caller rfl
  have hskip : skipOf (Profile.request (some caller)) = .int 0 := by
    rfl
  have h0 : (JsNumber.int 0).toInt64 = 0 := by decide
  have h1000 : (JsNumber.int 1000).toInt64 = 1000 := by decide
  rw [hskip, profile_request_limit, h0, h1000] at h
  simp only [Int.lt_irrefl, if_false, Int.toNat_zero, List.drop_zero] at h
  have hne : ¬ (1000 : Int) = 0 := by decide
  rw [if_neg hne] at h
  unfold Profile.fetchTasks
  rw [h]
  simp [tasksBody, Json.field, List.lookup]

/-- The total `Profile` shows is the number of tasks the caller owns, capped
at 1000. -/
theorem profile_total (s : Store) (caller : ReqUser) :
    (Profile.stats (Profile.fetchTasks s (some caller))).totalTasks
      = min 1000 (ownedBy s caller.id).length := by
  rw [profile_fetchTasks]
  simp [Profile.stats, List.length_take, listing_length]

theorem manyTasks_length : manyTasks.length = 1001 := by
  unfold manyTasks
  rw [List.length_map, List.length_range]

theorem manyTasks_owned : ownedBy manyTasksStore annReq.id = manyTasks := by
  have hs : manyTasksStore.tasks = manyTasks := by
    simp only [manyTasksStore]
  unfold ownedBy
  rw [hs]
  apply List.filter_eq_self.mpr
  intro t ht
  unfold manyTasks at ht
  obtain ⟨i, -, hi⟩ := List.mem_map.mp ht
  rw [← hi]
  rfl

/-- C25 fails on the code: for a user who owns 1001 tasks, all pending, the
backend reports `totalTasks` 1001, and `Profile`, which asks for one page of
at most 1000 tasks and counts what it received, shows a total of 1000 and
1000 pending. -/
theorem profile_total_capped :
    Task.countDocuments manyTasksStore annReq.id = 1001 ∧
    (∃ tasks, getTasks manyTasksStore (Profile.request (some annReq))
      = ⟨200, tasksBody tasks 1 1000 1001⟩) ∧
    (Profile.stats (Profile.fetchTasks manyTasksStore (some annReq))).totalTasks = 1000 ∧
    (Profile.stats (Profile.fetchTasks manyTasksStore (some annReq))).pendingTasks = 1000 := by
  have hlen : (ownedBy manyTasksStore annReq.id).length = 1001 := by
    rw [manyTasks_owned]
    exact manyTasks_length
  have htotal : (Profile.stats (Profile.fetchTasks manyTasksStore (some annReq))).totalTasks
      = 1000 := by
    rw [profile_total, hlen]
    rfl
  refine ⟨hlen, ?_, htotal, ?_⟩
  · have h := getTasks_of_user manyTasksStore (Profile.request (some annReq)) annReq rfl
    have hskip : skipOf (Profile.request (some annReq)) = .int 0 := by
      rfl
    have h0 : (JsNumber.int 0).toInt64 = 0 := by decide
    have h1000 : (JsNumber.int 1000).toInt64 = 1000 := by decide
    rw [hskip, profile_request_page, profile_request_limit, h0, h1000, hlen] at h
    simp only [Int.lt_irrefl, if_false] at h
    exact ⟨_, h⟩
  · have hall : (Profile.fetchTasks manyTasksStore (some annReq)).filter
        (fun t => Profile.statusIs "pending" t || Profile.statusIs "in_progress" t)
        = Profile.fetchTasks manyTasksStore (some annReq) := by
      apply List.filter_eq_self.mpr
      intro j hj
      rw [profile_fetchTasks] at hj
      obtain ⟨t, ht, rfl⟩ := List.mem_map.mp hj
      have h1 : t ∈ listing manyTasksStore annReq.id := List.mem_of_mem_take ht
      have h2 : t ∈ manyTasks := by
        rw [← manyTasks_owned]
        exact (listing_perm manyTasksStore annReq.id).subset h1
      unfold manyTasks at h2
      obtain ⟨i, -, rfl⟩ := List.mem_map.mp h2
      rfl
    have hp : ∀ tasks : List Json, (Profile.stats tasks).pendingTasks
        = (tasks.filter fun t =>
            Profile.statusIs "pending" t || Profile.statusIs "in_progress" t).length :=
      fun _ => rfl
    have ht : ∀ tasks : List Json, (Profile.stats tasks).totalTasks = tasks.length :=
      fun _ => rfl
    rw [hp, hall, ← ht]
    exact htotal

theorem includes_iff (text search : String) :
    includes text search = true ↔ ∃ before after, before ++ search.data ++ after = text.data := by
  simp [includes, List.IsInfix]

theorem includes_empty (text : String) : includes text "" = true := by
  rw [includes_iff]
  exact ⟨[], text.data, rfl⟩

/-- C29: `filteredTasks` is the sublist of the tasks, in their order, of
exactly the tasks whose status is the filter (every task for the filter
"all") and whose lower-cased title or description contains the lower-cased
search string. With the filter "all" and an empty search it is the whole
list, and the two filters give the same result in either order. Lower-casing
is taken to map the empty string to itself. -/
theorem filteredTasks_spec (toLowerCase : String → String) (hlower : toLowerCase "" = "")
    (tasks : List Task) (filter search : String) :
    (Dashboard.filteredTasks toLowerCase tasks filter search).Sublist tasks ∧
    (∀ t, t ∈ Dashboard.filteredTasks toLowerCase tasks filter search ↔
      t ∈ tasks ∧ (filter = "all" ∨ t.status = filter) ∧
        (includes (toLowerCase t.title) (toLowerCase search) = true ∨
          includes (toLowerCase t.description) (toLowerCase search) = true)) ∧
    Dashboard.filteredTasks toLowerCase tasks filter search
      = tasks.filter (fun t =>
          (decide (filter = "all") || t.status == filter) &&
            (includes (toLowerCase t.title) (toLowerCase search) ||
              includes (toLowerCase t.description) (toLowerCase search))) ∧
    Dashboard.filteredTasks toLowerCase tasks "all" "" = tasks ∧
    (tasks.filter fun t =>
        includes (toLowerCase t.title) (toLowerCase search) ||
          includes (toLowerCase t.description) (toLowerCase search)).filter
      (fun t => if filter = "all" then true else t.status == filter)
      = Dashboard.filteredTasks toLowerCase tasks filter search := by
  have hstatus : ∀ t : Task, (if filter = "all" then true else t.status == filter)
      = (decide (filter = "all") || t.status == filter) := by
    intro t
    by_cases h : filter = "all" <;> simp [h]
  refine ⟨?_, ?_, ?_, ?_, ?_⟩
  · exact (List.filter_sublist _).trans (List.filter_sublist _)
  · intro t
    simp only [Dashboard.filteredTasks, List.mem_filter, hstatus, Bool.or_eq_true,
      decide_eq_true_eq, beq_iff_eq]
    tauto
  · simp only [Dashboard.filteredTasks, List.filter_filter, hstatus]
    congr 1
    funext t
    exact Bool.and_comm _ _
  · simp only [Dashboard.filteredTasks, hlower, includes_empty, if_true, Bool.or_self,
      List.filter_true]
  · simp only [Dashboard.filteredTasks, List.filter_filter]
    congr 1
    funext t
    exact Bool.and_comm _ _

/-- The filter "completed" with the search "REP" on two completed tasks
keeps the one whose title contains "rep". -/
theorem filteredTasks_spec_witness :
    Dashboard.filteredTasks asciiLower
        [{ annTask with title := "Write Report", status := "completed" },
         { annTask with title := "Call Bob", status := "completed" }]
        "completed" "REP"
      = [{ annTask with title := "Write Report", status := "completed" }] ∧
    (Dashboard.filteredTasks asciiLower
        [{ annTask with title := "Write Report", status := "completed" },
         { annTask with title := "Call Bob", status := "completed" }]
        "completed" "REP").Sublist
      [{ annTask with title := "Write Report", status := "completed" },
       { annTask with title := "Call Bob", status := "completed" }] ∧
    Dashboard.filteredTasks asciiLower
        [{ annTask with title := "Write Report", status := "completed" },
         { annTask with title := "Call Bob", status := "completed" }]
        "all" ""
      = [{ annTask with title := "Write Report", status := "completed" },
         { annTask with title := "Call Bob", status := "completed" }] :=
  ⟨rfl,
   (filteredTasks_spec asciiLower rfl
      [{ annTask with title := "Write Report", status := "completed" },
       { annTask with title := "Call Bob", status := "completed" }] "completed" "REP").1,
   (filteredTasks_spec asciiLower rfl
      [{ annTask with title := "Write Report", status := "completed" },
       { annTask with title := "Call Bob", status := "completed" }] "completed" "REP").2.2.2.1⟩

theorem flatMap_keyIssues_nil (isEmail : String → Bool) (data : Json)
    (shape : List (String × ZodType)) (h : shape.flatMap (keyIssues isEmail data) = []) :
    ∀ kv ∈ shape, (kv.2.parse isEmail (data.field kv.1)).issues = [] := by
  intro kv hkv
  have := List.flatMap_eq_nil_iff.mp h kv hkv
  simpa [keyIssues] using this

/-- A form value that `registerSchema` of `Register.jsx` accepts, taken
apart. -/
theorem register_form_accepted (isEmail : String → Bool) (form : Option Json) (p : Parsed)
    (h : Register.registerSchemaParse isEmail form = .ok p) :
    ∃ name email password : String,
      2 ≤ jsLength name ∧ isEmail email = true ∧ 6 ≤ jsLength password ∧
      Register.body p = .obj [("name", .str name), ("email", .str email),
                              ("password", .str password)] := by
  unfold Register.registerSchemaParse at h
  split at h
  · rename_i kvs
    simp only at h
    split at h
    · rename_i hnil
      cases h
      have hissues := (List.append_eq_nil.mp hnil).1
      have hfields := flatMap_keyIssues_nil isEmail (.obj kvs) Register.stringShape
        (List.append_eq_nil.mp hissues).1
      have hn := hfields ("name", .string [.min 2 (some "Name must be at least 2 characters")])
        (by simp [Register.stringShape])
      have he := hfields ("email", .string [.email (some "Invalid email address")])
        (by simp [Register.stringShape])
      have hp := hfields
        ("password", .string [.min 6 (some "Password must be at least 6 characters")])
        (by simp [Register.stringShape])
      rw [parse_min_issues] at hn hp
      rw [parse_email_issues] at he
      obtain ⟨name, hn1, hn2⟩ := hn
      obtain ⟨email, he1, he2⟩ := he
      obtain ⟨password, hp1, hp2⟩ := hp
      simp only at hn1 he1 hp1
      refine ⟨name, email, password, hn2, he2, hp2, ?_⟩
      simp [Register.body, Register.stringShape, jsonOfFields, Parsed.opt, List.lookup, hn1, he1,
        hp1, ZodType.parse]
    · cases h
  · cases h

/-- A form value that `taskSchema` of `Dashboard.jsx` accepts, taken apart. -/
theorem task_form_accepted (isEmail : String → Bool) (form : Option Json) (p : Parsed)
    (h : zObjectParse isEmail Dashboard.taskSchema form = .ok p) :
    ∃ title description status : String,
      1 ≤ jsLength title ∧ 1 ≤ jsLength description ∧ status ∈ statuses ∧
      Dashboard.body p = .obj [("title", .str title), ("description", .str description),
                               ("status", .str status)] := by
  unfold zObjectParse at h
  split at h
  · rename_i kvs
    split at h
    · rename_i hnil
      cases h
      have hfields := flatMap_keyIssues_nil isEmail (.obj kvs) Dashboard.taskSchema hnil
      have ht := hfields ("title", .string [.min 1 (some "Title is required")])
        (by simp [Dashboard.taskSchema])
      have hd := hfields ("description", .string [.min 1 (some "Description is required")])
        (by simp [Dashboard.taskSchema])
      have hs := hfields ("status", .enum ["pending", "in_progress", "completed"])
        (by simp [Dashboard.taskSchema])
      rw [parse_min_issues] at ht hd
      obtain ⟨title, ht1, ht2⟩ := ht
      obtain ⟨description, hd1, hd2⟩ := hd
      simp only at ht1 hd1 hs
      have hstatus : ∃ status, (Json.obj kvs).field "status" = some (.str status) ∧
          status ∈ statuses := by
        cases hf : (Json.obj kvs).field "status" with
        | none => simp [ZodType.parse, hf, invalidTypeMessage] at hs
        | some j =>
          cases j with
          | str v =>
            by_cases hv : v ∈ ["pending", "in_progress", "completed"]
            · exact ⟨v, rfl, hv⟩
            · simp [ZodType.parse, hf, hv] at hs
          | _ => simp [ZodType.parse, hf, invalidTypeMessage] at hs
      obtain ⟨status, hs1, hs2⟩ := hstatus
      have hs3 : status ∈ ["pending", "in_progress", "completed"] := hs2
      refine ⟨title, description, status, ht2, hd2, hs2, ?_⟩
      simp [Dashboard.body, Dashboard.taskSchema, jsonOfFields, ht1, hd1, hs1, ZodType.parse, hs3]
    · cases h
  · cases h

/-- C30: the schemas of the frontend refine those of the backend. A form
value that `registerSchema` of `Register.jsx` accepts gives a body
`name`, `email`, `password` that is valid for `registerUser`, so the backend
reports no validation message for it and answers 201 or "User already
exists"; a form value that `taskSchema` of `Dashboard.jsx` accepts gives a
body that is valid for `createTask`, which never answers it with 400. Both
sides check the e-mail with the same syntax. -/
theorem frontend_refines_backend (env : Env) (form : Option Json) (p : Parsed) :
    (Register.registerSchemaParse env.isEmail form = .ok p →
      RegisterValid env.isEmail (some (Register.body p)) ∧
      validationMessage env.isEmail registerSchema (some (Register.body p)) = none ∧
      ∀ (s : Store) (req : Request), req.body = some (Register.body p) →
        (registerUser env s req).2.status = 201 ∨
          registerUser env s req = (s, ⟨400, message "User already exists"⟩)) ∧
    (zObjectParse env.isEmail Dashboard.taskSchema form = .ok p →
      CreateValid (some (Dashboard.body p)) ∧
      validationMessage env.isEmail createTaskSchema (some (Dashboard.body p)) = none ∧
      ∀ (s : Store) (req : Request), req.body = some (Dashboard.body p) →
        (createTask env s req).2.status ≠ 400) := by
  constructor
  · intro h
    obtain ⟨name, email, password, hn, he, hp, hb⟩ :=
      register_form_accepted env.isEmail form p h
    have hvalid : RegisterValid env.isEmail (some (Register.body p)) := by
      rw [hb]
      exact ⟨⟨name, rfl, hn⟩, ⟨email, rfl, he⟩, ⟨password, rfl, hp⟩⟩
    refine ⟨hvalid, (register_message_none_iff _ _).mpr hvalid, ?_⟩
    intro s req hreq
    have hr := registerUser_of_valid env s req name email password
      (by rw [hreq, hb]; rfl) hn (by rw [hreq, hb]; rfl) he (by rw [hreq, hb]; rfl) hp
    rw [hr]
    cases User.findOne s email with
    | some u => exact Or.inr rfl
    | none => exact Or.inl rfl
  · intro h
    obtain ⟨title, description, status, ht, hd, hs, hb⟩ :=
      task_form_accepted env.isEmail form p h
    have hvalid : CreateValid (some (Dashboard.body p)) := by
      rw [hb]
      exact ⟨⟨title, rfl, ht⟩, ⟨description, rfl, hd⟩, Or.inr ⟨status, rfl, hs⟩⟩
    refine ⟨hvalid, (create_message_none_iff _ _).mpr hvalid, ?_⟩
    intro s req hreq
    have hr := createTask_of_valid env s req title description (some status)
      (by rw [hreq, hb]; rfl) ht (by rw [hreq, hb]; rfl) hd (by rw [hreq, hb]; rfl)
      (fun v hv => by cases hv; exact hs)
    rw [hr]
    cases req.user with
    | none => simp
    | some c => simp

/-- Ann's registration form and a task form, both accepted by the frontend,
pass the validation of the backend. -/
theorem frontend_refines_backend_witness :
    RegisterValid demoEnv.isEmail
      (some (.obj [("name", .str "Ann"), ("email", .str "ann@x.com"),
                   ("password", .str "secret1")])) ∧
    CreateValid
      (some (.obj [("title", .str "T"), ("description", .str "D"),
                   ("status", .str "pending")])) :=
  ⟨((frontend_refines_backend demoEnv
      (some (.obj [("name", .str "Ann"), ("email", .str "ann@x.com"),
                   ("password", .str "secret1"), ("confirmPassword", .str "secret1"),
                   ("terms", .bool true)]))
      [("name", some "Ann"), ("email", some "ann@x.com"), ("password", some "secret1"),
       ("confirmPassword", some "secret1")]).1 rfl).1,
   ((frontend_refines_backend demoEnv
      (some (.obj [("title", .str "T"), ("description", .str "D"),
                   ("status", .str "pending")]))
      [("title", some "T"), ("description", some "D"), ("status", some "pending")]).2 rfl).1⟩

end TaskDash
